import Mathlib

/-!
# Stellarium Web Engine: input translation layer and quality controller

A shallow embedding of `src/js/canvas.js` (render tick, mouse and touch
listeners, pinch recogniser) and of the performance part of `src/js/pre.js`
(the adaptive quality timer callback).

Conventions of the embedding.

* JavaScript numbers are elements of an arbitrary linearly ordered field `α`
  (exact arithmetic; instantiate with `ℚ` to evaluate and with `ℝ` for the real
  numbers).  `Math.sqrt` is a parameter `sqrt : α → α` of the functions that
  call it.
* The module-level variables of `canvas.js` (`mouseDown`, `mouseButtons`,
  `mousePos`, `touchState`) and the fields of `Module.core` are explicit state
  records that every handler receives and returns.
* Calls that leave the script (`Module._core_on_mouse`, `Module._core_on_zoom`,
  `Module._core_update`, `Module._core_render`, `window.requestAnimationFrame`,
  `e.preventDefault`) and assignments to `canvas.width` and `canvas.height` are
  recorded, in program order, in a trace `List (Call α)`.
  The calls are assumed to return.
* Values read from the platform inside a handler (`getBoundingClientRect()`,
  `window.devicePixelRatio`, `performance.now()`) are arguments of the handler.
-/

namespace Stellarium

/-! ## Data model -/

/-- Point in canvas-local pixels, the object literal `{x: .., y: ..}`. -/
structure Pos (α : Type) where
  x : α
  y : α
  deriving DecidableEq, Repr

/-- Result of `canvas.getBoundingClientRect()`. -/
structure Rect (α : Type) where
  left : α
  top : α
  width : α
  height : α
  deriving DecidableEq, Repr

/-- Platform `Touch` object, restricted to the fields the listeners read. -/
structure Touch (α : Type) where
  identifier : Int
  pageX : α
  pageY : α
  deriving DecidableEq, Repr

/-- Platform `TouchEvent`, restricted to the two touch lists the listeners read. -/
structure TouchEvent (α : Type) where
  touches : List (Touch α)
  changedTouches : List (Touch α)
  deriving DecidableEq, Repr

/-- Platform `MouseEvent`, restricted to the fields the listeners read. -/
structure MouseEvent (α : Type) where
  clientX : α
  clientY : α
  buttons : Int
  deriving DecidableEq, Repr

/-- Calls that leave the script, recorded in program order. -/
inductive Call (α : Type) where
  | core_on_mouse (id : Int) (state : Int) (x y : α) (buttons : Int)
  | core_on_zoom (k x y : α)
  | core_update
  | core_render (w h dpr : α)
  | requestAnimationFrame
  | preventDefault
  | canvas_set_width (w : α)
  | canvas_set_height (h : α)
  deriving DecidableEq, Repr

/-- The object `touchState` of `setupMouse` (canvas.js lines 99-105). -/
structure TouchState (α : Type) where
  lastTouchTime : α
  touchCount : Nat
  lastScale : α
  pinchStartDist : α
  pinchCenter : Pos α
  deriving DecidableEq, Repr

/-- The variables `mouseDown`, `mouseButtons`, `mousePos` (canvas.js lines 14-16);
`mousePos` is declared without a value, hence `none` until first assigned. -/
structure MouseState (α : Type) where
  mouseDown : Bool
  mouseButtons : Int
  mousePos : Option (Pos α)
  deriving DecidableEq, Repr

/-- Backing surface size, the attributes `canvas.width` and `canvas.height`. -/
structure Canvas (α : Type) where
  width : α
  height : α
  deriving DecidableEq, Repr

/-- The fields of `Module.core` that `pre.js` reads or writes in its mobile,
render-quality and performance sections. -/
structure Core (α : Type) where
  pinch_inertia_enabled : Bool
  pinch_inertia_friction : α
  pan_inertia_enabled : Bool
  pan_inertia_friction : α
  touch_pan_sensitivity : α
  touch_zoom_sensitivity : α
  render_quality_level : Int
  render_label_density : α
  adaptive_fps : Bool
  target_fps : α
  min_fps : α
  skip_frames : Bool
  max_stars_per_frame : α
  max_labels_per_frame : α
  defer_text_render : Bool
  fps : α
  avg_frame_time : α
  star_linear_scale : α
  star_relative_scale : α
  deriving DecidableEq, Repr

/-- Platform wheel event of either legacy shape: a mouse event with its `type`
string and the two delta fields `wheelDelta` and `detail`. -/
structure WheelEvent (α : Type) extends MouseEvent α where
  type : String
  wheelDelta : α
  detail : α
  deriving DecidableEq, Repr

/-- Argument object `{ enabled, friction }` of the inertia settings; an absent
property is `none`. -/
structure InertiaSettings (α : Type) where
  enabled : Option Bool
  friction : Option α
  deriving DecidableEq, Repr

/-- Argument object `{ pan, zoom }` of the touch sensitivity settings. -/
structure SensitivitySettings (α : Type) where
  pan : Option α
  zoom : Option α
  deriving DecidableEq, Repr

/-- Argument object `{ level, labelDensity }` of the render quality settings. -/
structure QualitySettings (α : Type) where
  level : Option α
  labelDensity : Option α
  deriving DecidableEq, Repr

/-- Argument object of `setMobileSettings` (pre.js lines 639-666). -/
structure MobileSettings (α : Type) where
  pinchInertia : Option (InertiaSettings α)
  panInertia : Option (InertiaSettings α)
  touchSensitivity : Option (SensitivitySettings α)
  renderQuality : Option (QualitySettings α)
  deriving DecidableEq, Repr

/-- Argument object of `setPerformanceSettings` (pre.js lines 1853-1888). -/
structure PerformanceSettings (α : Type) where
  adaptiveFps : Option Bool
  targetFps : Option α
  minFps : Option α
  skipFrames : Option Bool
  maxStarsPerFrame : Option α
  maxLabelsPerFrame : Option α
  deferTextRender : Option Bool
  deriving DecidableEq, Repr

/-- The script-level state of the page: the variables of `canvas.js`, the
backing surface size, and whether the `mousedown` listener has already assigned
`document.onmouseup`, `document.onmouseleave` and `document.onmousemove`. -/
structure PageState (α : Type) where
  mouse : MouseState α
  touchState : TouchState α
  canvas : Canvas α
  documentHandlers : Bool
  deriving DecidableEq, Repr

/-- The object `results` that `benchmark` passes to its callback (pre.js lines
2118-2125). -/
structure BenchmarkResults (α : Type) where
  duration : α
  totalFrames : Nat
  avgFps : α
  minFps : α
  maxFps : α
  recommendation : String
  deriving DecidableEq, Repr

/-- The local variables of `benchmark` that `benchmarkLoop` updates (pre.js lines
2097-2100); `minFps = none` stands for the initial `Infinity`. -/
structure BenchmarkState (α : Type) where
  frameCount : Nat
  minFps : Option α
  maxFps : α
  fpsReadings : List α
  deriving DecidableEq, Repr

section Defs

variable {α : Type} [LinearOrderedField α]

/-! ## canvas.js: touch listeners -/

/-- Initial value of `touchState` (canvas.js lines 99-105). -/
def TouchState.init : TouchState α :=
  { lastTouchTime := 0, touchCount := 0, lastScale := 1, pinchStartDist := 0,
    pinchCenter := { x := 0, y := 0 } }

/-- The function `getTouchDistance` (canvas.js lines 108-112). -/
def getTouchDistance (sqrt : α → α) (touch1 touch2 : Touch α) : α :=
  let dx := touch1.pageX - touch2.pageX
  let dy := touch1.pageY - touch2.pageY
  sqrt (dx * dx + dy * dy)

/-- The function `getTouchCenter` (canvas.js lines 115-120). -/
def getTouchCenter (touch1 touch2 : Touch α) (rect : Rect α) : Pos α :=
  { x := ((touch1.pageX + touch2.pageX) / 2) - rect.left,
    y := ((touch1.pageY + touch2.pageY) / 2) - rect.top }

/-- The loop over `e.changedTouches` that closes each of the four touch
listeners (canvas.js lines 134-139, 162-167, 180-185, 195-200); `state` is the
constant second argument the listener passes to `Module._core_on_mouse`. -/
def forwardChangedTouches (rect : Rect α) (state : Int) (changedTouches : List (Touch α)) :
    List (Call α) :=
  changedTouches.map fun t =>
    Call.core_on_mouse t.identifier state (t.pageX - rect.left) (t.pageY - rect.top) 1

/-- The `touchstart` listener (canvas.js lines 122-140). `rect` is the value of
`canvas.getBoundingClientRect()` and `now` the value of `performance.now()`. -/
def touchstart (sqrt : α → α) (touchState : TouchState α) (rect : Rect α) (now : α)
    (e : TouchEvent α) : TouchState α × List (Call α) :=
  let st1 := { touchState with touchCount := e.touches.length, lastTouchTime := now }
  let st2 :=
    match e.touches with
    | [t0, t1] =>
      { st1 with
        pinchStartDist := getTouchDistance sqrt t0 t1
        pinchCenter := getTouchCenter t0 t1 rect
        lastScale := 1 }
    | _ => st1
  (st2, forwardChangedTouches rect 1 e.changedTouches)

/-- The pinch block of the `touchmove` listener (canvas.js lines 148-160). -/
def pinchUpdate (sqrt : α → α) (touchState : TouchState α) (rect : Rect α)
    (touches : List (Touch α)) : TouchState α × List (Call α) :=
  match touches with
  | [t0, t1] =>
    if touchState.pinchStartDist > 0 then
      let currentDist := getTouchDistance sqrt t0 t1
      let scale := currentDist / touchState.pinchStartDist
      let center := getTouchCenter t0 t1 rect
      if |scale - touchState.lastScale| > 0.005 then
        let deltaScale := scale / touchState.lastScale
        ({ touchState with lastScale := scale, pinchCenter := center },
          [Call.core_on_zoom deltaScale center.x center.y])
      else (touchState, [])
    else (touchState, [])
  | _ => (touchState, [])

/-- The `touchmove` listener (canvas.js lines 142-168). -/
def touchmove (sqrt : α → α) (touchState : TouchState α) (rect : Rect α)
    (e : TouchEvent α) : TouchState α × List (Call α) :=
  let st1 := { touchState with touchCount := e.touches.length }
  let r := pinchUpdate sqrt st1 rect e.touches
  (r.1, Call.preventDefault :: (r.2 ++ forwardChangedTouches rect (-1) e.changedTouches))

/-- The `touchend` listener (canvas.js lines 170-186). -/
def touchend (touchState : TouchState α) (rect : Rect α) (e : TouchEvent α) :
    TouchState α × List (Call α) :=
  let st1 :=
    if e.touches.length < 2 then
      { touchState with pinchStartDist := 0, lastScale := 1 }
    else touchState
  let st2 := { st1 with touchCount := e.touches.length }
  (st2, forwardChangedTouches rect 0 e.changedTouches)

/-- The `touchcancel` listener (canvas.js lines 189-201). -/
def touchcancel (touchState : TouchState α) (rect : Rect α) (e : TouchEvent α) :
    TouchState α × List (Call α) :=
  let st1 := { touchState with pinchStartDist := 0, lastScale := 1, touchCount := 0 }
  (st1, forwardChangedTouches rect 0 e.changedTouches)

/-- The four touch event types the canvas listens to. -/
inductive TouchEventType where
  | touchstart
  | touchmove
  | touchend
  | touchcancel
  deriving DecidableEq, Repr

/-- One delivery of a touch event by the platform: the event type, the event
object, and the platform values the listener reads while it runs. -/
structure TouchInput (α : Type) where
  type : TouchEventType
  rect : Rect α
  now : α
  e : TouchEvent α

/-- Dispatch of one touch event to the listener registered for its type. -/
def dispatchTouch (sqrt : α → α) (touchState : TouchState α) (inp : TouchInput α) :
    TouchState α × List (Call α) :=
  match inp.type with
  | .touchstart => touchstart sqrt touchState inp.rect inp.now inp.e
  | .touchmove => touchmove sqrt touchState inp.rect inp.e
  | .touchend => touchend touchState inp.rect inp.e
  | .touchcancel => touchcancel touchState inp.rect inp.e

/-- Delivery of a sequence of touch events in platform order; the traces of the
listeners are concatenated in that order. -/
def runTouch (sqrt : α → α) (touchState : TouchState α) :
    List (TouchInput α) → TouchState α × List (Call α)
  | [] => (touchState, [])
  | inp :: rest =>
    let r := dispatchTouch sqrt touchState inp
    let r' := runTouch sqrt r.1 rest
    (r'.1, r.2 ++ r'.2)

/-- The second argument the listener of each touch event type passes to
`Module._core_on_mouse`. -/
def TouchEventType.phase : TouchEventType → Int
  | .touchstart => 1
  | .touchmove => -1
  | .touchend => 0
  | .touchcancel => 0

/-! ## Observations on traces -/

/-- The `Module._core_on_zoom` calls of a trace, in order. -/
def zoomCalls (tr : List (Call α)) : List (Call α) :=
  tr.filter fun c => match c with
    | .core_on_zoom _ _ _ => true
    | _ => false

/-- The `Module._core_on_mouse` calls of a trace, in order. -/
def pointerCalls (tr : List (Call α)) : List (Call α) :=
  tr.filter fun c => match c with
    | .core_on_mouse _ _ _ _ _ => true
    | _ => false

/-- The phases (second argument) of the `Module._core_on_mouse` calls of a
trace whose identity (first argument) is `i`, in order. -/
def pointerPhases (i : Int) (tr : List (Call α)) : List Int :=
  tr.filterMap fun c => match c with
    | .core_on_mouse id state _ _ _ => if id = i then some state else none
    | _ => none

/-- Number of entries of an event's `changedTouches` whose identifier is `i`. -/
def listsTouch (i : Int) (inp : TouchInput α) : Nat :=
  (inp.e.changedTouches.map Touch.identifier).count i

/-! ## canvas.js: render tick and mouse listeners -/

/-- The expression `window.devicePixelRatio || 1` (canvas.js line 28); an absent
ratio is `none`, and the only falsy number of exact arithmetic is `0`. -/
def dprOrOne (devicePixelRatio : Option α) : α :=
  match devicePixelRatio with
  | some r => if r = 0 then 1 else r
  | none => 1

/-- The test `sizeChanged` of the render tick (canvas.js lines 35-36). -/
def sizeChanged (canvas : Canvas α) (rect : Rect α) : Bool :=
  decide (canvas.width ≠ rect.width) || decide (canvas.height ≠ rect.height)

/-- The function `render`, called at each frame (canvas.js lines 19-49). The
result is `none` when the tick throws before reaching the engine: `mouseDown`
is set while `mousePos` is still undefined. -/
def render (ms : MouseState α) (canvas : Canvas α) (devicePixelRatio : Option α)
    (rect : Rect α) : Option (Canvas α × List (Call α)) :=
  let synthetic : Option (List (Call α)) :=
    if ms.mouseDown then
      match ms.mousePos with
      | some mousePos => some [Call.core_on_mouse 0 1 mousePos.x mousePos.y ms.mouseButtons]
      | none => none
    else some []
  match synthetic with
  | none => none
  | some pre =>
    let dpr := dprOrOne devicePixelRatio
    let displayWidth := rect.width
    let displayHeight := rect.height
    let resized : Canvas α × List (Call α) :=
      if sizeChanged canvas rect then
        ({ width := displayWidth * dpr, height := displayHeight * dpr },
          [Call.canvas_set_width (displayWidth * dpr),
           Call.canvas_set_height (displayHeight * dpr)])
      else (canvas, [])
    some (resized.1,
      pre ++ resized.2 ++
        [Call.core_update, Call.core_render displayWidth displayHeight dpr,
         Call.requestAnimationFrame])

/-- The function `getMousePos` (canvas.js lines 64-70). -/
def getMousePos (rect : Rect α) (evt : MouseEvent α) : Pos α :=
  { x := evt.clientX - rect.left, y := evt.clientY - rect.top }

/-- The `mousedown` listener of the canvas (canvas.js lines 72-96), without the
installation of the three document-level handlers. -/
def mousedown (_ms : MouseState α) (rect : Rect α) (e : MouseEvent α) : MouseState α :=
  { mouseDown := true, mousePos := some (getMousePos rect e), mouseButtons := e.buttons }

/-- The handler `document.onmouseup` (canvas.js lines 80-86). -/
def onmouseup (ms : MouseState α) (rect : Rect α) (e : MouseEvent α) :
    MouseState α × List (Call α) :=
  let mousePos := getMousePos rect e
  ({ ms with mouseDown := false, mousePos := some mousePos },
    [Call.core_on_mouse 0 0 mousePos.x mousePos.y ms.mouseButtons])

/-- The handler `document.onmouseleave` (canvas.js lines 87-89). -/
def onmouseleave (ms : MouseState α) : MouseState α :=
  { ms with mouseDown := false }

/-- The handler `document.onmousemove` (canvas.js lines 91-95). -/
def onmousemove (ms : MouseState α) (rect : Rect α) (e : MouseEvent α) : MouseState α :=
  { ms with mousePos := some (getMousePos rect e) }

/-- Initial values of `mouseDown`, `mouseButtons`, `mousePos` (canvas.js lines 14-16). -/
def MouseState.init : MouseState α :=
  { mouseDown := false, mouseButtons := 0, mousePos := none }

/-- The calls of a trace that belong to the update/render/reschedule part of a tick. -/
def isFrameCall (c : Call α) : Bool :=
  match c with
  | .core_update => true
  | .core_render _ _ _ => true
  | .requestAnimationFrame => true
  | _ => false

/-- The assignments to the backing surface size recorded in a trace. -/
def resizeCalls (tr : List (Call α)) : List (Call α) :=
  tr.filter fun c => match c with
    | .canvas_set_width _ => true
    | .canvas_set_height _ => true
    | _ => false

/-! ## pre.js: adaptive quality controller -/

/-- The body of the interval callback of `enableAdaptiveQuality` after the guard
on `Module.core` (pre.js lines 2010-2028): one evaluation of the controller.
The quotient `1000 / target_fps` is the field's, which follows the source for
`target_fps ≠ 0`; at `target_fps = 0` the source has `Infinity` where the field
has `0`, so statements about the branch taken assume `target_fps > 0`. -/
def adaptiveQualityEvaluate (core : Core α) : Core α :=
  let avgFrameTime := core.avg_frame_time
  let targetFrameTime := 1000 / core.target_fps
  if avgFrameTime > targetFrameTime * 1.5 then
    let currentQuality := core.render_quality_level
    if currentQuality > 0 then
      { core with
        render_quality_level := currentQuality - 1
        render_label_density := max 0.3 (core.render_label_density - 0.2) }
    else core
  else if avgFrameTime < targetFrameTime * 0.7 then
    let currentQuality := core.render_quality_level
    if currentQuality < 2 then
      { core with
        render_quality_level := currentQuality + 1
        render_label_density := min 1.0 (core.render_label_density + 0.1) }
    else core
  else core

/-- The interval callback of `enableAdaptiveQuality` (pre.js lines 2004-2029);
`Module.core` may be absent. The boolean tells whether `clearInterval` was
called on the callback's own handle. -/
def checkIntervalCallback (core : Option (Core α)) : Option (Core α) × Bool :=
  match core with
  | none => (none, true)
  | some c => (some (adaptiveQualityEvaluate c), false)

/-- Whenever a button is held, the last known position has been assigned: the
condition under which the first statement of `render` does not throw. -/
def MouseState.posKnown (ms : MouseState α) : Prop :=
  ms.mouseDown = true → ms.mousePos ≠ none

/-- A `Module.core` record with the documented defaults of `pre.js` in every
field but the four the quality controller reads (used to evaluate the
controller on concrete inputs). -/
def Core.sample (level : Int) (labelDensity targetFps avgFrameTime : α) : Core α :=
  { pinch_inertia_enabled := true, pinch_inertia_friction := 0.92,
    pan_inertia_enabled := true, pan_inertia_friction := 0.95,
    touch_pan_sensitivity := 1.0, touch_zoom_sensitivity := 1.0,
    render_quality_level := level, render_label_density := labelDensity,
    adaptive_fps := true, target_fps := targetFps, min_fps := 30,
    skip_frames := false, max_stars_per_frame := 0, max_labels_per_frame := 0,
    defer_text_render := false, fps := 1000 / avgFrameTime,
    avg_frame_time := avgFrameTime, star_linear_scale := 0.8, star_relative_scale := 1.1 }

/-! ## canvas.js: wheel listener -/

/-- The function `getMouseWheelDelta` (canvas.js lines 203-216); the `throw` of
the default case is the error value. -/
def getMouseWheelDelta (event : WheelEvent α) : Except String α :=
  if event.type = "DOMMouseScroll" then
    Except.ok (-event.detail)
  else if event.type = "mousewheel" then
    Except.ok (event.wheelDelta / 120)
  else
    Except.error ("unrecognized mouse wheel event: " ++ event.type)

/-- The function `onWheelEvent` (canvas.js lines 218-226), registered for both
wheel event types; `pow` is `Math.pow`. The result is the trace of the calls made
and the outcome: the returned `false`, or the uncaught exception. -/
def onWheelEvent (pow : α → α → α) (rect : Rect α) (e : WheelEvent α) :
    List (Call α) × Except String Bool :=
  let pos := getMousePos rect e.toMouseEvent
  let zoom_factor : α := 1.05
  match getMouseWheelDelta e with
  | Except.error msg => ([Call.preventDefault], Except.error msg)
  | Except.ok d =>
    let delta := d * 2
    ([Call.preventDefault, Call.core_on_zoom (pow zoom_factor delta) pos.x pos.y],
      Except.ok false)

/-! ## The page as a whole -/

/-- The events the script has listeners for: the `mousedown` listener of the
canvas, the three document-level mouse handlers, the four touch listeners, the
wheel listener and the animation frame callback `render`. -/
inductive PageEvent (α : Type) where
  | mousedown (rect : Rect α) (e : MouseEvent α)
  | documentMouseup (rect : Rect α) (e : MouseEvent α)
  | documentMouseleave
  | documentMousemove (rect : Rect α) (e : MouseEvent α)
  | touch (inp : TouchInput α)
  | wheel (rect : Rect α) (e : WheelEvent α)
  | frame (devicePixelRatio : Option α) (rect : Rect α)

/-- Initial page state (canvas.js lines 14-16 and 99-105) for a given initial
backing surface size; the document-level handlers are not yet assigned. -/
def PageState.init (canvas : Canvas α) : PageState α :=
  { mouse := MouseState.init, touchState := TouchState.init, canvas := canvas,
    documentHandlers := false }

/-- Delivery of one event to its listener. Document-level mouse events have no
handler until the first `mousedown` on the canvas assigns them. A frame whose
first statement throws makes no call. -/
def step (sqrt : α → α) (pow : α → α → α) (s : PageState α) :
    PageEvent α → PageState α × List (Call α)
  | .mousedown rect e =>
    ({ s with mouse := mousedown s.mouse rect e, documentHandlers := true }, [])
  | .documentMouseup rect e =>
    if s.documentHandlers then
      let r := onmouseup s.mouse rect e
      ({ s with mouse := r.1 }, r.2)
    else (s, [])
  | .documentMouseleave =>
    if s.documentHandlers then ({ s with mouse := onmouseleave s.mouse }, []) else (s, [])
  | .documentMousemove rect e =>
    if s.documentHandlers then ({ s with mouse := onmousemove s.mouse rect e }, [])
    else (s, [])
  | .touch inp =>
    let r := dispatchTouch sqrt s.touchState inp
    ({ s with touchState := r.1 }, r.2)
  | .wheel rect e => (s, (onWheelEvent pow rect e).1)
  | .frame devicePixelRatio rect =>
    match render s.mouse s.canvas devicePixelRatio rect with
    | some r => ({ s with canvas := r.1 }, r.2)
    | none => (s, [])

/-- Delivery of a sequence of events in order, with the concatenated trace. -/
def run (sqrt : α → α) (pow : α → α → α) (s : PageState α) :
    List (PageEvent α) → PageState α × List (Call α)
  | [] => (s, [])
  | ev :: rest =>
    let r := step sqrt pow s ev
    let r' := run sqrt pow r.1 rest
    (r'.1, r.2 ++ r'.2)

/-! ## pre.js: settings of the mobile, quality and performance sections -/

/-- The function `setPinchInertia` (pre.js lines 518-526). -/
def setPinchInertia (core : Core α) (enabled : Option Bool) (friction : Option α) : Core α :=
  let c1 :=
    match enabled with
    | some enabled => { core with pinch_inertia_enabled := enabled }
    | none => core
  match friction with
  | some friction => { c1 with pinch_inertia_friction := max 0 (min 1 friction) }
  | none => c1

/-- The function `setPanInertia` (pre.js lines 551-559). -/
def setPanInertia (core : Core α) (enabled : Option Bool) (friction : Option α) : Core α :=
  let c1 :=
    match enabled with
    | some enabled => { core with pan_inertia_enabled := enabled }
    | none => core
  match friction with
  | some friction => { c1 with pan_inertia_friction := max 0 (min 1 friction) }
  | none => c1

/-- The function `setTouchSensitivity` (pre.js lines 583-590). -/
def setTouchSensitivity (core : Core α) (pan : Option α) (zoom : Option α) : Core α :=
  let c1 :=
    match pan with
    | some pan => { core with touch_pan_sensitivity := max 0.1 (min 5 pan) }
    | none => core
  match zoom with
  | some zoom => { c1 with touch_zoom_sensitivity := max 0.1 (min 5 zoom) }
  | none => c1

/-- The function `setRenderQuality` (pre.js lines 615-622); `Math.floor` is the
floor of the ordered field. -/
def setRenderQuality [FloorRing α] (core : Core α) (level : Option α)
    (labelDensity : Option α) : Core α :=
  let c1 :=
    match level with
    | some level => { core with render_quality_level := max 0 (min 2 (Int.floor level)) }
    | none => core
  match labelDensity with
  | some labelDensity => { c1 with render_label_density := max 0 (min 1 labelDensity) }
  | none => c1

/-- The function `setMobileSettings` (pre.js lines 649-666). -/
def setMobileSettings [FloorRing α] (core : Core α) (settings : MobileSettings α) : Core α :=
  let c1 :=
    match settings.pinchInertia with
    | some pinchInertia => setPinchInertia core pinchInertia.enabled pinchInertia.friction
    | none => core
  let c2 :=
    match settings.panInertia with
    | some panInertia => setPanInertia c1 panInertia.enabled panInertia.friction
    | none => c1
  let c3 :=
    match settings.touchSensitivity with
    | some touchSensitivity =>
      setTouchSensitivity c2 touchSensitivity.pan touchSensitivity.zoom
    | none => c2
  match settings.renderQuality with
  | some renderQuality => setRenderQuality c3 renderQuality.level renderQuality.labelDensity
  | none => c3

/-- The function `enableMobileOptimizations` (pre.js lines 692-708). -/
def enableMobileOptimizations [FloorRing α] (core : Core α) (aggressive : Bool) : Core α :=
  if aggressive then
    setMobileSettings core
      { pinchInertia := some { enabled := some true, friction := some 0.88 },
        panInertia := some { enabled := some true, friction := some 0.90 },
        touchSensitivity := some { pan := some 1.2, zoom := some 1.0 },
        renderQuality := some { level := some 1, labelDensity := some 0.6 } }
  else
    setMobileSettings core
      { pinchInertia := some { enabled := some true, friction := some 0.92 },
        panInertia := some { enabled := some true, friction := some 0.95 },
        touchSensitivity := some { pan := some 1.0, zoom := some 1.0 },
        renderQuality := some { level := some 2, labelDensity := some 0.8 } }

/-- The function `disableMobileOptimizations` (pre.js lines 714-721). -/
def disableMobileOptimizations [FloorRing α] (core : Core α) : Core α :=
  setMobileSettings core
    { pinchInertia := some { enabled := some false, friction := some 0.92 },
      panInertia := some { enabled := some false, friction := some 0.95 },
      touchSensitivity := some { pan := some 1.0, zoom := some 1.0 },
      renderQuality := some { level := some 2, labelDensity := some 1.0 } }

/-- The function `setStarScale` (pre.js lines 1486-1493). -/
def setStarScale (core : Core α) (linearScale : Option α) (relativeScale : Option α) :
    Core α :=
  let c1 :=
    match linearScale with
    | some linearScale => { core with star_linear_scale := linearScale }
    | none => core
  match relativeScale with
  | some relativeScale => { c1 with star_relative_scale := relativeScale }
  | none => c1

/-- The function `setPerformanceSettings` (pre.js lines 1866-1888). -/
def setPerformanceSettings (core : Core α) (settings : PerformanceSettings α) : Core α :=
  let c1 :=
    match settings.adaptiveFps with
    | some v => { core with adaptive_fps := v }
    | none => core
  let c2 :=
    match settings.targetFps with
    | some v => { c1 with target_fps := max 1 (min 120 v) }
    | none => c1
  let c3 :=
    match settings.minFps with
    | some v => { c2 with min_fps := max 1 (min 60 v) }
    | none => c2
  let c4 :=
    match settings.skipFrames with
    | some v => { c3 with skip_frames := v }
    | none => c3
  let c5 :=
    match settings.maxStarsPerFrame with
    | some v => { c4 with max_stars_per_frame := max 0 v }
    | none => c4
  let c6 :=
    match settings.maxLabelsPerFrame with
    | some v => { c5 with max_labels_per_frame := max 0 v }
    | none => c5
  match settings.deferTextRender with
  | some v => { c6 with defer_text_render := v }
  | none => c6

/-- The function `setLowPowerMode` (pre.js lines 1931-1960). -/
def setLowPowerMode [FloorRing α] (core : Core α) (enabled : Bool) : Core α :=
  if enabled then
    let c1 := setPerformanceSettings core
      { adaptiveFps := some true, targetFps := some 30, minFps := some 15,
        skipFrames := some true, maxStarsPerFrame := some 5000,
        maxLabelsPerFrame := some 50, deferTextRender := some true }
    let c2 := setRenderQuality c1 (some 0) none
    setMobileSettings c2
      { pinchInertia := some { enabled := some true, friction := some 0.85 },
        panInertia := some { enabled := some true, friction := some 0.90 },
        touchSensitivity := none,
        renderQuality := some { level := some 0, labelDensity := some 0.5 } }
  else
    let c1 := setPerformanceSettings core
      { adaptiveFps := some false, targetFps := some 60, minFps := some 30,
        skipFrames := some false, maxStarsPerFrame := some 0,
        maxLabelsPerFrame := some 0, deferTextRender := some false }
    setRenderQuality c1 (some 2) none

/-- The function `setHighPerformanceMode` (pre.js lines 1969-1994). -/
def setHighPerformanceMode [FloorRing α] (core : Core α) (enabled : Bool) : Core α :=
  if enabled then
    let c1 := setPerformanceSettings core
      { adaptiveFps := some false, targetFps := some 60, minFps := some 60,
        skipFrames := some false, maxStarsPerFrame := some 0,
        maxLabelsPerFrame := some 0, deferTextRender := some false }
    let c2 := setRenderQuality c1 (some 2) none
    setStarScale c2 (some 1.0) (some 1.2)
  else
    setPerformanceSettings core
      { adaptiveFps := some false, targetFps := some 60, minFps := some 30,
        skipFrames := some false, maxStarsPerFrame := some 0,
        maxLabelsPerFrame := some 0, deferTextRender := some false }

/-- The function `enableAdaptiveQuality` without its callback (pre.js lines
2000-2032): it sets `adaptive_fps` and returns the handle `checkInterval` that
`setInterval` gave for the callback. -/
def enableAdaptiveQuality (core : Core α) (checkInterval : Nat) : Core α × Nat :=
  ({ core with adaptive_fps := true }, checkInterval)

/-- One firing of the timer that `enableAdaptiveQuality` registered under the
handle `checkInterval`: the callback runs, and the list holds the handles it
passed to `clearInterval`. -/
def intervalFire (checkInterval : Nat) (core : Option (Core α)) :
    Option (Core α) × List Nat :=
  let r := checkIntervalCallback core
  (r.1, if r.2 then [checkInterval] else [])

/-- The operations that write the quality level or the label density. A
controller evaluation comes with the average frame time the engine reports at
that moment. -/
inductive QualityOp (α : Type) where
  | evaluate (avgFrameTime : α)
  | setRenderQuality (level : Option α) (labelDensity : Option α)
  | setMobileSettings (settings : MobileSettings α)
  | enableMobileOptimizations (aggressive : Bool)
  | disableMobileOptimizations
  | setLowPowerMode (enabled : Bool)
  | setHighPerformanceMode (enabled : Bool)

/-- Effect of one quality operation on `Module.core`. -/
def QualityOp.apply [FloorRing α] (core : Core α) : QualityOp α → Core α
  | .evaluate avgFrameTime =>
    adaptiveQualityEvaluate { core with avg_frame_time := avgFrameTime }
  | .setRenderQuality level labelDensity => Stellarium.setRenderQuality core level labelDensity
  | .setMobileSettings settings => Stellarium.setMobileSettings core settings
  | .enableMobileOptimizations aggressive =>
    Stellarium.enableMobileOptimizations core aggressive
  | .disableMobileOptimizations => Stellarium.disableMobileOptimizations core
  | .setLowPowerMode enabled => Stellarium.setLowPowerMode core enabled
  | .setHighPerformanceMode enabled => Stellarium.setHighPerformanceMode core enabled

/-- The quality range predicate: level in `{0, 1, 2}`, label density in `[0, 1]`. -/
def Core.qualityInRange (core : Core α) : Prop :=
  (0 ≤ core.render_quality_level ∧ core.render_quality_level ≤ 2) ∧
    (0 ≤ core.render_label_density ∧ core.render_label_density ≤ 1)

instance Core.decidableQualityInRange (core : Core α) : Decidable core.qualityInRange := by
  unfold Core.qualityInRange
  infer_instance

/-- Consistency of one touch event with `n` live touches before it: a
`touchstart` adds its changed touches, a `touchmove` keeps the live touches, a
`touchend` or `touchcancel` removes its changed touches; `touches` lists the
touches live after the event. -/
def TouchInput.consistent (n : Nat) (inp : TouchInput α) : Bool :=
  match inp.type with
  | .touchstart =>
    decide (1 ≤ inp.e.changedTouches.length ∧
      inp.e.touches.length = n + inp.e.changedTouches.length)
  | .touchmove => decide (inp.e.touches.length = n)
  | .touchend =>
    decide (1 ≤ inp.e.changedTouches.length ∧
      inp.e.touches.length + inp.e.changedTouches.length = n)
  | .touchcancel =>
    decide (1 ≤ inp.e.changedTouches.length ∧
      inp.e.touches.length + inp.e.changedTouches.length = n)

/-- Consistency of a run of touch events with `n` live touches at its start. -/
def consistentRun (n : Nat) : List (TouchInput α) → Bool
  | [] => true
  | inp :: rest => inp.consistent n && consistentRun inp.e.touches.length rest

/-- Number of live touches after a run that starts with `n` live touches. -/
def liveAfter (n : Nat) : List (TouchInput α) → Nat
  | [] => n
  | inp :: rest => liveAfter inp.e.touches.length rest

/-- The page state after a press on the canvas followed by document-level mouse
moves, each with the rectangle queried while its handler runs. -/
def afterPress (sqrt : α → α) (pow : α → α → α) (s : PageState α) (rect0 : Rect α)
    (e0 : MouseEvent α) (moves : List (Rect α × MouseEvent α)) : PageState α :=
  (run sqrt pow (step sqrt pow s (PageEvent.mousedown rect0 e0)).1
    (moves.map fun m => PageEvent.documentMousemove m.1 m.2)).1

/-! ## pre.js: benchmark and autoOptimize -/

/-- Initial values of the local variables of `benchmark` (pre.js lines 2097-2100). -/
def BenchmarkState.init : BenchmarkState α :=
  { frameCount := 0, minFps := none, maxFps := 0, fpsReadings := [] }

/-- The branch `elapsed < duration` of `benchmarkLoop` (pre.js lines 2106-2112);
`fps` is the value of `Module.core.fps` read in that refresh. -/
def benchmarkSample (st : BenchmarkState α) (fps : α) : BenchmarkState α :=
  let st1 := { st with frameCount := st.frameCount + 1 }
  let currentFps := if fps = 0 then 0 else fps
  if currentFps > 0 then
    { st1 with
      fpsReadings := st1.fpsReadings ++ [currentFps]
      minFps := some (match st1.minFps with
        | none => currentFps
        | some m => min m currentFps)
      maxFps := max st1.maxFps currentFps }
  else st1

/-- The branch `elapsed >= duration` of `benchmarkLoop` (pre.js lines 2114-2125):
the results object. -/
def benchmarkReport (duration : α) (st : BenchmarkState α) : BenchmarkResults α :=
  let avgFps :=
    if st.fpsReadings.length > 0 then
      st.fpsReadings.foldl (fun a b => a + b) 0 / (st.fpsReadings.length : α)
    else 0
  { duration := duration
    totalFrames := st.frameCount
    avgFps := avgFps
    minFps := match st.minFps with
      | none => 0
      | some m => m
    maxFps := st.maxFps
    recommendation := if avgFps > 50 then "high" else if avgFps > 30 then "medium" else "low" }

/-- The function `benchmarkLoop` over the display refreshes that follow (pre.js
lines 2102-2140): each refresh comes with the value of `Date.now()` and of
`Module.core.fps`. The result is `none` while the benchmark is still running
when the refreshes end. -/
def benchmarkLoop (duration startTime : α) (st : BenchmarkState α) :
    List (α × α) → Option (BenchmarkResults α)
  | [] => none
  | (now, fps) :: rest =>
    let elapsed := (now - startTime) / 1000
    if elapsed < duration then
      benchmarkLoop duration startTime (benchmarkSample st fps) rest
    else some (benchmarkReport duration st)

/-- The expression `duration || 5` (pre.js line 2096). -/
def durationOrDefault (duration : Option α) : α :=
  match duration with
  | some d => if d = 0 then 5 else d
  | none => 5

/-- The function `benchmark` (pre.js lines 2095-2144): `startTime` is the value
of `Date.now()` at the call, `frames` the refreshes that follow; the result is
what the callback receives. -/
def benchmark (duration : Option α) (startTime : α) (frames : List (α × α)) :
    Option (BenchmarkResults α) :=
  benchmarkLoop (durationOrDefault duration) startTime BenchmarkState.init frames

/-- The callback that `autoOptimize` passes to `benchmark` (pre.js lines
2154-2176): the new `Module.core` and the value passed on to the caller's
callback. -/
def autoOptimizeCallback [FloorRing α] (core : Core α) (results : BenchmarkResults α) :
    Core α × String :=
  let quality := results.recommendation
  let core' :=
    if quality = "low" then
      setLowPowerMode core true
    else if quality = "medium" then
      let c1 := setPerformanceSettings core
        { adaptiveFps := some true, targetFps := some 45, minFps := none,
          skipFrames := some true, maxStarsPerFrame := some 10000,
          maxLabelsPerFrame := some 100, deferTextRender := none }
      setRenderQuality c1 (some 1) none
    else
      setHighPerformanceMode core true
  (core', quality)

/-- The function `autoOptimize` (pre.js lines 2153-2177): a benchmark of 3
seconds, then the callback on its results. -/
def autoOptimize [FloorRing α] (core : Core α) (startTime : α) (frames : List (α × α)) :
    Option (Core α × String) :=
  (benchmark (some 3) startTime frames).map (autoOptimizeCallback core)

/-! ## pre.js: getters of the mobile section -/

/-- The function `getPinchInertia` (pre.js lines 535-540). -/
def getPinchInertia (core : Core α) : InertiaSettings α :=
  { enabled := some core.pinch_inertia_enabled, friction := some core.pinch_inertia_friction }

/-- The function `getPanInertia` (pre.js lines 568-573). -/
def getPanInertia (core : Core α) : InertiaSettings α :=
  { enabled := some core.pan_inertia_enabled, friction := some core.pan_inertia_friction }

/-- The function `getTouchSensitivity` (pre.js lines 599-604). -/
def getTouchSensitivity (core : Core α) : SensitivitySettings α :=
  { pan := some core.touch_pan_sensitivity, zoom := some core.touch_zoom_sensitivity }

/-- The function `getRenderQuality` (pre.js lines 631-636); the integer level is
read as a number. -/
def getRenderQuality (core : Core α) : QualitySettings α :=
  { level := some (core.render_quality_level : α),
    labelDensity := some core.render_label_density }

/-- The function `getMobileSettings` (pre.js lines 675-682). -/
def getMobileSettings (core : Core α) : MobileSettings α :=
  { pinchInertia := some (getPinchInertia core),
    panInertia := some (getPanInertia core),
    touchSensitivity := some (getTouchSensitivity core),
    renderQuality := some (getRenderQuality core) }

/-! ## pre.js: angle normalisation -/

/-- The remainder operator `%` on numbers: the remainder of the division
truncated towards zero, which takes the sign of the dividend. -/
def jsRem [FloorRing α] (a b : α) : α :=
  a - b * (if 0 ≤ a / b then ((Int.floor (a / b) : Int) : α) else ((Int.ceil (a / b) : Int) : α))

/-- The function `Math.sign`. -/
def mathSign (a : α) : α :=
  if 0 < a then 1 else if a < 0 then -1 else 0

/-- The function `anpm` (pre.js lines 286-291); `pi` is `Math.PI`. -/
def anpm [FloorRing α] (pi : α) (a : α) : α :=
  let v := jsRem a (2 * pi)
  if |v| ≥ pi then v - 2 * pi * mathSign a else v

/-! ## Further observations -/

/-- The factors (first argument) of the `Module._core_on_zoom` calls of a trace,
in order. -/
def zoomFactors (tr : List (Call α)) : List α :=
  tr.filterMap fun c => match c with
    | .core_on_zoom k _ _ => some k
    | _ => none

/-- Successive controller evaluations, one per average frame time reading. -/
def evaluateReadings (core : Core α) (readings : List α) : Core α :=
  readings.foldl (fun c t => adaptiveQualityEvaluate { c with avg_frame_time := t }) core

/-- The strictly positive fps readings of a list of refreshes, in order. -/
def positiveReadings (samples : List (α × α)) : List α :=
  (samples.map Prod.snd).filter fun x => decide (0 < x)

/-- The benchmark variables summarise the readings pushed so far: all are
positive, and `minFps` and `maxFps` are `Infinity` and `0` when there are none,
else the least and the greatest of them. -/
def BenchmarkState.summarises (st : BenchmarkState α) : Prop :=
  (∀ x ∈ st.fpsReadings, 0 < x) ∧
    (st.fpsReadings = [] → st.minFps = none ∧ st.maxFps = 0) ∧
    (st.fpsReadings ≠ [] →
      ∃ m, st.minFps = some m ∧ m ∈ st.fpsReadings ∧ (∀ x ∈ st.fpsReadings, m ≤ x) ∧
        st.maxFps ∈ st.fpsReadings ∧ ∀ x ∈ st.fpsReadings, x ≤ st.maxFps)

/-- Whether a page event is an animation frame. -/
def PageEvent.isFrame : PageEvent α → Bool
  | .frame _ _ => true
  | _ => false

/-- Whether a page event is a document-level mouse move or an animation frame. -/
def PageEvent.isMoveOrFrame : PageEvent α → Bool
  | .documentMousemove _ _ => true
  | .frame _ _ => true
  | _ => false

end Defs

section Theorems

variable {α : Type}

/-! ## Touch listeners: traces -/

theorem zoomCalls_append (a b : List (Call α)) :
    zoomCalls (a ++ b) = zoomCalls a ++ zoomCalls b := by
  simp [zoomCalls]

theorem pointerCalls_append (a b : List (Call α)) :
    pointerCalls (a ++ b) = pointerCalls a ++ pointerCalls b := by
  simp [pointerCalls]

theorem pointerPhases_append (i : Int) (a b : List (Call α)) :
    pointerPhases i (a ++ b) = pointerPhases i a ++ pointerPhases i b := by
  simp [pointerPhases]

theorem zoomCalls_forwardChangedTouches [LinearOrderedField α] (rect : Rect α) (state : Int) (l : List (Touch α)) :
    zoomCalls (forwardChangedTouches rect state l) = [] := by
  induction l with
  | nil => rfl
  | cons t l ih =>
    simp [zoomCalls, forwardChangedTouches]

theorem pointerCalls_forwardChangedTouches [LinearOrderedField α] (rect : Rect α) (state : Int)
    (l : List (Touch α)) :
    pointerCalls (forwardChangedTouches rect state l) = forwardChangedTouches rect state l := by
  induction l with
  | nil => rfl
  | cons t l ih =>
    simp [pointerCalls, forwardChangedTouches]

theorem pointerPhases_forwardChangedTouches [LinearOrderedField α] (i : Int) (rect : Rect α) (state : Int)
    (l : List (Touch α)) :
    pointerPhases i (forwardChangedTouches rect state l) =
      List.replicate ((l.map Touch.identifier).count i) state := by
  induction l with
  | nil => rfl
  | cons t l ih =>
    have ih' : pointerPhases i (List.map (fun t : Touch α =>
        Call.core_on_mouse t.identifier state (t.pageX - rect.left) (t.pageY - rect.top) 1) l) =
        List.replicate ((l.map Touch.identifier).count i) state := ih
    by_cases h : t.identifier = i
    · simp [forwardChangedTouches, pointerPhases, List.filterMap_cons, h, List.replicate_succ]
        at ih' ⊢
      exact ih'
    · simp [forwardChangedTouches, pointerPhases, List.filterMap_cons, h, List.count_cons]
        at ih' ⊢
      exact ih'

theorem pinchUpdate_pointerCalls [LinearOrderedField α] (sqrt : α → α) (st : TouchState α) (rect : Rect α)
    (touches : List (Touch α)) : pointerCalls (pinchUpdate sqrt st rect touches).2 = [] := by
  unfold pinchUpdate
  split
  · split
    · dsimp only
      split <;> simp [pointerCalls]
    · simp [pointerCalls]
  · simp [pointerCalls]

theorem pinchUpdate_pointerPhases [LinearOrderedField α] (i : Int) (sqrt : α → α) (st : TouchState α) (rect : Rect α)
    (touches : List (Touch α)) : pointerPhases i (pinchUpdate sqrt st rect touches).2 = [] := by
  unfold pinchUpdate
  split
  · split
    · dsimp only
      split <;> simp [pointerPhases]
    · simp [pointerPhases]
  · simp [pointerPhases]

/-- The phases forwarded for identity `i` by one touch event: one entry, the
phase of the event type, per entry of `changedTouches` with identifier `i`. -/
theorem pointerPhases_dispatchTouch [LinearOrderedField α] (i : Int) (sqrt : α → α) (st : TouchState α)
    (inp : TouchInput α) :
    pointerPhases i (dispatchTouch sqrt st inp).2 =
      List.replicate (listsTouch i inp) inp.type.phase := by
  unfold dispatchTouch listsTouch
  cases h : inp.type with
  | touchstart => simp [touchstart, pointerPhases_forwardChangedTouches, TouchEventType.phase]
  | touchmove =>
    have hcons : ∀ tr : List (Call α),
        pointerPhases i (Call.preventDefault :: tr) = pointerPhases i tr := by
      intro tr; simp [pointerPhases]
    simp only [touchmove, hcons, pointerPhases_append, pinchUpdate_pointerPhases,
      pointerPhases_forwardChangedTouches, TouchEventType.phase, List.nil_append]
  | touchend => simp [touchend, pointerPhases_forwardChangedTouches, TouchEventType.phase]
  | touchcancel =>
    simp [touchcancel, pointerPhases_forwardChangedTouches, TouchEventType.phase]

/-- The phases forwarded for identity `i` over a run of touch events. -/
theorem pointerPhases_runTouch [LinearOrderedField α] (i : Int) (sqrt : α → α) (st : TouchState α)
    (evs : List (TouchInput α)) :
    pointerPhases i (runTouch sqrt st evs).2 =
      (evs.map fun inp => List.replicate (listsTouch i inp) inp.type.phase).flatten := by
  induction evs generalizing st with
  | nil => rfl
  | cons inp rest ih =>
    simp only [runTouch, pointerPhases_append, pointerPhases_dispatchTouch, ih, List.map_cons,
      List.flatten_cons]

theorem flatten_replicate_filter_pos {β γ : Type} (n : β → Nat) (v : β → γ) (l : List β) :
    (l.map fun b => List.replicate (n b) (v b)).flatten =
      ((l.filter fun b => decide (0 < n b)).map fun b => List.replicate (n b) (v b)).flatten := by
  induction l with
  | nil => rfl
  | cons b l ih =>
    by_cases h : 0 < n b
    · simp [List.filter_cons, h, ih]
    · have h0 : n b = 0 := by omega
      simp [List.filter_cons, h0, ih]

theorem flatten_replicate_one_const {β γ : Type} (n : β → Nat) (v : β → γ) (c : γ)
    (l : List β) (h : ∀ b ∈ l, v b = c ∧ n b = 1) :
    (l.map fun b => List.replicate (n b) (v b)).flatten = List.replicate l.length c := by
  induction l with
  | nil => rfl
  | cons b l ih =>
    have hb := h b (List.mem_cons_self b l)
    have hl := ih fun x hx => h x (List.mem_cons_of_mem b hx)
    simp [hb.1, hb.2, hl, List.replicate_succ]

/-! ## Claims C1-C3: touch listeners -/

/-- C1. Pinch update in the `touchmove` listener. With exactly two touches `p`, `q`
in the touch list and a baseline `pinchStartDist > 0`, writing
`scale = getTouchDistance p q / pinchStartDist`: a zoom call is forwarded if and
only if `|scale - lastScale| > 0.005`; when forwarded it is the single call
`core_on_zoom (scale / lastScale)` anchored at `getTouchCenter p q rect`, and
afterwards `lastScale = scale` and `pinchCenter` is that anchor; when not
forwarded, `lastScale`, `pinchStartDist` and `pinchCenter` are unchanged. With a
touch list of any other length, or with `pinchStartDist = 0`, no zoom call is
forwarded. -/
theorem pinch_update_contract [LinearOrderedField α] (sqrt : α → α) (st : TouchState α)
    (rect : Rect α) (e : TouchEvent α) :
    (∀ p q : Touch α, e.touches = [p, q] → 0 < st.pinchStartDist →
      ((zoomCalls (touchmove sqrt st rect e).2 ≠ [] ↔
          |getTouchDistance sqrt p q / st.pinchStartDist - st.lastScale| > 0.005) ∧
        (|getTouchDistance sqrt p q / st.pinchStartDist - st.lastScale| > 0.005 →
          zoomCalls (touchmove sqrt st rect e).2 =
              [Call.core_on_zoom
                (getTouchDistance sqrt p q / st.pinchStartDist / st.lastScale)
                (((p.pageX + q.pageX) / 2) - rect.left)
                (((p.pageY + q.pageY) / 2) - rect.top)] ∧
            (touchmove sqrt st rect e).1.lastScale =
              getTouchDistance sqrt p q / st.pinchStartDist ∧
            (touchmove sqrt st rect e).1.pinchCenter =
              { x := ((p.pageX + q.pageX) / 2) - rect.left,
                y := ((p.pageY + q.pageY) / 2) - rect.top }) ∧
        (¬ |getTouchDistance sqrt p q / st.pinchStartDist - st.lastScale| > 0.005 →
          (touchmove sqrt st rect e).1.lastScale = st.lastScale ∧
            (touchmove sqrt st rect e).1.pinchStartDist = st.pinchStartDist ∧
            (touchmove sqrt st rect e).1.pinchCenter = st.pinchCenter))) ∧
    ((e.touches.length ≠ 2 ∨ st.pinchStartDist = 0) →
      zoomCalls (touchmove sqrt st rect e).2 = []) := by
  have hz : ∀ tr : List (Call α),
      zoomCalls (Call.preventDefault :: tr) = zoomCalls tr := by
    intro tr; simp [zoomCalls]
  refine ⟨?_, ?_⟩
  · intro p q hpq hD
    by_cases hj : |getTouchDistance sqrt p q / st.pinchStartDist - st.lastScale| > 0.005
    · have hrun : pinchUpdate sqrt { st with touchCount := [p, q].length } rect [p, q] =
          ({ st with
              touchCount := [p, q].length
              lastScale := getTouchDistance sqrt p q / st.pinchStartDist
              pinchCenter := getTouchCenter p q rect },
            [Call.core_on_zoom (getTouchDistance sqrt p q / st.pinchStartDist / st.lastScale)
              (getTouchCenter p q rect).x (getTouchCenter p q rect).y]) := by
        simp only [pinchUpdate, hD, hj, if_true]
      simp only [touchmove, hpq, hrun, hz, zoomCalls_append, zoomCalls_forwardChangedTouches,
        List.append_nil]
      simp [zoomCalls, getTouchCenter, hj]
    · have hrun : pinchUpdate sqrt { st with touchCount := [p, q].length } rect [p, q] =
          ({ st with touchCount := [p, q].length }, []) := by
        simp only [pinchUpdate, hD, hj, if_true, if_false]
      simp only [touchmove, hpq, hrun, hz, zoomCalls_append, zoomCalls_forwardChangedTouches,
        List.append_nil]
      simp [zoomCalls, hj]
  · intro h
    have hrun : (pinchUpdate sqrt { st with touchCount := e.touches.length } rect e.touches).2
        = [] := by
      unfold pinchUpdate
      split
      · rename_i t0 t1 heq
        rcases h with h | h
        · exact absurd (by simp [heq]) h
        · simp [h]
      · rfl
    simp only [touchmove, hz, zoomCalls_append, zoomCalls_forwardChangedTouches, hrun,
      List.append_nil]
    rfl

/-- C3. Touch normalisation: the pointer events forwarded by each of the four touch
listeners are exactly one `core_on_mouse` call per entry `t` of `changedTouches`,
in list order, with identity `t.identifier`, coordinates
`(t.pageX - rect.left, t.pageY - rect.top)` for the rectangle queried in that
invocation, buttons `1`, and phase `1` for `touchstart`, `-1` for `touchmove`,
`0` for `touchend` and `touchcancel`. -/
theorem touch_normalisation [LinearOrderedField α] (sqrt : α → α) (st : TouchState α)
    (rect : Rect α) (now : α) (e : TouchEvent α) :
    pointerCalls (touchstart sqrt st rect now e).2 =
        e.changedTouches.map (fun t =>
          Call.core_on_mouse t.identifier 1 (t.pageX - rect.left) (t.pageY - rect.top) 1) ∧
      pointerCalls (touchmove sqrt st rect e).2 =
        e.changedTouches.map (fun t =>
          Call.core_on_mouse t.identifier (-1) (t.pageX - rect.left) (t.pageY - rect.top) 1) ∧
      pointerCalls (touchend st rect e).2 =
        e.changedTouches.map (fun t =>
          Call.core_on_mouse t.identifier 0 (t.pageX - rect.left) (t.pageY - rect.top) 1) ∧
      pointerCalls (touchcancel st rect e).2 =
        e.changedTouches.map (fun t =>
          Call.core_on_mouse t.identifier 0 (t.pageX - rect.left) (t.pageY - rect.top) 1) := by
  have hp : ∀ tr : List (Call α),
      pointerCalls (Call.preventDefault :: tr) = pointerCalls tr := by
    intro tr; simp [pointerCalls]
  refine ⟨?_, ?_, ?_, ?_⟩
  · simp only [touchstart, pointerCalls_forwardChangedTouches]; rfl
  · simp only [touchmove, hp, pointerCalls_append, pinchUpdate_pointerCalls,
      pointerCalls_forwardChangedTouches, List.nil_append]; rfl
  · simp only [touchend, pointerCalls_forwardChangedTouches]; rfl
  · simp only [touchcancel, pointerCalls_forwardChangedTouches]; rfl

/-- C2. Touch lifecycle. Let `evs` be a run of touch events whose events listing
identity `i` in `changedTouches` are, in order, one `touchstart`, then the
`touchmove` events `moves`, then one `touchend` or `touchcancel`, each listing `i`
once (other events of the run do not list `i`). Then the phases forwarded for `i`
are `1`, then `-1` once per move, then `0`, and nothing more; and they stay so
when the run is extended by events that do not list `i`. -/
theorem touch_lifecycle [LinearOrderedField α] (sqrt : α → α) (st : TouchState α) (i : Int)
    (evs : List (TouchInput α)) (s f : TouchInput α) (moves : List (TouchInput α))
    (hseq : evs.filter (fun inp => decide (0 < listsTouch i inp)) = s :: (moves ++ [f]))
    (hs : s.type = TouchEventType.touchstart ∧ listsTouch i s = 1)
    (hm : ∀ m ∈ moves, m.type = TouchEventType.touchmove ∧ listsTouch i m = 1)
    (hf : (f.type = TouchEventType.touchend ∨ f.type = TouchEventType.touchcancel) ∧
      listsTouch i f = 1) :
    pointerPhases i (runTouch sqrt st evs).2 =
        1 :: (List.replicate moves.length (-1) ++ [0]) ∧
      ∀ rest : List (TouchInput α), (∀ r ∈ rest, listsTouch i r = 0) →
        pointerPhases i (runTouch sqrt st (evs ++ rest)).2 =
          1 :: (List.replicate moves.length (-1) ++ [0]) := by
  have hmoves : (moves.map fun inp =>
      List.replicate (listsTouch i inp) inp.type.phase).flatten =
      List.replicate moves.length (-1) := by
    apply flatten_replicate_one_const
    intro m hmem
    exact ⟨by rw [(hm m hmem).1]; rfl, (hm m hmem).2⟩
  have hfin : f.type.phase = 0 := by
    rcases hf.1 with h | h <;> rw [h] <;> rfl
  have hstart : s.type.phase = 1 := by rw [hs.1]; rfl
  have key : ∀ l : List (TouchInput α),
      l.filter (fun inp => decide (0 < listsTouch i inp)) = s :: (moves ++ [f]) →
      pointerPhases i (runTouch sqrt st l).2 =
        1 :: (List.replicate moves.length (-1) ++ [0]) := by
    intro l hl
    rw [pointerPhases_runTouch,
      flatten_replicate_filter_pos (fun inp => listsTouch i inp) (fun inp => inp.type.phase), hl]
    simp only [List.map_cons, List.map_append, List.flatten_cons, List.flatten_append, hmoves,
      hs.2, hf.2, hstart, hfin, List.map_nil, List.flatten_nil, List.append_nil]
    rfl
  refine ⟨key evs hseq, ?_⟩
  intro rest hrest
  apply key
  have hnil : rest.filter (fun inp => decide (0 < listsTouch i inp)) = [] := by
    rw [List.filter_eq_nil_iff]
    intro r hr
    simp [hrest r hr]
  rw [List.filter_append, hseq, hnil, List.append_nil]

/-- Evaluation of C1 over the real numbers with `Real.sqrt`: baseline 5, last
scale 1, touches at (0, 0) and (6, 8), hence distance 10 and scale 2; and a
move with a single touch. -/
theorem pinch_update_contract_witness :
    ((0 : ℝ) < 5 ∧
      zoomCalls (touchmove Real.sqrt
        { lastTouchTime := 0, touchCount := 2, lastScale := 1, pinchStartDist := 5,
          pinchCenter := { x := 0, y := 0 } }
        { left := 1, top := 1, width := 100, height := 100 }
        { touches := [{ identifier := 0, pageX := 0, pageY := 0 },
                      { identifier := 1, pageX := 6, pageY := 8 }],
          changedTouches := [{ identifier := 1, pageX := 6, pageY := 8 }] }).2 =
        [Call.core_on_zoom
          (getTouchDistance Real.sqrt { identifier := 0, pageX := 0, pageY := 0 }
            { identifier := 1, pageX := 6, pageY := 8 } / 5 / 1)
          (((0 + 6) / 2) - 1) (((0 + 8) / 2) - 1)]) ∧
    zoomCalls (touchmove Real.sqrt
        { lastTouchTime := 0, touchCount := 2, lastScale := 1, pinchStartDist := 5,
          pinchCenter := { x := 0, y := 0 } }
        { left := 1, top := 1, width := 100, height := 100 }
        { touches := [{ identifier := 1, pageX := 6, pageY := 8 }],
          changedTouches := [{ identifier := 1, pageX := 6, pageY := 8 }] }).2 = [] := by
  have hsqrt : Real.sqrt ((0 - 6) * (0 - 6) + (0 - 8) * (0 - 8)) = 10 := by
    rw [show ((0 : ℝ) - 6) * (0 - 6) + (0 - 8) * (0 - 8) = 10 ^ 2 by norm_num]
    exact Real.sqrt_sq (by norm_num)
  refine ⟨⟨by norm_num, ?_⟩, ?_⟩
  · exact (((pinch_update_contract Real.sqrt
      { lastTouchTime := 0, touchCount := 2, lastScale := 1, pinchStartDist := 5,
        pinchCenter := { x := 0, y := 0 } }
      { left := 1, top := 1, width := 100, height := 100 }
      { touches := [{ identifier := 0, pageX := 0, pageY := 0 },
                    { identifier := 1, pageX := 6, pageY := 8 }],
        changedTouches := [{ identifier := 1, pageX := 6, pageY := 8 }] }).1
      { identifier := 0, pageX := 0, pageY := 0 } { identifier := 1, pageX := 6, pageY := 8 }
      rfl (by norm_num)).2.1 (by
        simp only [getTouchDistance, hsqrt]
        norm_num)).1
  · exact (pinch_update_contract Real.sqrt
      { lastTouchTime := 0, touchCount := 2, lastScale := 1, pinchStartDist := 5,
        pinchCenter := { x := 0, y := 0 } }
      { left := 1, top := 1, width := 100, height := 100 }
      { touches := [{ identifier := 1, pageX := 6, pageY := 8 }],
        changedTouches := [{ identifier := 1, pageX := 6, pageY := 8 }] }).2
      (Or.inl (by simp))

/-- Evaluation of C2 over the real numbers: touch 7 starts, moves once, a second
touch 3 starts in between, touch 7 ends; then touch 3 moves. -/
theorem touch_lifecycle_witness :
    pointerPhases 7 (runTouch Real.sqrt (TouchState.init : TouchState ℝ)
      [⟨TouchEventType.touchstart, ⟨0, 0, 10, 10⟩, 0, ⟨[⟨7, 1, 1⟩], [⟨7, 1, 1⟩]⟩⟩,
       ⟨TouchEventType.touchstart, ⟨0, 0, 10, 10⟩, 1, ⟨[⟨7, 1, 1⟩, ⟨3, 5, 5⟩], [⟨3, 5, 5⟩]⟩⟩,
       ⟨TouchEventType.touchmove, ⟨0, 0, 10, 10⟩, 2, ⟨[⟨7, 2, 1⟩, ⟨3, 5, 5⟩], [⟨7, 2, 1⟩]⟩⟩,
       ⟨TouchEventType.touchend, ⟨0, 0, 10, 10⟩, 3, ⟨[⟨3, 5, 5⟩], [⟨7, 2, 1⟩]⟩⟩]).2 =
      [1, -1, 0] ∧
    pointerPhases 7 (runTouch Real.sqrt (TouchState.init : TouchState ℝ)
      ([⟨TouchEventType.touchstart, ⟨0, 0, 10, 10⟩, 0, ⟨[⟨7, 1, 1⟩], [⟨7, 1, 1⟩]⟩⟩,
       ⟨TouchEventType.touchstart, ⟨0, 0, 10, 10⟩, 1, ⟨[⟨7, 1, 1⟩, ⟨3, 5, 5⟩], [⟨3, 5, 5⟩]⟩⟩,
       ⟨TouchEventType.touchmove, ⟨0, 0, 10, 10⟩, 2, ⟨[⟨7, 2, 1⟩, ⟨3, 5, 5⟩], [⟨7, 2, 1⟩]⟩⟩,
       ⟨TouchEventType.touchend, ⟨0, 0, 10, 10⟩, 3, ⟨[⟨3, 5, 5⟩], [⟨7, 2, 1⟩]⟩⟩] ++
       [⟨TouchEventType.touchmove, ⟨0, 0, 10, 10⟩, 4, ⟨[⟨3, 6, 5⟩], [⟨3, 6, 5⟩]⟩⟩])).2 =
      [1, -1, 0] := by
  have h := touch_lifecycle Real.sqrt (TouchState.init : TouchState ℝ) 7
    [⟨TouchEventType.touchstart, ⟨0, 0, 10, 10⟩, 0, ⟨[⟨7, 1, 1⟩], [⟨7, 1, 1⟩]⟩⟩,
     ⟨TouchEventType.touchstart, ⟨0, 0, 10, 10⟩, 1, ⟨[⟨7, 1, 1⟩, ⟨3, 5, 5⟩], [⟨3, 5, 5⟩]⟩⟩,
     ⟨TouchEventType.touchmove, ⟨0, 0, 10, 10⟩, 2, ⟨[⟨7, 2, 1⟩, ⟨3, 5, 5⟩], [⟨7, 2, 1⟩]⟩⟩,
     ⟨TouchEventType.touchend, ⟨0, 0, 10, 10⟩, 3, ⟨[⟨3, 5, 5⟩], [⟨7, 2, 1⟩]⟩⟩]
    ⟨TouchEventType.touchstart, ⟨0, 0, 10, 10⟩, 0, ⟨[⟨7, 1, 1⟩], [⟨7, 1, 1⟩]⟩⟩
    ⟨TouchEventType.touchend, ⟨0, 0, 10, 10⟩, 3, ⟨[⟨3, 5, 5⟩], [⟨7, 2, 1⟩]⟩⟩
    [⟨TouchEventType.touchmove, ⟨0, 0, 10, 10⟩, 2, ⟨[⟨7, 2, 1⟩, ⟨3, 5, 5⟩], [⟨7, 2, 1⟩]⟩⟩]
    (by simp [listsTouch])
    ⟨rfl, by simp [listsTouch]⟩
    (by simp [listsTouch])
    ⟨Or.inl rfl, by simp [listsTouch]⟩
  exact ⟨h.1, h.2 _ (by simp [listsTouch])⟩

/-! ## Claims C4-C6: render tick -/

theorem posKnown_init [LinearOrderedField α] : (MouseState.init : MouseState α).posKnown := by
  intro h; cases h

theorem posKnown_mousedown [LinearOrderedField α] (ms : MouseState α) (rect : Rect α)
    (e : MouseEvent α) : (mousedown ms rect e).posKnown := by
  intro _; simp [mousedown]

theorem posKnown_onmouseup [LinearOrderedField α] (ms : MouseState α) (rect : Rect α)
    (e : MouseEvent α) : (onmouseup ms rect e).1.posKnown := by
  intro _; simp [onmouseup]

theorem posKnown_onmouseleave (ms : MouseState α) : (onmouseleave ms).posKnown := by
  intro h; simp [onmouseleave] at h

theorem posKnown_onmousemove [LinearOrderedField α] (ms : MouseState α) (rect : Rect α)
    (e : MouseEvent α) : (onmousemove ms rect e).posKnown := by
  intro _; simp [onmousemove]

/-- When the size test of the tick fires, the backing surface is set to the
logical size times the ratio. -/
theorem render_resizes_when_sizeChanged [LinearOrderedField α] (ms : MouseState α)
    (canvas : Canvas α) (dpr : Option α) (rect : Rect α) (hpos : ms.posKnown)
    (hch : sizeChanged canvas rect = true) :
    (render ms canvas dpr rect).map Prod.fst =
      some { width := rect.width * dprOrOne dpr, height := rect.height * dprOrOne dpr } := by
  unfold render
  cases hd : ms.mouseDown with
  | false => simp [hch]
  | true =>
    cases hp : ms.mousePos with
    | none => exact absurd hp (hpos hd)
    | some p => simp [hch]

/-- C4. Frame tick order: in every state in which a held button has a known
position (all states reachable through the mouse listeners), one tick returns,
and its trace ends with exactly `core_update`, then
`core_render (rect.width, rect.height, d)`, then `requestAnimationFrame`, where
`d` is the device pixel ratio read in that tick, or `1` when it is absent or
zero; no other update, render or reschedule occurs earlier in the tick. -/
theorem frame_tick_order [LinearOrderedField α] (ms : MouseState α) (canvas : Canvas α)
    (dpr : Option α) (rect : Rect α) (hpos : ms.mouseDown = true → ms.mousePos ≠ none) :
    ∃ (canvas' : Canvas α) (pre : List (Call α)) (d : α),
      render ms canvas dpr rect =
          some (canvas', pre ++ [Call.core_update, Call.core_render rect.width rect.height d,
            Call.requestAnimationFrame]) ∧
        (∀ c ∈ pre, isFrameCall c = false) ∧
        (dpr = none ∨ dpr = some 0 → d = 1) ∧
        (∀ r : α, dpr = some r → r ≠ 0 → d = r) := by
  have hd1 : dpr = none ∨ dpr = some 0 → dprOrOne dpr = 1 := by
    rintro (h | h) <;> simp [h, dprOrOne]
  have hd2 : ∀ r : α, dpr = some r → r ≠ 0 → dprOrOne dpr = r := by
    intro r h hr; simp [h, dprOrOne, hr]
  unfold render
  cases hdown : ms.mouseDown with
  | false =>
    by_cases hch : sizeChanged canvas rect = true
    · exact ⟨⟨rect.width * dprOrOne dpr, rect.height * dprOrOne dpr⟩,
        [Call.canvas_set_width (rect.width * dprOrOne dpr),
          Call.canvas_set_height (rect.height * dprOrOne dpr)], dprOrOne dpr,
        by simp [hch], by simp [isFrameCall], hd1, hd2⟩
    · exact ⟨canvas, [], dprOrOne dpr, by simp [hch], by simp, hd1, hd2⟩
  | true =>
    cases hp : ms.mousePos with
    | none => exact absurd hp (hpos hdown)
    | some p =>
      by_cases hch : sizeChanged canvas rect = true
      · exact ⟨⟨rect.width * dprOrOne dpr, rect.height * dprOrOne dpr⟩,
          [Call.core_on_mouse 0 1 p.x p.y ms.mouseButtons,
            Call.canvas_set_width (rect.width * dprOrOne dpr),
            Call.canvas_set_height (rect.height * dprOrOne dpr)], dprOrOne dpr,
          by simp [hch], by simp [isFrameCall], hd1, hd2⟩
      · exact ⟨canvas, [Call.core_on_mouse 0 1 p.x p.y ms.mouseButtons], dprOrOne dpr,
          by simp [hch], by simp [isFrameCall], hd1, hd2⟩

/-- Evaluation of C4 over the rationals: a button is held at (3, 4), the canvas
is already at the logical size and the device pixel ratio is absent. -/
theorem frame_tick_order_witness :
    ∃ (canvas' : Canvas ℚ) (pre : List (Call ℚ)) (d : ℚ),
      render ({ mouseDown := true, mouseButtons := 1, mousePos := some ⟨3, 4⟩ } : MouseState ℚ)
          ⟨100, 50⟩ none ⟨0, 0, 100, 50⟩ =
          some (canvas', pre ++ [Call.core_update, Call.core_render 100 50 d,
            Call.requestAnimationFrame]) ∧
        (∀ c ∈ pre, isFrameCall c = false) ∧
        ((none : Option ℚ) = none ∨ (none : Option ℚ) = some 0 → d = 1) ∧
        (∀ r : ℚ, (none : Option ℚ) = some r → r ≠ 0 → d = r) :=
  frame_tick_order ({ mouseDown := true, mouseButtons := 1, mousePos := some ⟨3, 4⟩ } : MouseState ℚ)
    ⟨100, 50⟩ none ⟨0, 0, 100, 50⟩ (by simp)

/-- C5. The backing-surface invariant fails on the code: with logical size
100 x 100, device pixel ratio 2 and a backing surface already 100 x 100, the tick
compares the backing size with the unscaled logical size, finds no change, and
leaves the backing surface at 100 x 100 instead of 200 x 200. -/
theorem backing_surface_not_scaled :
    render (MouseState.init : MouseState ℚ) ⟨100, 100⟩ (some 2) ⟨0, 0, 100, 100⟩ =
        some (⟨100, 100⟩, [Call.core_update, Call.core_render 100 100 2,
          Call.requestAnimationFrame]) ∧
      (⟨100, 100⟩ : Canvas ℚ) ≠ ⟨100 * 2, 100 * 2⟩ := by
  refine ⟨?_, by simp⟩
  simp [render, MouseState.init, sizeChanged, dprOrOne]

/-- C6. The no-redundant-resize property fails on the code: with logical size
100 x 100 and device pixel ratio 2 unchanged over two consecutive ticks, starting
from a 300 x 150 backing surface, the first tick assigns 200 x 200 and the second
tick assigns 200 x 200 again, because it compares 200 with the unscaled 100. -/
theorem resize_repeated_on_unchanged_size :
    render (MouseState.init : MouseState ℚ) ⟨300, 150⟩ (some 2) ⟨0, 0, 100, 100⟩ =
        some (⟨200, 200⟩, [Call.canvas_set_width 200, Call.canvas_set_height 200,
          Call.core_update, Call.core_render 100 100 2, Call.requestAnimationFrame]) ∧
      render (MouseState.init : MouseState ℚ) ⟨200, 200⟩ (some 2) ⟨0, 0, 100, 100⟩ =
        some (⟨200, 200⟩, [Call.canvas_set_width 200, Call.canvas_set_height 200,
          Call.core_update, Call.core_render 100 100 2, Call.requestAnimationFrame]) := by
  constructor <;> simp [render, MouseState.init, sizeChanged, dprOrOne] <;> norm_num

/-! ## Claims C7-C10: adaptive quality controller -/

theorem adaptiveQualityEvaluate_slow [LinearOrderedField α] (c : Core α)
    (hslow : c.avg_frame_time > 1.5 * (1000 / c.target_fps)) :
    adaptiveQualityEvaluate c =
      if c.render_quality_level > 0 then
        { c with
          render_quality_level := c.render_quality_level - 1
          render_label_density := max 0.3 (c.render_label_density - 0.2) }
      else c := by
  have h : c.avg_frame_time > 1000 / c.target_fps * 1.5 := by rw [mul_comm]; exact hslow
  simp only [adaptiveQualityEvaluate, h, if_true]

theorem adaptiveQualityEvaluate_fast [LinearOrderedField α] (c : Core α)
    (htarget : 0 < c.target_fps)
    (hfast : c.avg_frame_time < 0.7 * (1000 / c.target_fps)) :
    adaptiveQualityEvaluate c =
      if c.render_quality_level < 2 then
        { c with
          render_quality_level := c.render_quality_level + 1
          render_label_density := min 1.0 (c.render_label_density + 0.1) }
      else c := by
  have hb : 0 < 1000 / c.target_fps := div_pos (by norm_num) htarget
  have h1 : ¬ c.avg_frame_time > 1000 / c.target_fps * 1.5 := by
    have : (0.7 : α) * (1000 / c.target_fps) ≤ 1000 / c.target_fps * 1.5 := by
      nlinarith
    exact not_lt.mpr (le_trans hfast.le this)
  have h2 : c.avg_frame_time < 1000 / c.target_fps * 0.7 := by rw [mul_comm]; exact hfast
  simp only [adaptiveQualityEvaluate, h1, h2, if_true, if_false]

theorem adaptiveQualityEvaluate_dead [LinearOrderedField α] (c : Core α)
    (hlo : 0.7 * (1000 / c.target_fps) ≤ c.avg_frame_time)
    (hhi : c.avg_frame_time ≤ 1.5 * (1000 / c.target_fps)) :
    adaptiveQualityEvaluate c = c := by
  have h1 : ¬ c.avg_frame_time > 1000 / c.target_fps * 1.5 := by
    rw [mul_comm]; exact not_lt.mpr hhi
  have h2 : ¬ c.avg_frame_time < 1000 / c.target_fps * 0.7 := by
    rw [mul_comm]; exact not_lt.mpr hlo
  simp only [adaptiveQualityEvaluate, h1, h2, if_false]

/-- C7, as stated, fails on the code: at level 0 with label density 0.5, target
60 fps and an average frame time of 100 ms (slow branch), one evaluation leaves
the label density at 0.5, not at `max 0.3 (0.5 - 0.2) = 0.3`. -/
theorem quality_slow_branch_counterexample :
    (Core.sample 0 0.5 60 100 : Core ℚ).render_quality_level = 0 ∧
      (0 : ℚ) ≤ (Core.sample 0 0.5 60 100 : Core ℚ).render_label_density ∧
      (Core.sample 0 0.5 60 100 : Core ℚ).render_label_density ≤ 1 ∧
      (0 : ℚ) < (Core.sample 0 0.5 60 100 : Core ℚ).target_fps ∧
      (Core.sample 0 0.5 60 100 : Core ℚ).avg_frame_time >
        1.5 * (1000 / (Core.sample 0 0.5 60 100 : Core ℚ).target_fps) ∧
      (adaptiveQualityEvaluate (Core.sample 0 0.5 60 100 : Core ℚ)).render_label_density = 0.5 ∧
      (adaptiveQualityEvaluate (Core.sample 0 0.5 60 100 : Core ℚ)).render_label_density ≠
        max 0.3 ((Core.sample 0 0.5 60 100 : Core ℚ).render_label_density - 0.2) := by
  have hev : adaptiveQualityEvaluate (Core.sample 0 0.5 60 100 : Core ℚ) =
      Core.sample 0 0.5 60 100 := by
    rw [adaptiveQualityEvaluate_slow _ (by norm_num [Core.sample])]
    simp [Core.sample]
  rw [hev]
  refine ⟨rfl, ?_, ?_, ?_, ?_, ?_, ?_⟩ <;> norm_num [Core.sample]

/-- C7, amended. For `targetFps > 0` and a level that is not negative (in
particular a level in `{0, 1, 2}`, with any label density), in the slow branch
(average frame time above 1.5 times the budget `1000 / targetFps`) one evaluation
yields level `max 0 (level - 1)`; the label density becomes
`max 0.3 (labelDensity - 0.2)` when the level was above 0, and is unchanged when
the level was 0. -/
theorem quality_slow_branch [LinearOrderedField α] (c : Core α)
    (htarget : 0 < c.target_fps) (hlevel : 0 ≤ c.render_quality_level)
    (hslow : c.avg_frame_time > 1.5 * (1000 / c.target_fps)) :
    (adaptiveQualityEvaluate c).render_quality_level = max 0 (c.render_quality_level - 1) ∧
      (0 < c.render_quality_level →
        (adaptiveQualityEvaluate c).render_label_density =
          max 0.3 (c.render_label_density - 0.2)) ∧
      (c.render_quality_level = 0 →
        (adaptiveQualityEvaluate c).render_label_density = c.render_label_density) := by
  have _hbudget : 0 < 1000 / c.target_fps := div_pos (by norm_num) htarget
  rw [adaptiveQualityEvaluate_slow c hslow]
  by_cases h : c.render_quality_level > 0
  · rw [if_pos h]
    refine ⟨?_, fun _ => rfl, fun h0 => absurd h0 (by omega)⟩
    show c.render_quality_level - 1 = max 0 (c.render_quality_level - 1)
    exact (max_eq_right (by omega)).symm
  · have h0 : c.render_quality_level = 0 := by omega
    rw [if_neg h]
    refine ⟨by rw [h0]; rfl, fun hp => absurd hp h, fun _ => rfl⟩

/-- Evaluation of the amended C7 over the rationals, at level 2 and at level 0. -/
theorem quality_slow_branch_witness :
    ((adaptiveQualityEvaluate (Core.sample 2 1 60 100 : Core ℚ)).render_quality_level =
        max 0 (2 - 1) ∧
      (adaptiveQualityEvaluate (Core.sample 2 1 60 100 : Core ℚ)).render_label_density =
        max 0.3 (1 - 0.2)) ∧
    (adaptiveQualityEvaluate (Core.sample 0 0.5 60 100 : Core ℚ)).render_label_density =
      0.5 :=
  ⟨⟨(quality_slow_branch (Core.sample 2 1 60 100 : Core ℚ) (by norm_num [Core.sample])
        (by simp [Core.sample]) (by norm_num [Core.sample])).1,
      (quality_slow_branch (Core.sample 2 1 60 100 : Core ℚ) (by norm_num [Core.sample])
        (by simp [Core.sample]) (by norm_num [Core.sample])).2.1 (by simp [Core.sample])⟩,
    (quality_slow_branch (Core.sample 0 0.5 60 100 : Core ℚ) (by norm_num [Core.sample])
      (by simp [Core.sample]) (by norm_num [Core.sample])).2.2 rfl⟩

/-- C8, as stated, fails on the code: at level 2 with label density 0.5, target
60 fps and an average frame time of 5 ms (fast branch), one evaluation leaves the
label density at 0.5, not at `min 1.0 (0.5 + 0.1) = 0.6`. -/
theorem quality_fast_branch_counterexample :
    (Core.sample 2 0.5 60 5 : Core ℚ).render_quality_level = 2 ∧
      (0 : ℚ) ≤ (Core.sample 2 0.5 60 5 : Core ℚ).render_label_density ∧
      (Core.sample 2 0.5 60 5 : Core ℚ).render_label_density ≤ 1 ∧
      (0 : ℚ) < (Core.sample 2 0.5 60 5 : Core ℚ).target_fps ∧
      (Core.sample 2 0.5 60 5 : Core ℚ).avg_frame_time <
        0.7 * (1000 / (Core.sample 2 0.5 60 5 : Core ℚ).target_fps) ∧
      (adaptiveQualityEvaluate (Core.sample 2 0.5 60 5 : Core ℚ)).render_label_density = 0.5 ∧
      (adaptiveQualityEvaluate (Core.sample 2 0.5 60 5 : Core ℚ)).render_label_density ≠
        min 1.0 ((Core.sample 2 0.5 60 5 : Core ℚ).render_label_density + 0.1) := by
  have hev : adaptiveQualityEvaluate (Core.sample 2 0.5 60 5 : Core ℚ) =
      Core.sample 2 0.5 60 5 := by
    rw [adaptiveQualityEvaluate_fast _ (by norm_num [Core.sample]) (by norm_num [Core.sample])]
    simp [Core.sample]
  rw [hev]
  refine ⟨rfl, ?_, ?_, ?_, ?_, ?_, ?_⟩ <;> norm_num [Core.sample]

/-- C8, amended. In the fast branch (average frame time below 0.7 times the
budget `1000 / targetFps`, with `targetFps > 0`), for a level of at most 2, one
evaluation yields level `min 2 (level + 1)`; the label density becomes
`min 1.0 (labelDensity + 0.1)` when the level was below 2, and is unchanged when
the level was 2. -/
theorem quality_fast_branch [LinearOrderedField α] (c : Core α)
    (htarget : 0 < c.target_fps) (hlevel : c.render_quality_level ≤ 2)
    (hfast : c.avg_frame_time < 0.7 * (1000 / c.target_fps)) :
    (adaptiveQualityEvaluate c).render_quality_level = min 2 (c.render_quality_level + 1) ∧
      (c.render_quality_level < 2 →
        (adaptiveQualityEvaluate c).render_label_density =
          min 1.0 (c.render_label_density + 0.1)) ∧
      (c.render_quality_level = 2 →
        (adaptiveQualityEvaluate c).render_label_density = c.render_label_density) := by
  rw [adaptiveQualityEvaluate_fast c htarget hfast]
  by_cases h : c.render_quality_level < 2
  · rw [if_pos h]
    refine ⟨?_, fun _ => rfl, fun h2 => absurd h2 (by omega)⟩
    show c.render_quality_level + 1 = min 2 (c.render_quality_level + 1)
    exact (min_eq_right (by omega)).symm
  · have h2 : c.render_quality_level = 2 := by omega
    rw [if_neg h]
    refine ⟨by rw [h2]; rfl, fun hp => absurd hp h, fun _ => rfl⟩

/-- Evaluation of the amended C8 over the rationals, at level 0 and at level 2. -/
theorem quality_fast_branch_witness :
    ((adaptiveQualityEvaluate (Core.sample 0 0.95 60 5 : Core ℚ)).render_quality_level =
        min 2 (0 + 1) ∧
      (adaptiveQualityEvaluate (Core.sample 0 0.95 60 5 : Core ℚ)).render_label_density =
        min 1.0 (0.95 + 0.1)) ∧
    (adaptiveQualityEvaluate (Core.sample 2 0.5 60 5 : Core ℚ)).render_label_density = 0.5 :=
  ⟨⟨(quality_fast_branch (Core.sample 0 0.95 60 5 : Core ℚ) (by norm_num [Core.sample])
        (by simp [Core.sample]) (by norm_num [Core.sample])).1,
      (quality_fast_branch (Core.sample 0 0.95 60 5 : Core ℚ) (by norm_num [Core.sample])
        (by simp [Core.sample]) (by norm_num [Core.sample])).2.1 (by simp [Core.sample])⟩,
    (quality_fast_branch (Core.sample 2 0.5 60 5 : Core ℚ) (by norm_num [Core.sample])
      (by simp [Core.sample]) (by norm_num [Core.sample])).2.2 rfl⟩

/-- C9. Dead band: when the average frame time `t` satisfies
`0.7 * (1000 / targetFps) ≤ t ≤ 1.5 * (1000 / targetFps)`, both bounds included,
one evaluation returns the whole `Module.core` record unchanged (quality level,
label density and every other field), and the timer callback does not cancel
itself. -/
theorem quality_dead_band [LinearOrderedField α] (c : Core α)
    (hlo : 0.7 * (1000 / c.target_fps) ≤ c.avg_frame_time)
    (hhi : c.avg_frame_time ≤ 1.5 * (1000 / c.target_fps)) :
    adaptiveQualityEvaluate c = c ∧ checkIntervalCallback (some c) = (some c, false) := by
  have h := adaptiveQualityEvaluate_dead c hlo hhi
  exact ⟨h, by simp [checkIntervalCallback, h]⟩

/-- Evaluation of C9 over the rationals at both ends of the dead band for a
target of 60 fps: frame times `0.7 * (1000 / 60) = 35 / 3` and
`1.5 * (1000 / 60) = 25`. -/
theorem quality_dead_band_witness :
    adaptiveQualityEvaluate (Core.sample 1 0.5 60 (35 / 3) : Core ℚ) =
        Core.sample 1 0.5 60 (35 / 3) ∧
      adaptiveQualityEvaluate (Core.sample 1 0.5 60 25 : Core ℚ) = Core.sample 1 0.5 60 25 :=
  ⟨(quality_dead_band (Core.sample 1 0.5 60 (35 / 3) : Core ℚ) (by norm_num [Core.sample])
      (by norm_num [Core.sample])).1,
    (quality_dead_band (Core.sample 1 0.5 60 25 : Core ℚ) (by norm_num [Core.sample])
      (by norm_num [Core.sample])).1⟩

/-- C10, as stated, fails on the code: at level 1 with label density 0, target
60 fps and an average frame time of 100 ms (slow branch), one evaluation raises
the label density to the floor 0.3, a change of 0.3 > 0.2. -/
theorem quality_bounded_step_counterexample :
    (Core.sample 1 0 60 100 : Core ℚ).render_quality_level = 1 ∧
      (0 : ℚ) ≤ (Core.sample 1 0 60 100 : Core ℚ).render_label_density ∧
      (Core.sample 1 0 60 100 : Core ℚ).render_label_density ≤ 1 ∧
      (0 : ℚ) < (Core.sample 1 0 60 100 : Core ℚ).target_fps ∧
      (adaptiveQualityEvaluate (Core.sample 1 0 60 100 : Core ℚ)).render_label_density = 0.3 ∧
      ¬ |(adaptiveQualityEvaluate (Core.sample 1 0 60 100 : Core ℚ)).render_label_density -
          (Core.sample 1 0 60 100 : Core ℚ).render_label_density| ≤ 0.2 := by
  have hev : (adaptiveQualityEvaluate (Core.sample 1 0 60 100 : Core ℚ)).render_label_density
      = 0.3 := by
    rw [adaptiveQualityEvaluate_slow _ (by norm_num [Core.sample])]
    norm_num [Core.sample]
  rw [hev]
  refine ⟨rfl, ?_, ?_, ?_, rfl, ?_⟩
  · norm_num [Core.sample]
  · norm_num [Core.sample]
  · norm_num [Core.sample]
  · rw [show (Core.sample 1 0 60 100 : Core ℚ).render_label_density = 0 from rfl,
      abs_of_nonneg (by norm_num)]
    norm_num

/-- The label density after one evaluation is the old one, or
`max 0.3 (old - 0.2)`, or `min 1.0 (old + 0.1)`; the level is the old one, or one
below, or one above. -/
theorem adaptiveQualityEvaluate_cases [LinearOrderedField α] (c : Core α) :
    ((adaptiveQualityEvaluate c).render_quality_level = c.render_quality_level ∧
        (adaptiveQualityEvaluate c).render_label_density = c.render_label_density) ∨
      ((adaptiveQualityEvaluate c).render_quality_level = c.render_quality_level - 1 ∧
        (adaptiveQualityEvaluate c).render_label_density =
          max 0.3 (c.render_label_density - 0.2)) ∨
      ((adaptiveQualityEvaluate c).render_quality_level = c.render_quality_level + 1 ∧
        (adaptiveQualityEvaluate c).render_label_density =
          min 1.0 (c.render_label_density + 0.1)) := by
  unfold adaptiveQualityEvaluate
  dsimp only
  split_ifs
  · exact Or.inr (Or.inl ⟨rfl, rfl⟩)
  · exact Or.inl ⟨rfl, rfl⟩
  · exact Or.inr (Or.inr ⟨rfl, rfl⟩)
  · exact Or.inl ⟨rfl, rfl⟩
  · exact Or.inl ⟨rfl, rfl⟩

/-- C10, amended. For a label density in `[0, 1]`, whatever the level, the average
frame time and the target, a single evaluation changes the level by at most 1
and the label density by at most 0.3 in absolute value; the label density
changes by at most 0.2 whenever it was at least 0.1 before the evaluation. -/
theorem quality_bounded_step [LinearOrderedField α] (c : Core α)
    (hd0 : 0 ≤ c.render_label_density) (hd1 : c.render_label_density ≤ 1) :
    |(adaptiveQualityEvaluate c).render_quality_level - c.render_quality_level| ≤ 1 ∧
      |(adaptiveQualityEvaluate c).render_label_density - c.render_label_density| ≤ 0.3 ∧
      (0.1 ≤ c.render_label_density →
        |(adaptiveQualityEvaluate c).render_label_density - c.render_label_density| ≤ 0.2) := by
  rcases adaptiveQualityEvaluate_cases c with ⟨hl, hd⟩ | ⟨hl, hd⟩ | ⟨hl, hd⟩
  · rw [hl, hd]
    refine ⟨by simp, by simp; norm_num, fun _ => by simp; norm_num⟩
  · rw [hl, hd]
    refine ⟨by simp, ?_, fun h => ?_⟩
    · rcases le_total (0.3 : α) (c.render_label_density - 0.2) with h3 | h3
      · rw [max_eq_right h3, abs_le]; constructor <;> linarith
      · rw [max_eq_left h3, abs_le]; constructor <;> linarith
    · rcases le_total (0.3 : α) (c.render_label_density - 0.2) with h3 | h3
      · rw [max_eq_right h3, abs_le]; constructor <;> linarith
      · rw [max_eq_left h3, abs_le]; constructor <;> linarith
  · rw [hl, hd]
    refine ⟨by simp, ?_, fun _ => ?_⟩
    · rcases le_total (1.0 : α) (c.render_label_density + 0.1) with h3 | h3
      · rw [min_eq_left h3, abs_le]; constructor <;> linarith
      · rw [min_eq_right h3, abs_le]; constructor <;> linarith
    · rcases le_total (1.0 : α) (c.render_label_density + 0.1) with h3 | h3
      · rw [min_eq_left h3, abs_le]; constructor <;> linarith
      · rw [min_eq_right h3, abs_le]; constructor <;> linarith

/-- Evaluation of the amended C10 over the rationals: a slow-branch step from
label density 0.5 at level 1. -/
theorem quality_bounded_step_witness :
    |(adaptiveQualityEvaluate (Core.sample 1 0.5 60 100 : Core ℚ)).render_quality_level -
        (Core.sample 1 0.5 60 100 : Core ℚ).render_quality_level| ≤ 1 ∧
      |(adaptiveQualityEvaluate (Core.sample 1 0.5 60 100 : Core ℚ)).render_label_density -
        (Core.sample 1 0.5 60 100 : Core ℚ).render_label_density| ≤ 0.2 :=
  ⟨(quality_bounded_step (Core.sample 1 0.5 60 100 : Core ℚ) (by norm_num [Core.sample])
      (by norm_num [Core.sample])).1,
    (quality_bounded_step (Core.sample 1 0.5 60 100 : Core ℚ) (by norm_num [Core.sample])
      (by norm_num [Core.sample])).2.2 (by norm_num [Core.sample])⟩

/-! ## Claim C11: quality range invariant -/

theorem qualityInRange_congr [LinearOrderedField α] (c c' : Core α)
    (hl : c'.render_quality_level = c.render_quality_level)
    (hd : c'.render_label_density = c.render_label_density) (h : c.qualityInRange) :
    c'.qualityInRange := by
  unfold Core.qualityInRange at h ⊢
  rw [hl, hd]; exact h

theorem setPinchInertia_quality [LinearOrderedField α] (c : Core α) (en : Option Bool)
    (fr : Option α) :
    (setPinchInertia c en fr).render_quality_level = c.render_quality_level ∧
      (setPinchInertia c en fr).render_label_density = c.render_label_density := by
  cases en <;> cases fr <;> exact ⟨rfl, rfl⟩

theorem setPanInertia_quality [LinearOrderedField α] (c : Core α) (en : Option Bool)
    (fr : Option α) :
    (setPanInertia c en fr).render_quality_level = c.render_quality_level ∧
      (setPanInertia c en fr).render_label_density = c.render_label_density := by
  cases en <;> cases fr <;> exact ⟨rfl, rfl⟩

theorem setTouchSensitivity_quality [LinearOrderedField α] (c : Core α) (pan zoom : Option α) :
    (setTouchSensitivity c pan zoom).render_quality_level = c.render_quality_level ∧
      (setTouchSensitivity c pan zoom).render_label_density = c.render_label_density := by
  cases pan <;> cases zoom <;> exact ⟨rfl, rfl⟩

theorem setStarScale_quality [LinearOrderedField α] (c : Core α) (a b : Option α) :
    (setStarScale c a b).render_quality_level = c.render_quality_level ∧
      (setStarScale c a b).render_label_density = c.render_label_density := by
  cases a <;> cases b <;> exact ⟨rfl, rfl⟩

theorem setPerformanceSettings_quality [LinearOrderedField α] (c : Core α)
    (settings : PerformanceSettings α) :
    (setPerformanceSettings c settings).render_quality_level = c.render_quality_level ∧
      (setPerformanceSettings c settings).render_label_density = c.render_label_density := by
  rcases settings with ⟨a1, a2, a3, a4, a5, a6, a7⟩
  cases a1 <;> cases a2 <;> cases a3 <;> cases a4 <;> cases a5 <;> cases a6 <;> cases a7 <;>
    exact ⟨rfl, rfl⟩

theorem setRenderQuality_inRange [LinearOrderedField α] [FloorRing α] (c : Core α)
    (level labelDensity : Option α) (h : c.qualityInRange) :
    (setRenderQuality c level labelDensity).qualityInRange := by
  unfold Core.qualityInRange at h ⊢
  have hl : ∀ x : α, (0 : Int) ≤ max 0 (min 2 (Int.floor x)) ∧
      max 0 (min 2 (Int.floor x)) ≤ 2 := fun x =>
    ⟨le_max_left _ _, max_le (by norm_num) (min_le_left _ _)⟩
  have hd : ∀ x : α, (0 : α) ≤ max 0 (min 1 x) ∧ max 0 (min 1 x) ≤ 1 := fun x =>
    ⟨le_max_left _ _, max_le (by norm_num) (min_le_left _ _)⟩
  cases level <;> cases labelDensity
  · exact h
  · exact ⟨h.1, hd _⟩
  · exact ⟨hl _, h.2⟩
  · exact ⟨hl _, hd _⟩

theorem setPinchInertia_inRange [LinearOrderedField α] (c : Core α) (en : Option Bool)
    (fr : Option α) (h : c.qualityInRange) : (setPinchInertia c en fr).qualityInRange :=
  qualityInRange_congr c _ (setPinchInertia_quality c en fr).1
    (setPinchInertia_quality c en fr).2 h

theorem setPanInertia_inRange [LinearOrderedField α] (c : Core α) (en : Option Bool)
    (fr : Option α) (h : c.qualityInRange) : (setPanInertia c en fr).qualityInRange :=
  qualityInRange_congr c _ (setPanInertia_quality c en fr).1
    (setPanInertia_quality c en fr).2 h

theorem setTouchSensitivity_inRange [LinearOrderedField α] (c : Core α) (pan zoom : Option α)
    (h : c.qualityInRange) : (setTouchSensitivity c pan zoom).qualityInRange :=
  qualityInRange_congr c _ (setTouchSensitivity_quality c pan zoom).1
    (setTouchSensitivity_quality c pan zoom).2 h

theorem setStarScale_inRange [LinearOrderedField α] (c : Core α) (a b : Option α)
    (h : c.qualityInRange) : (setStarScale c a b).qualityInRange :=
  qualityInRange_congr c _ (setStarScale_quality c a b).1 (setStarScale_quality c a b).2 h

theorem setPerformanceSettings_inRange [LinearOrderedField α] (c : Core α)
    (settings : PerformanceSettings α) (h : c.qualityInRange) :
    (setPerformanceSettings c settings).qualityInRange :=
  qualityInRange_congr c _ (setPerformanceSettings_quality c settings).1
    (setPerformanceSettings_quality c settings).2 h

theorem setMobileSettings_inRange [LinearOrderedField α] [FloorRing α] (c : Core α)
    (settings : MobileSettings α) (h : c.qualityInRange) :
    (setMobileSettings c settings).qualityInRange := by
  rcases settings with ⟨a1, a2, a3, a4⟩
  cases a1 <;> cases a2 <;> cases a3 <;> cases a4 <;> dsimp only [setMobileSettings] <;>
    repeat first
      | exact h
      | apply setRenderQuality_inRange
      | apply setTouchSensitivity_inRange
      | apply setPanInertia_inRange
      | apply setPinchInertia_inRange

theorem adaptiveQualityEvaluate_inRange [LinearOrderedField α] (c : Core α)
    (h : c.qualityInRange) : (adaptiveQualityEvaluate c).qualityInRange := by
  unfold Core.qualityInRange at h ⊢
  obtain ⟨⟨hl0, hl2⟩, hd0, hd1⟩ := h
  unfold adaptiveQualityEvaluate
  dsimp only
  split_ifs with h1 h2 h3 h4
  · refine ⟨⟨?_, ?_⟩, ?_, ?_⟩
    · show 0 ≤ c.render_quality_level - 1; omega
    · show c.render_quality_level - 1 ≤ 2; omega
    · exact le_trans (by norm_num) (le_max_left _ _)
    · exact max_le (by norm_num) (by linarith)
  · exact ⟨⟨hl0, hl2⟩, hd0, hd1⟩
  · refine ⟨⟨?_, ?_⟩, ?_, ?_⟩
    · show 0 ≤ c.render_quality_level + 1; omega
    · show c.render_quality_level + 1 ≤ 2; omega
    · exact le_min (by norm_num) (by linarith)
    · exact le_trans (min_le_left _ _) (by norm_num)
  · exact ⟨⟨hl0, hl2⟩, hd0, hd1⟩
  · exact ⟨⟨hl0, hl2⟩, hd0, hd1⟩

theorem qualityOp_apply_inRange [LinearOrderedField α] [FloorRing α] (c : Core α)
    (op : QualityOp α) (h : c.qualityInRange) : (QualityOp.apply c op).qualityInRange := by
  cases op with
  | evaluate t =>
    exact adaptiveQualityEvaluate_inRange _ (qualityInRange_congr c _ rfl rfl h)
  | setRenderQuality l d => exact setRenderQuality_inRange c l d h
  | setMobileSettings st => exact setMobileSettings_inRange c st h
  | enableMobileOptimizations a =>
    show (enableMobileOptimizations c a).qualityInRange
    unfold enableMobileOptimizations
    split <;> exact setMobileSettings_inRange c _ h
  | disableMobileOptimizations => exact setMobileSettings_inRange c _ h
  | setLowPowerMode en =>
    show (setLowPowerMode c en).qualityInRange
    unfold setLowPowerMode
    split
    · exact setMobileSettings_inRange _ _ (setRenderQuality_inRange _ _ _
        (setPerformanceSettings_inRange c _ h))
    · exact setRenderQuality_inRange _ _ _ (setPerformanceSettings_inRange c _ h)
  | setHighPerformanceMode en =>
    show (setHighPerformanceMode c en).qualityInRange
    unfold setHighPerformanceMode
    split
    · exact setStarScale_inRange _ _ _ (setRenderQuality_inRange _ _ _
        (setPerformanceSettings_inRange c _ h))
    · exact setPerformanceSettings_inRange c _ h

/-- C11. Quality range invariant: if the level is in `{0, 1, 2}` and the label
density in `[0, 1]`, the same holds after a controller evaluation (for any frame
time reading and any target), after `setRenderQuality` with any arguments, after
`setMobileSettings`, `enableMobileOptimizations`, `disableMobileOptimizations`,
`setLowPowerMode` and `setHighPerformanceMode`, and hence after any finite
sequence of these operations. -/
theorem quality_range_invariant [LinearOrderedField α] [FloorRing α] (c : Core α)
    (h : c.qualityInRange) :
    (∀ op : QualityOp α, (QualityOp.apply c op).qualityInRange) ∧
      ∀ ops : List (QualityOp α), (ops.foldl QualityOp.apply c).qualityInRange := by
  refine ⟨fun op => qualityOp_apply_inRange c op h, fun ops => ?_⟩
  induction ops generalizing c with
  | nil => exact h
  | cons op ops ih => exact ih (QualityOp.apply c op) (qualityOp_apply_inRange c op h)

/-- Evaluation of C11 over the rationals: from level 2 and label density 1, a
slow evaluation, `setRenderQuality(7.5, -3)`, the low-power preset and a fast
evaluation. -/
theorem quality_range_invariant_witness :
    (Core.sample 2 1 60 100 : Core ℚ).qualityInRange ∧
      (([QualityOp.evaluate 100, QualityOp.setRenderQuality (some 7.5) (some (-3)),
          QualityOp.setLowPowerMode true, QualityOp.evaluate 5] : List (QualityOp ℚ)).foldl
        QualityOp.apply (Core.sample 2 1 60 100)).qualityInRange :=
  ⟨by norm_num [Core.qualityInRange, Core.sample],
    (quality_range_invariant (Core.sample 2 1 60 100 : Core ℚ)
      (by norm_num [Core.qualityInRange, Core.sample])).2 _⟩

/-! ## Claim C12: pinch start -/

/-- C12. Pinch start: a `touchstart` whose touch list is exactly `[p, q]` sets
`pinchStartDist` to `sqrt ((p.pageX - q.pageX)^2 + (p.pageY - q.pageY)^2)`,
`pinchCenter` to the midpoint of `p` and `q` minus the rectangle's `(left, top)`,
and `lastScale` to `1`; a `touchstart` whose touch list has any other length
leaves the three fields unchanged. -/
theorem pinch_start [LinearOrderedField α] (sqrt : α → α) (st : TouchState α)
    (rect : Rect α) (now : α) (e : TouchEvent α) :
    (∀ p q : Touch α, e.touches = [p, q] →
      (touchstart sqrt st rect now e).1.pinchStartDist =
          sqrt ((p.pageX - q.pageX) ^ 2 + (p.pageY - q.pageY) ^ 2) ∧
        (touchstart sqrt st rect now e).1.pinchCenter =
          { x := (p.pageX + q.pageX) / 2 - rect.left,
            y := (p.pageY + q.pageY) / 2 - rect.top } ∧
        (touchstart sqrt st rect now e).1.lastScale = 1) ∧
    (e.touches.length ≠ 2 →
      (touchstart sqrt st rect now e).1.pinchStartDist = st.pinchStartDist ∧
        (touchstart sqrt st rect now e).1.pinchCenter = st.pinchCenter ∧
        (touchstart sqrt st rect now e).1.lastScale = st.lastScale) := by
  constructor
  · intro p q hpq
    simp only [touchstart, hpq, getTouchDistance, getTouchCenter, pow_two]
    exact ⟨trivial, trivial, trivial⟩
  · intro hlen
    unfold touchstart
    split
    · rename_i t0 t1 heq
      exact absurd (by simp [heq]) hlen
    · exact ⟨rfl, rfl, rfl⟩

/-- Evaluation of C12 over the real numbers with `Real.sqrt`: a second finger
lands at (6, 8) while the first is at (0, 0); and a single-touch start. -/
theorem pinch_start_witness :
    ((touchstart Real.sqrt (TouchState.init : TouchState ℝ) ⟨1, 1, 100, 100⟩ 0
        ⟨[⟨0, 0, 0⟩, ⟨1, 6, 8⟩], [⟨1, 6, 8⟩]⟩).1.pinchStartDist =
          Real.sqrt ((0 - 6) ^ 2 + (0 - 8) ^ 2) ∧
      (touchstart Real.sqrt (TouchState.init : TouchState ℝ) ⟨1, 1, 100, 100⟩ 0
        ⟨[⟨0, 0, 0⟩, ⟨1, 6, 8⟩], [⟨1, 6, 8⟩]⟩).1.pinchCenter =
          { x := (0 + 6) / 2 - 1, y := (0 + 8) / 2 - 1 } ∧
      (touchstart Real.sqrt (TouchState.init : TouchState ℝ) ⟨1, 1, 100, 100⟩ 0
        ⟨[⟨0, 0, 0⟩, ⟨1, 6, 8⟩], [⟨1, 6, 8⟩]⟩).1.lastScale = 1) ∧
    (touchstart Real.sqrt (TouchState.init : TouchState ℝ) ⟨1, 1, 100, 100⟩ 0
        ⟨[⟨0, 0, 0⟩], [⟨0, 0, 0⟩]⟩).1.pinchStartDist = 0 :=
  ⟨(pinch_start Real.sqrt (TouchState.init : TouchState ℝ) ⟨1, 1, 100, 100⟩ 0
      ⟨[⟨0, 0, 0⟩, ⟨1, 6, 8⟩], [⟨1, 6, 8⟩]⟩).1 ⟨0, 0, 0⟩ ⟨1, 6, 8⟩ rfl,
    ((pinch_start Real.sqrt (TouchState.init : TouchState ℝ) ⟨1, 1, 100, 100⟩ 0
      ⟨[⟨0, 0, 0⟩], [⟨0, 0, 0⟩]⟩).2 (by simp)).1⟩

/-! ## Claims C13-C15: pinch sessions -/

theorem pinchUpdate_pinchStartDist [LinearOrderedField α] (sqrt : α → α) (st : TouchState α)
    (rect : Rect α) (touches : List (Touch α)) :
    (pinchUpdate sqrt st rect touches).1.pinchStartDist = st.pinchStartDist := by
  unfold pinchUpdate
  split
  · split
    · dsimp only
      split <;> rfl
    · rfl
  · rfl

theorem touchmove_pinchStartDist [LinearOrderedField α] (sqrt : α → α) (st : TouchState α)
    (rect : Rect α) (e : TouchEvent α) :
    (touchmove sqrt st rect e).1.pinchStartDist = st.pinchStartDist := by
  simp only [touchmove, pinchUpdate_pinchStartDist]

/-- A zoom call leaves a touch listener only from the pinch block of `touchmove`,
with exactly two touches in the list and a positive baseline. -/
theorem zoomCalls_dispatchTouch_ne_nil [LinearOrderedField α] (sqrt : α → α)
    (st : TouchState α) (inp : TouchInput α)
    (h : zoomCalls (dispatchTouch sqrt st inp).2 ≠ []) :
    inp.type = TouchEventType.touchmove ∧ inp.e.touches.length = 2 ∧
      0 < st.pinchStartDist := by
  have hz : ∀ tr : List (Call α),
      zoomCalls (Call.preventDefault :: tr) = zoomCalls tr := by
    intro tr; simp [zoomCalls]
  unfold dispatchTouch at h
  cases ht : inp.type with
  | touchstart =>
    rw [ht] at h
    exact absurd (by simp only [touchstart, zoomCalls_forwardChangedTouches]) h
  | touchend =>
    rw [ht] at h
    exact absurd (by simp only [touchend, zoomCalls_forwardChangedTouches]) h
  | touchcancel =>
    rw [ht] at h
    exact absurd (by simp only [touchcancel, zoomCalls_forwardChangedTouches]) h
  | touchmove =>
    rw [ht] at h
    refine ⟨rfl, ?_⟩
    by_contra hcon
    apply h
    have hnot : inp.e.touches.length ≠ 2 ∨ st.pinchStartDist = 0 ∨ st.pinchStartDist < 0 := by
      by_cases h2 : inp.e.touches.length = 2
      · rcases lt_trichotomy st.pinchStartDist 0 with hlt | heq | hgt
        · exact Or.inr (Or.inr hlt)
        · exact Or.inr (Or.inl heq)
        · exact absurd ⟨h2, hgt⟩ hcon
      · exact Or.inl h2
    have hrun : (pinchUpdate sqrt { st with touchCount := inp.e.touches.length } inp.rect
        inp.e.touches).2 = [] := by
      unfold pinchUpdate
      split
      · rename_i t0 t1 heq
        rcases hnot with h2 | h0 | hneg
        · exact absurd (by simp [heq]) h2
        · simp [h0]
        · have : ¬ st.pinchStartDist > 0 := not_lt.mpr hneg.le
          simp [this]
      · rfl
    simp only [touchmove, hz, zoomCalls_append, zoomCalls_forwardChangedTouches, hrun,
      List.append_nil]
    rfl

/-- One consistent touch event keeps the implication "baseline non-zero, hence
at least two live touches". -/
theorem dispatchTouch_baseline_live [LinearOrderedField α] (sqrt : α → α) (st : TouchState α)
    (n : Nat) (inp : TouchInput α) (hc : inp.consistent n = true)
    (hinv : st.pinchStartDist ≠ 0 → 2 ≤ n) :
    (dispatchTouch sqrt st inp).1.pinchStartDist ≠ 0 → 2 ≤ inp.e.touches.length := by
  unfold TouchInput.consistent at hc
  unfold dispatchTouch
  cases ht : inp.type with
  | touchstart =>
    rw [ht] at hc
    simp only [decide_eq_true_eq] at hc
    simp only [touchstart]
    split
    · rename_i t0 t1 heq
      intro _; simp [heq]
    · intro h
      have := hinv h
      omega
  | touchmove =>
    rw [ht] at hc
    simp only [decide_eq_true_eq] at hc
    simp only [touchmove_pinchStartDist]
    intro h
    have := hinv h
    omega
  | touchend =>
    simp only [touchend]
    by_cases hlt : inp.e.touches.length < 2
    · simp [hlt]
    · intro _; omega
  | touchcancel =>
    simp [touchcancel]

theorem runTouch_baseline_live [LinearOrderedField α] (sqrt : α → α) (st : TouchState α)
    (n : Nat) (evs : List (TouchInput α)) (hc : consistentRun n evs = true)
    (hinv : st.pinchStartDist ≠ 0 → 2 ≤ n) :
    (runTouch sqrt st evs).1.pinchStartDist ≠ 0 → 2 ≤ liveAfter n evs := by
  induction evs generalizing st n with
  | nil => exact hinv
  | cons inp rest ih =>
    simp only [consistentRun, Bool.and_eq_true] at hc
    exact ih _ _ hc.2 (dispatchTouch_baseline_live sqrt st n inp hc.1 hinv)

theorem getTouchDistance_real_horizontal (i j : Int) (d : ℝ) (hd : 0 ≤ d) :
    getTouchDistance Real.sqrt ⟨i, 0, 0⟩ ⟨j, d, 0⟩ = d := by
  simp only [getTouchDistance]
  rw [show ((0 : ℝ) - d) * (0 - d) + (0 - 0) * (0 - 0) = d ^ 2 by ring]
  exact Real.sqrt_sq hd

/-- C13, as stated, fails on the code: after a first, a second and a third touch
start (a consistent run with three live touches) the baseline set by the second
start is still positive; and after one of the three touches ends, the two
remaining touches at distance 10 still have the old baseline 5. -/
theorem pinch_active_counterexample :
    consistentRun 0
        ([⟨TouchEventType.touchstart, ⟨0, 0, 100, 100⟩, 0, ⟨[⟨0, 0, 0⟩], [⟨0, 0, 0⟩]⟩⟩,
          ⟨TouchEventType.touchstart, ⟨0, 0, 100, 100⟩, 1,
            ⟨[⟨0, 0, 0⟩, ⟨1, 5, 0⟩], [⟨1, 5, 0⟩]⟩⟩,
          ⟨TouchEventType.touchstart, ⟨0, 0, 100, 100⟩, 2,
            ⟨[⟨0, 0, 0⟩, ⟨1, 5, 0⟩, ⟨2, 10, 0⟩], [⟨2, 10, 0⟩]⟩⟩] :
          List (TouchInput ℝ)) = true ∧
      liveAfter 0
        ([⟨TouchEventType.touchstart, ⟨0, 0, 100, 100⟩, 0, ⟨[⟨0, 0, 0⟩], [⟨0, 0, 0⟩]⟩⟩,
          ⟨TouchEventType.touchstart, ⟨0, 0, 100, 100⟩, 1,
            ⟨[⟨0, 0, 0⟩, ⟨1, 5, 0⟩], [⟨1, 5, 0⟩]⟩⟩,
          ⟨TouchEventType.touchstart, ⟨0, 0, 100, 100⟩, 2,
            ⟨[⟨0, 0, 0⟩, ⟨1, 5, 0⟩, ⟨2, 10, 0⟩], [⟨2, 10, 0⟩]⟩⟩] :
          List (TouchInput ℝ)) = 3 ∧
      (runTouch Real.sqrt TouchState.init
        ([⟨TouchEventType.touchstart, ⟨0, 0, 100, 100⟩, 0, ⟨[⟨0, 0, 0⟩], [⟨0, 0, 0⟩]⟩⟩,
          ⟨TouchEventType.touchstart, ⟨0, 0, 100, 100⟩, 1,
            ⟨[⟨0, 0, 0⟩, ⟨1, 5, 0⟩], [⟨1, 5, 0⟩]⟩⟩,
          ⟨TouchEventType.touchstart, ⟨0, 0, 100, 100⟩, 2,
            ⟨[⟨0, 0, 0⟩, ⟨1, 5, 0⟩, ⟨2, 10, 0⟩], [⟨2, 10, 0⟩]⟩⟩] :
          List (TouchInput ℝ))).1.pinchStartDist = 5 ∧
      (runTouch Real.sqrt TouchState.init
        ([⟨TouchEventType.touchstart, ⟨0, 0, 100, 100⟩, 0, ⟨[⟨0, 0, 0⟩], [⟨0, 0, 0⟩]⟩⟩,
          ⟨TouchEventType.touchstart, ⟨0, 0, 100, 100⟩, 1,
            ⟨[⟨0, 0, 0⟩, ⟨1, 5, 0⟩], [⟨1, 5, 0⟩]⟩⟩,
          ⟨TouchEventType.touchstart, ⟨0, 0, 100, 100⟩, 2,
            ⟨[⟨0, 0, 0⟩, ⟨1, 5, 0⟩, ⟨2, 10, 0⟩], [⟨2, 10, 0⟩]⟩⟩,
          ⟨TouchEventType.touchend, ⟨0, 0, 100, 100⟩, 3,
            ⟨[⟨0, 0, 0⟩, ⟨2, 10, 0⟩], [⟨1, 5, 0⟩]⟩⟩] :
          List (TouchInput ℝ))).1.pinchStartDist = 5 ∧
      getTouchDistance Real.sqrt ⟨0, 0, 0⟩ ⟨2, 10, 0⟩ = 10 := by
  have h5 := getTouchDistance_real_horizontal 0 1 5 (by norm_num)
  have h10 := getTouchDistance_real_horizontal 0 2 10 (by norm_num)
  refine ⟨by simp [consistentRun, TouchInput.consistent], by simp [liveAfter], ?_, ?_, h10⟩
  · simp [runTouch, dispatchTouch, touchstart, h5]
  · simp [runTouch, dispatchTouch, touchstart, touchend, h5]

/-- C13, amended. In every state reached from the initial touch state by a run of
touch events consistent with a set of live touches, a positive `pinchStartDist`
implies that at least two touches are live; a zoom call is forwarded only by a
`touchmove` whose touch list has exactly two touches (and a positive baseline);
and a `touchstart` whose touch list has exactly two touches records a fresh
baseline with `lastScale = 1`. -/
theorem pinch_active_invariant [LinearOrderedField α] (sqrt : α → α)
    (evs : List (TouchInput α)) (hc : consistentRun 0 evs = true) :
    (0 < (runTouch sqrt TouchState.init evs).1.pinchStartDist → 2 ≤ liveAfter 0 evs) ∧
      (∀ (st : TouchState α) (inp : TouchInput α),
        zoomCalls (dispatchTouch sqrt st inp).2 ≠ [] →
          inp.type = TouchEventType.touchmove ∧ inp.e.touches.length = 2 ∧
            0 < st.pinchStartDist) ∧
      (∀ (st : TouchState α) (inp : TouchInput α) (p q : Touch α),
        inp.type = TouchEventType.touchstart → inp.e.touches = [p, q] →
          (dispatchTouch sqrt st inp).1.pinchStartDist = getTouchDistance sqrt p q ∧
            (dispatchTouch sqrt st inp).1.lastScale = 1) := by
  refine ⟨fun hpos => ?_, fun st inp h => zoomCalls_dispatchTouch_ne_nil sqrt st inp h, ?_⟩
  · exact runTouch_baseline_live sqrt TouchState.init 0 evs hc
      (fun h => absurd rfl h) (ne_of_gt hpos)
  · intro st inp p q ht hpq
    simp only [dispatchTouch, ht, touchstart, hpq]
    exact ⟨trivial, trivial⟩

/-- Evaluation of the amended C13 over the real numbers: one touch starts, a
second starts at distance 5; the baseline is positive and two touches are live. -/
theorem pinch_active_invariant_witness :
    (0 : ℝ) < 5 ∧
      2 ≤ liveAfter 0
        ([⟨TouchEventType.touchstart, ⟨0, 0, 100, 100⟩, 0, ⟨[⟨0, 0, 0⟩], [⟨0, 0, 0⟩]⟩⟩,
          ⟨TouchEventType.touchstart, ⟨0, 0, 100, 100⟩, 1,
            ⟨[⟨0, 0, 0⟩, ⟨1, 5, 0⟩], [⟨1, 5, 0⟩]⟩⟩] : List (TouchInput ℝ)) := by
  refine ⟨by norm_num, ?_⟩
  apply (pinch_active_invariant Real.sqrt
    ([⟨TouchEventType.touchstart, ⟨0, 0, 100, 100⟩, 0, ⟨[⟨0, 0, 0⟩], [⟨0, 0, 0⟩]⟩⟩,
      ⟨TouchEventType.touchstart, ⟨0, 0, 100, 100⟩, 1,
        ⟨[⟨0, 0, 0⟩, ⟨1, 5, 0⟩], [⟨1, 5, 0⟩]⟩⟩] : List (TouchInput ℝ))
    (by simp [consistentRun, TouchInput.consistent])).1
  have h5 := getTouchDistance_real_horizontal 0 1 5 (by norm_num)
  simp [runTouch, dispatchTouch, touchstart, h5]

theorem zoomCalls_zoom_cons (k x y : α) (tr : List (Call α)) :
    zoomCalls (Call.core_on_zoom k x y :: tr) = Call.core_on_zoom k x y :: zoomCalls tr := by
  simp [zoomCalls]

theorem zoomCalls_preventDefault_cons (tr : List (Call α)) :
    zoomCalls (Call.preventDefault :: tr) = zoomCalls tr := by
  simp [zoomCalls]

/-- The `touchmove` listener when the pinch sample is accepted. -/
theorem touchmove_accept [LinearOrderedField α] (sqrt : α → α) (st : TouchState α)
    (rect : Rect α) (e : TouchEvent α) (p q : Touch α) (hpq : e.touches = [p, q])
    (hD : 0 < st.pinchStartDist)
    (hj : |getTouchDistance sqrt p q / st.pinchStartDist - st.lastScale| > 0.005) :
    touchmove sqrt st rect e =
      ({ st with
          touchCount := 2
          lastScale := getTouchDistance sqrt p q / st.pinchStartDist
          pinchCenter := getTouchCenter p q rect },
        Call.preventDefault ::
          Call.core_on_zoom (getTouchDistance sqrt p q / st.pinchStartDist / st.lastScale)
            (getTouchCenter p q rect).x (getTouchCenter p q rect).y ::
          forwardChangedTouches rect (-1) e.changedTouches) := by
  simp only [touchmove, hpq, pinchUpdate, hD, hj, if_true, List.length_cons, List.length_nil,
    List.singleton_append]

/-- The `touchmove` listener when the pinch sample is within the jitter
threshold of the last accepted scale. -/
theorem touchmove_reject [LinearOrderedField α] (sqrt : α → α) (st : TouchState α)
    (rect : Rect α) (e : TouchEvent α) (p q : Touch α) (hpq : e.touches = [p, q])
    (hj : ¬ |getTouchDistance sqrt p q / st.pinchStartDist - st.lastScale| > 0.005) :
    touchmove sqrt st rect e =
      ({ st with touchCount := 2 },
        Call.preventDefault :: forwardChangedTouches rect (-1) e.changedTouches) := by
  by_cases hD : st.pinchStartDist > 0
  · simp only [touchmove, hpq, pinchUpdate, hD, hj, if_true, if_false, List.length_cons,
      List.length_nil, List.nil_append]
  · simp only [touchmove, hpq, pinchUpdate, hD, if_false, List.length_cons,
      List.length_nil, List.nil_append]

/-- A `touchmove` that forwards no zoom call leaves the pinch fields unchanged. -/
theorem touchmove_state_of_no_zoom [LinearOrderedField α] (sqrt : α → α) (st : TouchState α)
    (rect : Rect α) (e : TouchEvent α) (h : zoomCalls (touchmove sqrt st rect e).2 = []) :
    (touchmove sqrt st rect e).1.lastScale = st.lastScale ∧
      (touchmove sqrt st rect e).1.pinchStartDist = st.pinchStartDist ∧
      (touchmove sqrt st rect e).1.pinchCenter = st.pinchCenter := by
  refine ⟨?_, touchmove_pinchStartDist sqrt st rect e, ?_⟩ <;>
  · simp only [touchmove] at h ⊢
    rw [zoomCalls_preventDefault_cons, zoomCalls_append] at h
    have h' := (List.append_eq_nil.mp h).1
    unfold pinchUpdate at h' ⊢
    split
    · split
      · dsimp only
        split
        · rename_i heq _ hacc
          simp only [heq, ‹_ > (0 : α)›, hacc, if_true] at h'
          simp [zoomCalls] at h'
        · rfl
      · rfl
    · rfl

/-- Over a run of `touchmove` events the baseline does not change. -/
theorem runTouch_moves_pinchStartDist [LinearOrderedField α] (sqrt : α → α)
    (st : TouchState α) (moves : List (TouchInput α))
    (hm : ∀ m ∈ moves, m.type = TouchEventType.touchmove) :
    (runTouch sqrt st moves).1.pinchStartDist = st.pinchStartDist := by
  induction moves generalizing st with
  | nil => rfl
  | cons m rest ih =>
    have hmt := hm m (List.mem_cons_self m rest)
    simp only [runTouch]
    rw [ih _ (fun x hx => hm x (List.mem_cons_of_mem m hx))]
    simp only [dispatchTouch, hmt, touchmove_pinchStartDist]

/-- Over a run of `touchmove` events that forwards no zoom call the last accepted
scale does not change. -/
theorem runTouch_moves_lastScale [LinearOrderedField α] (sqrt : α → α)
    (st : TouchState α) (moves : List (TouchInput α))
    (hm : ∀ m ∈ moves, m.type = TouchEventType.touchmove)
    (hz : zoomCalls (runTouch sqrt st moves).2 = []) :
    (runTouch sqrt st moves).1.lastScale = st.lastScale := by
  induction moves generalizing st with
  | nil => rfl
  | cons m rest ih =>
    have hmt := hm m (List.mem_cons_self m rest)
    simp only [runTouch, zoomCalls_append] at hz ⊢
    obtain ⟨hz1, hz2⟩ := List.append_eq_nil.mp hz
    rw [ih _ (fun x hx => hm x (List.mem_cons_of_mem m hx)) hz2]
    simp only [dispatchTouch, hmt] at hz1 ⊢
    exact (touchmove_state_of_no_zoom sqrt st m.rect m.e hz1).1

/-- A `touchstart` with exactly two touches in its list overwrites every field of
the touch state. -/
theorem touchstart_two_independent [LinearOrderedField α] (sqrt : α → α)
    (st1 st2 : TouchState α) (rect : Rect α) (now : α) (e : TouchEvent α) (p q : Touch α)
    (hpq : e.touches = [p, q]) :
    touchstart sqrt st1 rect now e = touchstart sqrt st2 rect now e := by
  simp only [touchstart, hpq]

/-- C14. Pinch end and fresh baseline. A `touchend` that leaves fewer than two
touches, and every `touchcancel`, sets `pinchStartDist` to `0` and `lastScale` to
`1`. A following `touchstart` with two touches and any events after it give the
same state and the same trace whatever the prior touch state was. After that
start the baseline stays the distance `D1` of its two touches over any run of
`touchmove` events, so each scale is `D / D1`; and while no zoom call has been
forwarded, an accepted sample at distance `D` forwards the single factor
`D / D1`. -/
theorem pinch_end_fresh_baseline [LinearOrderedField α] (sqrt : α → α) :
    (∀ (st : TouchState α) (rect : Rect α) (e : TouchEvent α), e.touches.length < 2 →
      (touchend st rect e).1.pinchStartDist = 0 ∧ (touchend st rect e).1.lastScale = 1) ∧
    (∀ (st : TouchState α) (rect : Rect α) (e : TouchEvent α),
      (touchcancel st rect e).1.pinchStartDist = 0 ∧
        (touchcancel st rect e).1.lastScale = 1) ∧
    (∀ (st1 st2 : TouchState α) (rect : Rect α) (now : α) (e : TouchEvent α)
      (p q : Touch α) (rest : List (TouchInput α)), e.touches = [p, q] →
      runTouch sqrt st1 (⟨TouchEventType.touchstart, rect, now, e⟩ :: rest) =
        runTouch sqrt st2 (⟨TouchEventType.touchstart, rect, now, e⟩ :: rest)) ∧
    (∀ (st : TouchState α) (rect : Rect α) (now : α) (e : TouchEvent α) (p q : Touch α)
      (moves : List (TouchInput α)), e.touches = [p, q] →
      (∀ m ∈ moves, m.type = TouchEventType.touchmove) →
      (runTouch sqrt st (⟨TouchEventType.touchstart, rect, now, e⟩ :: moves)).1.pinchStartDist
          = getTouchDistance sqrt p q ∧
        ∀ (m : TouchInput α) (p' q' : Touch α), m.type = TouchEventType.touchmove →
          m.e.touches = [p', q'] → 0 < getTouchDistance sqrt p q →
          zoomCalls (runTouch sqrt st
            (⟨TouchEventType.touchstart, rect, now, e⟩ :: moves)).2 = [] →
          |getTouchDistance sqrt p' q' / getTouchDistance sqrt p q - 1| > 0.005 →
          zoomCalls (dispatchTouch sqrt (runTouch sqrt st
              (⟨TouchEventType.touchstart, rect, now, e⟩ :: moves)).1 m).2 =
            [Call.core_on_zoom (getTouchDistance sqrt p' q' / getTouchDistance sqrt p q)
              ((p'.pageX + q'.pageX) / 2 - m.rect.left)
              ((p'.pageY + q'.pageY) / 2 - m.rect.top)]) := by
  refine ⟨?_, ?_, ?_, ?_⟩
  · intro st rect e h
    simp [touchend, h]
  · intro st rect e
    simp [touchcancel]
  · intro st1 st2 rect now e p q rest hpq
    simp only [runTouch, dispatchTouch, touchstart_two_independent sqrt st1 st2 rect now e p q hpq]
  · intro st rect now e p q moves hpq hm
    have hstart : (touchstart sqrt st rect now e).1.pinchStartDist = getTouchDistance sqrt p q ∧
        (touchstart sqrt st rect now e).1.lastScale = 1 := by
      simp only [touchstart, hpq]
      exact ⟨trivial, trivial⟩
    have hD : (runTouch sqrt st
        (⟨TouchEventType.touchstart, rect, now, e⟩ :: moves)).1.pinchStartDist =
        getTouchDistance sqrt p q := by
      simp only [runTouch, dispatchTouch]
      rw [runTouch_moves_pinchStartDist sqrt _ moves hm]
      exact hstart.1
    refine ⟨hD, ?_⟩
    intro m p' q' hmt hpq' hpos hz hacc
    have hS : (runTouch sqrt st
        (⟨TouchEventType.touchstart, rect, now, e⟩ :: moves)).1.lastScale = 1 := by
      simp only [runTouch, dispatchTouch, zoomCalls_append] at hz ⊢
      rw [runTouch_moves_lastScale sqrt _ moves hm (List.append_eq_nil.mp hz).2]
      exact hstart.2
    simp only [dispatchTouch, hmt]
    rw [touchmove_accept sqrt _ m.rect m.e p' q' hpq' (by rw [hD]; exact hpos)
      (by rw [hD, hS]; exact hacc)]
    rw [zoomCalls_preventDefault_cons, zoomCalls_zoom_cons, zoomCalls_forwardChangedTouches,
      hD, hS, div_one]
    rfl

/-- Evaluation of C14 over the real numbers: a `touchend` leaving one touch
resets the pinch, and a two-touch `touchstart` followed by a move gives the same
result from the initial state and from a state with residual scale 3 and
baseline 7. -/
theorem pinch_end_fresh_baseline_witness :
    ((touchend (⟨0, 2, 3, 7, ⟨0, 0⟩⟩ : TouchState ℝ) ⟨0, 0, 100, 100⟩
        ⟨[⟨0, 0, 0⟩], [⟨1, 5, 0⟩]⟩).1.pinchStartDist = 0 ∧
      (touchend (⟨0, 2, 3, 7, ⟨0, 0⟩⟩ : TouchState ℝ) ⟨0, 0, 100, 100⟩
        ⟨[⟨0, 0, 0⟩], [⟨1, 5, 0⟩]⟩).1.lastScale = 1) ∧
    runTouch Real.sqrt (TouchState.init : TouchState ℝ)
        (⟨TouchEventType.touchstart, ⟨0, 0, 100, 100⟩, 1,
            ⟨[⟨0, 0, 0⟩, ⟨1, 5, 0⟩], [⟨1, 5, 0⟩]⟩⟩ ::
          [⟨TouchEventType.touchmove, ⟨0, 0, 100, 100⟩, 2,
            ⟨[⟨0, 0, 0⟩, ⟨1, 6, 0⟩], [⟨1, 6, 0⟩]⟩⟩]) =
      runTouch Real.sqrt (⟨0, 2, 3, 7, ⟨0, 0⟩⟩ : TouchState ℝ)
        (⟨TouchEventType.touchstart, ⟨0, 0, 100, 100⟩, 1,
            ⟨[⟨0, 0, 0⟩, ⟨1, 5, 0⟩], [⟨1, 5, 0⟩]⟩⟩ ::
          [⟨TouchEventType.touchmove, ⟨0, 0, 100, 100⟩, 2,
            ⟨[⟨0, 0, 0⟩, ⟨1, 6, 0⟩], [⟨1, 6, 0⟩]⟩⟩]) :=
  ⟨(pinch_end_fresh_baseline Real.sqrt).1 _ _ _ (by simp),
    (pinch_end_fresh_baseline Real.sqrt).2.2.1 _ _ _ _ _ ⟨0, 0, 0⟩ ⟨1, 5, 0⟩ _ rfl⟩

/-- C15, as stated, fails on the code: in a fresh session with baseline 1000 the
samples at distances 1004 and 1008 have scales 1.004 and 1.008, each within 0.005
of the preceding one (the first of 1.0); yet the second sample forwards a zoom
call, because it is compared with the last accepted scale 1.0. -/
theorem jitter_drift_counterexample :
    |(1004 : ℝ) / 1000 - 1| < 0.005 ∧ |(1008 : ℝ) / 1000 - 1004 / 1000| < 0.005 ∧
      zoomCalls (runTouch Real.sqrt (TouchState.init : TouchState ℝ)
        [⟨TouchEventType.touchstart, ⟨0, 0, 2000, 2000⟩, 0,
            ⟨[⟨0, 0, 0⟩, ⟨1, 1000, 0⟩], [⟨1, 1000, 0⟩]⟩⟩,
          ⟨TouchEventType.touchmove, ⟨0, 0, 2000, 2000⟩, 1,
            ⟨[⟨0, 0, 0⟩, ⟨1, 1004, 0⟩], [⟨1, 1004, 0⟩]⟩⟩,
          ⟨TouchEventType.touchmove, ⟨0, 0, 2000, 2000⟩, 2,
            ⟨[⟨0, 0, 0⟩, ⟨1, 1008, 0⟩], [⟨1, 1008, 0⟩]⟩⟩]).2 =
        [Call.core_on_zoom (1008 / 1000 / 1) ((0 + 1008) / 2 - 0) ((0 + 0) / 2 - 0)] := by
  have h1000 := getTouchDistance_real_horizontal 0 1 1000 (by norm_num)
  have h1004 := getTouchDistance_real_horizontal 0 1 1004 (by norm_num)
  have h1008 := getTouchDistance_real_horizontal 0 1 1008 (by norm_num)
  have a1 : |(1004 : ℝ) / 1000 - 1| < 0.005 := by
    rw [abs_of_nonneg (by norm_num)]; norm_num
  have a2 : |(1008 : ℝ) / 1000 - 1004 / 1000| < 0.005 := by
    rw [abs_of_nonneg (by norm_num)]; norm_num
  have a3 : |(1008 : ℝ) / 1000 - 1| > 0.005 := by
    rw [abs_of_nonneg (by norm_num)]; norm_num
  refine ⟨a1, a2, ?_⟩
  have hs : touchstart Real.sqrt (TouchState.init : TouchState ℝ) ⟨0, 0, 2000, 2000⟩ 0
      ⟨[⟨0, 0, 0⟩, ⟨1, 1000, 0⟩], [⟨1, 1000, 0⟩]⟩ =
      ({ lastTouchTime := 0, touchCount := 2, lastScale := 1, pinchStartDist := 1000,
         pinchCenter := getTouchCenter ⟨0, 0, 0⟩ ⟨1, 1000, 0⟩ ⟨0, 0, 2000, 2000⟩ },
        forwardChangedTouches ⟨0, 0, 2000, 2000⟩ 1 [⟨1, 1000, 0⟩]) := by
    simp [touchstart, TouchState.init, h1000]
  have hm1 := touchmove_reject Real.sqrt
    ({ lastTouchTime := 0, touchCount := 2, lastScale := 1, pinchStartDist := 1000,
       pinchCenter := getTouchCenter ⟨0, 0, 0⟩ ⟨1, 1000, 0⟩ ⟨0, 0, 2000, 2000⟩ } :
      TouchState ℝ)
    ⟨0, 0, 2000, 2000⟩ ⟨[⟨0, 0, 0⟩, ⟨1, 1004, 0⟩], [⟨1, 1004, 0⟩]⟩ ⟨0, 0, 0⟩ ⟨1, 1004, 0⟩ rfl
    (by rw [h1004]; exact not_lt.mpr a1.le)
  have hm2 := touchmove_accept Real.sqrt
    ({ lastTouchTime := 0, touchCount := 2, lastScale := 1, pinchStartDist := 1000,
       pinchCenter := getTouchCenter ⟨0, 0, 0⟩ ⟨1, 1000, 0⟩ ⟨0, 0, 2000, 2000⟩ } :
      TouchState ℝ)
    ⟨0, 0, 2000, 2000⟩ ⟨[⟨0, 0, 0⟩, ⟨1, 1008, 0⟩], [⟨1, 1008, 0⟩]⟩ ⟨0, 0, 0⟩ ⟨1, 1008, 0⟩ rfl
    (by norm_num) (by rw [h1008]; exact a3)
  simp only [runTouch, dispatchTouch, hs, hm1, hm2, h1008, zoomCalls_append,
    zoomCalls_preventDefault_cons, zoomCalls_zoom_cons, zoomCalls_forwardChangedTouches]
  simp [zoomCalls, getTouchCenter]

/-- C15, amended. In a session with a positive baseline and `lastScale = 1`, over
every run of `touchmove` samples whose scale (for a two-touch list) differs from
1.0, the last accepted scale, by less than 0.005, no zoom call is forwarded; and
a single two-touch sample whose scale is 1.2 forwards exactly one zoom call, with
factor 1.2. -/
theorem jitter_suppression [LinearOrderedField α] (sqrt : α → α) (st : TouchState α)
    (hfresh : st.lastScale = 1) (hD : 0 < st.pinchStartDist) :
    (∀ moves : List (TouchInput α),
      (∀ m ∈ moves, m.type = TouchEventType.touchmove ∧
        ∀ p q : Touch α, m.e.touches = [p, q] →
          |getTouchDistance sqrt p q / st.pinchStartDist - 1| < 0.005) →
      zoomCalls (runTouch sqrt st moves).2 = []) ∧
    (∀ (rect : Rect α) (e : TouchEvent α) (p q : Touch α), e.touches = [p, q] →
      getTouchDistance sqrt p q / st.pinchStartDist = 1.2 →
      zoomCalls (touchmove sqrt st rect e).2 =
        [Call.core_on_zoom 1.2 ((p.pageX + q.pageX) / 2 - rect.left)
          ((p.pageY + q.pageY) / 2 - rect.top)]) := by
  constructor
  · intro moves
    induction moves generalizing st with
    | nil => intro _; rfl
    | cons m rest ih =>
      intro hm
      obtain ⟨hmt, hwithin⟩ := hm m (List.mem_cons_self m rest)
      have hz : zoomCalls (touchmove sqrt st m.rect m.e).2 = [] := by
        by_contra hne
        have hne' : zoomCalls (dispatchTouch sqrt st m).2 ≠ [] := by
          simpa only [dispatchTouch, hmt] using hne
        obtain ⟨_, hlen, _⟩ := zoomCalls_dispatchTouch_ne_nil sqrt st m hne'
        obtain ⟨p, q, hpq⟩ : ∃ p q, m.e.touches = [p, q] := by
          match hts : m.e.touches, hlen with
          | [p, q], _ => exact ⟨p, q, rfl⟩
        have hrej := touchmove_reject sqrt st m.rect m.e p q hpq
          (by rw [hfresh]; exact not_lt.mpr (hwithin p q hpq).le)
        apply hne
        rw [hrej, zoomCalls_preventDefault_cons]
        exact zoomCalls_forwardChangedTouches _ _ _
      have hst := touchmove_state_of_no_zoom sqrt st m.rect m.e hz
      simp only [runTouch, zoomCalls_append, dispatchTouch, hmt, hz, List.nil_append]
      apply ih
      · rw [hst.1]; exact hfresh
      · rw [hst.2.1]; exact hD
      · intro x hx
        have := hm x (List.mem_cons_of_mem m hx)
        rw [hst.2.1]
        exact this
  · intro rect e p q hpq hscale
    have hacc : |getTouchDistance sqrt p q / st.pinchStartDist - st.lastScale| > 0.005 := by
      rw [hscale, hfresh, abs_of_nonneg (by norm_num)]
      norm_num
    rw [touchmove_accept sqrt st rect e p q hpq hD hacc, zoomCalls_preventDefault_cons,
      zoomCalls_zoom_cons, zoomCalls_forwardChangedTouches, hscale, hfresh, div_one]
    rfl

/-- Evaluation of the amended C15 over the real numbers: with baseline 1000, the
samples at distances 1004 and 996 forward no zoom call; the sample at distance
1200 forwards one call with factor 1.2. -/
theorem jitter_suppression_witness :
    zoomCalls (runTouch Real.sqrt
        ({ lastTouchTime := 0, touchCount := 2, lastScale := 1, pinchStartDist := 1000,
           pinchCenter := ⟨500, 0⟩ } : TouchState ℝ)
        [⟨TouchEventType.touchmove, ⟨0, 0, 2000, 2000⟩, 1,
            ⟨[⟨0, 0, 0⟩, ⟨1, 1004, 0⟩], [⟨1, 1004, 0⟩]⟩⟩,
          ⟨TouchEventType.touchmove, ⟨0, 0, 2000, 2000⟩, 2,
            ⟨[⟨0, 0, 0⟩, ⟨1, 996, 0⟩], [⟨1, 996, 0⟩]⟩⟩]).2 = [] ∧
      zoomCalls (touchmove Real.sqrt
        ({ lastTouchTime := 0, touchCount := 2, lastScale := 1, pinchStartDist := 1000,
           pinchCenter := ⟨500, 0⟩ } : TouchState ℝ) ⟨0, 0, 2000, 2000⟩
        ⟨[⟨0, 0, 0⟩, ⟨1, 1200, 0⟩], [⟨1, 1200, 0⟩]⟩).2 =
        [Call.core_on_zoom 1.2 ((0 + 1200) / 2 - 0) ((0 + 0) / 2 - 0)] := by
  have h := jitter_suppression Real.sqrt
    ({ lastTouchTime := 0, touchCount := 2, lastScale := 1, pinchStartDist := 1000,
       pinchCenter := ⟨500, 0⟩ } : TouchState ℝ) rfl (by norm_num)
  refine ⟨h.1 _ ?_, h.2 _ _ ⟨0, 0, 0⟩ ⟨1, 1200, 0⟩ rfl ?_⟩
  · intro m hm
    simp only [List.mem_cons, List.mem_singleton, List.not_mem_nil, or_false] at hm
    rcases hm with rfl | rfl
    · refine ⟨rfl, ?_⟩
      intro p q hpq
      simp only [List.cons.injEq, and_true] at hpq
      obtain ⟨rfl, rfl⟩ := hpq
      rw [getTouchDistance_real_horizontal 0 1 1004 (by norm_num),
        abs_of_nonneg (by norm_num)]
      norm_num
    · refine ⟨rfl, ?_⟩
      intro p q hpq
      simp only [List.cons.injEq, and_true] at hpq
      obtain ⟨rfl, rfl⟩ := hpq
      rw [getTouchDistance_real_horizontal 0 1 996 (by norm_num),
        abs_of_nonpos (by norm_num)]
      norm_num
  · rw [getTouchDistance_real_horizontal 0 1 1200 (by norm_num)]
    norm_num

/-! ## Claims C16-C17: wheel listener -/

theorem onWheelEvent_mousewheel [LinearOrderedField α] (pow : α → α → α) (rect : Rect α)
    (e : WheelEvent α) (h : e.type = "mousewheel") :
    onWheelEvent pow rect e =
      ([Call.preventDefault,
        Call.core_on_zoom (pow 1.05 (e.wheelDelta / 120 * 2)) (e.clientX - rect.left)
          (e.clientY - rect.top)], Except.ok false) := by
  have hne : ¬ ("mousewheel" = "DOMMouseScroll") := by decide
  simp only [onWheelEvent, getMouseWheelDelta, h, hne, if_true, if_false, getMousePos]

theorem onWheelEvent_DOMMouseScroll [LinearOrderedField α] (pow : α → α → α) (rect : Rect α)
    (e : WheelEvent α) (h : e.type = "DOMMouseScroll") :
    onWheelEvent pow rect e =
      ([Call.preventDefault,
        Call.core_on_zoom (pow 1.05 (-e.detail * 2)) (e.clientX - rect.left)
          (e.clientY - rect.top)], Except.ok false) := by
  simp only [onWheelEvent, getMouseWheelDelta, h, if_true, getMousePos]

theorem onWheelEvent_unrecognized [LinearOrderedField α] (pow : α → α → α) (rect : Rect α)
    (e : WheelEvent α) (h1 : e.type ≠ "DOMMouseScroll") (h2 : e.type ≠ "mousewheel") :
    onWheelEvent pow rect e =
      ([Call.preventDefault],
        Except.error ("unrecognized mouse wheel event: " ++ e.type)) := by
  simp only [onWheelEvent, getMouseWheelDelta, h1, h2, if_false]

/-- C16. Wheel zoom factor and sign over the real numbers, with `Math.pow` the
real power. A `mousewheel` event forwards exactly one zoom call, with factor
`1.05 ^ (2 * wheelDelta / 120)`, and a `DOMMouseScroll` event exactly one, with
factor `1.05 ^ (2 * (-detail))`, both anchored at
`(clientX - rect.left, clientY - rect.top)`. The factor is above 1 for
`wheelDelta > 0` and for `detail < 0`, and below 1 for `wheelDelta < 0` and for
`detail > 0`. -/
theorem wheel_zoom_factor (rect : Rect ℝ) (e : WheelEvent ℝ) :
    (e.type = "mousewheel" →
      onWheelEvent (fun x y : ℝ => x ^ y) rect e =
          ([Call.preventDefault,
            Call.core_on_zoom ((1.05 : ℝ) ^ (2 * e.wheelDelta / 120)) (e.clientX - rect.left)
              (e.clientY - rect.top)], Except.ok false) ∧
        (0 < e.wheelDelta → 1 < (1.05 : ℝ) ^ (2 * e.wheelDelta / 120)) ∧
        (e.wheelDelta < 0 → (1.05 : ℝ) ^ (2 * e.wheelDelta / 120) < 1)) ∧
    (e.type = "DOMMouseScroll" →
      onWheelEvent (fun x y : ℝ => x ^ y) rect e =
          ([Call.preventDefault,
            Call.core_on_zoom ((1.05 : ℝ) ^ (2 * (-e.detail))) (e.clientX - rect.left)
              (e.clientY - rect.top)], Except.ok false) ∧
        (e.detail < 0 → 1 < (1.05 : ℝ) ^ (2 * (-e.detail))) ∧
        (0 < e.detail → (1.05 : ℝ) ^ (2 * (-e.detail)) < 1)) := by
  have hbase : (1 : ℝ) < 1.05 := by norm_num
  constructor
  · intro h
    refine ⟨?_, fun hpos => ?_, fun hneg => ?_⟩
    · rw [onWheelEvent_mousewheel _ rect e h,
        show e.wheelDelta / 120 * 2 = 2 * e.wheelDelta / 120 by ring]
    · exact Real.one_lt_rpow hbase (by positivity)
    · exact Real.rpow_lt_one_of_one_lt_of_neg hbase
        (by have : 2 * e.wheelDelta / 120 = e.wheelDelta / 60 := by ring
            rw [this]; exact div_neg_of_neg_of_pos hneg (by norm_num))
  · intro h
    refine ⟨?_, fun hneg => ?_, fun hpos => ?_⟩
    · rw [onWheelEvent_DOMMouseScroll _ rect e h,
        show -e.detail * 2 = 2 * (-e.detail) by ring]
    · exact Real.one_lt_rpow hbase (by linarith)
    · exact Real.rpow_lt_one_of_one_lt_of_neg hbase (by linarith)

/-- Evaluation of C16: `wheelDelta = 120` and `detail = -40` both zoom in. -/
theorem wheel_zoom_factor_witness :
    (1 : ℝ) < (1.05 : ℝ) ^ (2 * (120 : ℝ) / 120) ∧
      (1 : ℝ) < (1.05 : ℝ) ^ (2 * (-(-40 : ℝ))) :=
  ⟨((wheel_zoom_factor ⟨0, 0, 100, 100⟩ ⟨⟨10, 10, 0⟩, "mousewheel", 120, 0⟩).1 rfl).2.1
      (by norm_num),
    ((wheel_zoom_factor ⟨0, 0, 100, 100⟩ ⟨⟨10, 10, 0⟩, "DOMMouseScroll", 0, -40⟩).2 rfl).2.1
      (by norm_num)⟩

theorem run_append [LinearOrderedField α] (sqrt : α → α) (pow : α → α → α) (s : PageState α)
    (a b : List (PageEvent α)) :
    run sqrt pow s (a ++ b) =
      ((run sqrt pow (run sqrt pow s a).1 b).1,
        (run sqrt pow s a).2 ++ (run sqrt pow (run sqrt pow s a).1 b).2) := by
  induction a generalizing s with
  | nil => simp [run]
  | cons ev rest ih => simp [run, ih, List.append_assoc]

/-- C17. Unrecognized wheel shape: `getMouseWheelDelta` fails exactly when the
event type is neither `DOMMouseScroll` nor `mousewheel`; in that case the wheel
handler forwards no zoom call and the page state (mouse, touch and pinch state,
backing surface) is unchanged, so a run that contains the event ends in the same
state as the run without it, with the same trace apart from the handler's
`preventDefault`. -/
theorem unrecognized_wheel [LinearOrderedField α] (sqrt : α → α) (pow : α → α → α) :
    (∀ e : WheelEvent α, (∃ msg, getMouseWheelDelta e = Except.error msg) ↔
      (e.type ≠ "DOMMouseScroll" ∧ e.type ≠ "mousewheel")) ∧
    (∀ (s : PageState α) (rect : Rect α) (e : WheelEvent α),
      e.type ≠ "DOMMouseScroll" → e.type ≠ "mousewheel" →
        zoomCalls (onWheelEvent pow rect e).1 = [] ∧
          step sqrt pow s (PageEvent.wheel rect e) = (s, [Call.preventDefault])) ∧
    (∀ (s : PageState α) (rect : Rect α) (e : WheelEvent α)
      (before after : List (PageEvent α)),
      e.type ≠ "DOMMouseScroll" → e.type ≠ "mousewheel" →
        run sqrt pow s (before ++ PageEvent.wheel rect e :: after) =
          ((run sqrt pow s (before ++ after)).1,
            (run sqrt pow s before).2 ++
              Call.preventDefault :: (run sqrt pow (run sqrt pow s before).1 after).2)) := by
  have hstep : ∀ (s : PageState α) (rect : Rect α) (e : WheelEvent α),
      e.type ≠ "DOMMouseScroll" → e.type ≠ "mousewheel" →
      step sqrt pow s (PageEvent.wheel rect e) = (s, [Call.preventDefault]) := by
    intro s rect e h1 h2
    simp only [step, onWheelEvent_unrecognized pow rect e h1 h2]
  refine ⟨?_, ?_, ?_⟩
  · intro e
    unfold getMouseWheelDelta
    by_cases h1 : e.type = "DOMMouseScroll"
    · simp [h1]
    · by_cases h2 : e.type = "mousewheel"
      · simp [h2]
      · simp [h1, h2]
  · intro s rect e h1 h2
    refine ⟨?_, hstep s rect e h1 h2⟩
    rw [onWheelEvent_unrecognized pow rect e h1 h2]
    rfl
  · intro s rect e before after h1 h2
    rw [run_append, run_append]
    simp only [run, hstep _ rect e h1 h2, List.singleton_append]

/-- Evaluation of C17 over the real numbers: a `wheel` event of the standard type,
for which the script has no case. -/
theorem unrecognized_wheel_witness :
    step Real.sqrt (fun x y : ℝ => x ^ y) (PageState.init ⟨300, 150⟩)
        (PageEvent.wheel ⟨0, 0, 300, 150⟩ ⟨⟨10, 10, 0⟩, "wheel", 120, 0⟩) =
      (PageState.init ⟨300, 150⟩, [Call.preventDefault]) :=
  ((unrecognized_wheel Real.sqrt (fun x y : ℝ => x ^ y)).2.1 (PageState.init ⟨300, 150⟩)
    ⟨0, 0, 300, 150⟩ ⟨⟨10, 10, 0⟩, "wheel", 120, 0⟩ (by decide) (by decide)).2

/-! ## Claims C18-C19: mouse path -/

/-- C18, as stated, fails on the code: on a tick with a button held at (3, 4)
the pointer event forwarded for identity 0 has phase `1`, not `-1`. -/
theorem tick_phase_counterexample :
    render ({ mouseDown := true, mouseButtons := 1, mousePos := some ⟨3, 4⟩ } : MouseState ℚ)
        ⟨100, 50⟩ none ⟨0, 0, 100, 50⟩ =
        some (⟨100, 50⟩, [Call.core_on_mouse 0 1 3 4 1, Call.core_update,
          Call.core_render 100 50 1, Call.requestAnimationFrame]) ∧
      pointerPhases 0 ([Call.core_on_mouse 0 1 3 4 1, Call.core_update,
          Call.core_render 100 50 1, Call.requestAnimationFrame] : List (Call ℚ)) ≠ [-1] := by
  constructor
  · simp [render, sizeChanged, dprOrOne]
  · simp [pointerPhases]

/-- C18, amended. On a tick during which a button is held (with last known
position `p`), the trace starts with the single pointer event
`core_on_mouse 0 1 p.x p.y mouseButtons`, of phase `1`, and no other pointer
event precedes `core_update`; on a tick with no button held no pointer event is
forwarded. The tick neither reads nor writes the touch state. The `mousedown`
listener itself forwards nothing: it records the position and the buttons mask,
and the document-level handlers leave the mask unchanged. -/
theorem synthetic_press_on_tick [LinearOrderedField α] (sqrt : α → α) (pow : α → α → α)
    (ms : MouseState α) (canvas : Canvas α) (dpr : Option α) (rect : Rect α) :
    (∀ p : Pos α, ms.mouseDown = true → ms.mousePos = some p →
      ∃ (canvas' : Canvas α) (mid : List (Call α)),
        render ms canvas dpr rect =
            some (canvas', Call.core_on_mouse 0 1 p.x p.y ms.mouseButtons ::
              (mid ++ [Call.core_update,
                Call.core_render rect.width rect.height (dprOrOne dpr),
                Call.requestAnimationFrame])) ∧
          pointerCalls mid = []) ∧
    (ms.mouseDown = false →
      ∃ (canvas' : Canvas α) (tr : List (Call α)),
        render ms canvas dpr rect = some (canvas', tr) ∧ pointerCalls tr = []) ∧
    (∀ (s : PageState α) (ts : TouchState α),
      (step sqrt pow { s with touchState := ts } (PageEvent.frame dpr rect)).2 =
          (step sqrt pow s (PageEvent.frame dpr rect)).2 ∧
        (step sqrt pow s (PageEvent.frame dpr rect)).1.touchState = s.touchState) ∧
    (∀ (s : PageState α) (rect0 : Rect α) (e0 : MouseEvent α),
      (step sqrt pow s (PageEvent.mousedown rect0 e0)).2 = [] ∧
        (step sqrt pow s (PageEvent.mousedown rect0 e0)).1.mouse =
          { mouseDown := true, mouseButtons := e0.buttons,
            mousePos := some ⟨e0.clientX - rect0.left, e0.clientY - rect0.top⟩ }) ∧
    (∀ (rect1 : Rect α) (e1 : MouseEvent α),
      (onmouseup ms rect1 e1).1.mouseButtons = ms.mouseButtons ∧
        (onmousemove ms rect1 e1).mouseButtons = ms.mouseButtons ∧
        (onmouseleave ms).mouseButtons = ms.mouseButtons) := by
  refine ⟨?_, ?_, ?_, ?_, ?_⟩
  · intro p hdown hp
    unfold render
    by_cases hch : sizeChanged canvas rect = true
    · exact ⟨⟨rect.width * dprOrOne dpr, rect.height * dprOrOne dpr⟩,
        [Call.canvas_set_width (rect.width * dprOrOne dpr),
          Call.canvas_set_height (rect.height * dprOrOne dpr)],
        by simp [hdown, hp, hch], by simp [pointerCalls]⟩
    · exact ⟨canvas, [], by simp [hdown, hp, hch], by simp [pointerCalls]⟩
  · intro hdown
    unfold render
    by_cases hch : sizeChanged canvas rect = true
    · exact ⟨_, _, by simp only [hdown, hch, if_true]; rfl, by simp [pointerCalls]⟩
    · exact ⟨_, _, by simp only [hdown, hch]; rfl, by simp [pointerCalls]⟩
  · intro s ts
    constructor
    · simp only [step]
      cases render s.mouse s.canvas dpr rect <;> rfl
    · simp only [step]
      cases render s.mouse s.canvas dpr rect <;> rfl
  · intro s rect0 e0
    exact ⟨rfl, rfl⟩
  · intro rect1 e1
    exact ⟨rfl, rfl, rfl⟩

/-- Evaluation of the amended C18 over the real numbers: a button is held at (3, 4)
with mask 1 and the canvas is already at the logical size. -/
theorem synthetic_press_on_tick_witness :
    ∃ (canvas' : Canvas ℝ) (mid : List (Call ℝ)),
      render ({ mouseDown := true, mouseButtons := 1, mousePos := some ⟨3, 4⟩ } : MouseState ℝ)
          ⟨100, 50⟩ none ⟨0, 0, 100, 50⟩ =
          some (canvas', Call.core_on_mouse 0 1 3 4 1 ::
            (mid ++ [Call.core_update, Call.core_render 100 50 (dprOrOne none),
              Call.requestAnimationFrame])) ∧
        pointerCalls mid = [] :=
  (synthetic_press_on_tick Real.sqrt (fun x y : ℝ => x ^ y)
    ({ mouseDown := true, mouseButtons := 1, mousePos := some ⟨3, 4⟩ } : MouseState ℝ)
    ⟨100, 50⟩ none ⟨0, 0, 100, 50⟩).1 ⟨3, 4⟩ rfl rfl

theorem afterPress_mouse [LinearOrderedField α] (sqrt : α → α) (pow : α → α → α)
    (s : PageState α) (rect0 : Rect α) (e0 : MouseEvent α)
    (moves : List (Rect α × MouseEvent α)) :
    (afterPress sqrt pow s rect0 e0 moves).documentHandlers = true ∧
      (afterPress sqrt pow s rect0 e0 moves).mouse.mouseButtons = e0.buttons ∧
      (afterPress sqrt pow s rect0 e0 moves).mouse.mouseDown = true := by
  unfold afterPress
  have key : ∀ (l : List (Rect α × MouseEvent α)) (t : PageState α),
      t.documentHandlers = true → t.mouse.mouseButtons = e0.buttons →
      t.mouse.mouseDown = true →
      (run sqrt pow t (l.map fun m => PageEvent.documentMousemove m.1 m.2)).1.documentHandlers
          = true ∧
        (run sqrt pow t (l.map fun m => PageEvent.documentMousemove m.1 m.2)).1.mouse.mouseButtons
          = e0.buttons ∧
        (run sqrt pow t (l.map fun m => PageEvent.documentMousemove m.1 m.2)).1.mouse.mouseDown
          = true := by
    intro l
    induction l with
    | nil => intro t h1 h2 h3; exact ⟨h1, h2, h3⟩
    | cons m rest ih =>
      intro t h1 h2 h3
      simp only [List.map_cons, run]
      apply ih
      · simp [step, h1]
      · simp [step, h1, onmousemove, h2]
      · simp [step, h1, onmousemove, h3]
  exact key moves _ rfl rfl rfl

/-- C19. Mouse release and leave. After a press on the canvas with buttons mask
`e0.buttons` and any document-level moves, a document-level release forwards
exactly `core_on_mouse 0 0 (clientX - rect.left) (clientY - rect.top) e0.buttons`
and clears the held flag; a document-level leave clears the held flag, forwards
nothing, and leaves the last known position and the buttons mask unchanged. -/
theorem mouse_release_and_leave [LinearOrderedField α] (sqrt : α → α) (pow : α → α → α)
    (s : PageState α) (rect0 : Rect α) (e0 : MouseEvent α)
    (moves : List (Rect α × MouseEvent α)) (rect : Rect α) (e : MouseEvent α) :
    ((step sqrt pow (afterPress sqrt pow s rect0 e0 moves)
          (PageEvent.documentMouseup rect e)).2 =
        [Call.core_on_mouse 0 0 (e.clientX - rect.left) (e.clientY - rect.top) e0.buttons] ∧
      (step sqrt pow (afterPress sqrt pow s rect0 e0 moves)
          (PageEvent.documentMouseup rect e)).1.mouse.mouseDown = false) ∧
    ((step sqrt pow (afterPress sqrt pow s rect0 e0 moves) PageEvent.documentMouseleave).2 = [] ∧
      (step sqrt pow (afterPress sqrt pow s rect0 e0 moves)
          PageEvent.documentMouseleave).1.mouse.mouseDown = false ∧
      (step sqrt pow (afterPress sqrt pow s rect0 e0 moves)
          PageEvent.documentMouseleave).1.mouse.mousePos =
        (afterPress sqrt pow s rect0 e0 moves).mouse.mousePos ∧
      (step sqrt pow (afterPress sqrt pow s rect0 e0 moves)
          PageEvent.documentMouseleave).1.mouse.mouseButtons = e0.buttons) := by
  obtain ⟨hh, hb, _⟩ := afterPress_mouse sqrt pow s rect0 e0 moves
  refine ⟨⟨?_, ?_⟩, ?_, ?_, ?_, ?_⟩
  · simp [step, hh, onmouseup, getMousePos, hb]
  · simp [step, hh, onmouseup]
  · simp [step, hh]
  · simp [step, hh, onmouseleave]
  · simp [step, hh, onmouseleave]
  · simp [step, hh, onmouseleave, hb]

/-! ## Claim C20: stale dependency of the quality timer -/

/-- C20. Stale dependency: when `Module.core` is absent at a firing of the quality
timer, the callback passes to `clearInterval` exactly the handle that
`enableAdaptiveQuality` returned and does nothing else (the core stays absent);
when the core is present the callback cancels nothing and performs one
evaluation. -/
theorem stale_dependency [LinearOrderedField α] (core0 : Core α) (handle : Nat) :
    (enableAdaptiveQuality core0 handle).2 = handle ∧
      intervalFire (enableAdaptiveQuality core0 handle).2 (none : Option (Core α)) =
        (none, [handle]) ∧
      ∀ c : Core α, intervalFire (enableAdaptiveQuality core0 handle).2 (some c) =
        (some (adaptiveQualityEvaluate c), []) := by
  refine ⟨rfl, ?_, fun c => ?_⟩
  · simp [intervalFire, checkIntervalCallback, enableAdaptiveQuality]
  · simp [intervalFire, checkIntervalCallback]

/-! ## Claim C21: benchmark summary -/

theorem foldl_add_eq_sum [LinearOrderedField α] (l : List α) (x : α) :
    l.foldl (fun a b => a + b) x = x + l.sum := by
  induction l generalizing x with
  | nil => simp
  | cons y l ih => simp [ih, add_assoc]

theorem benchmarkSample_pos [LinearOrderedField α] (st : BenchmarkState α) (fps : α)
    (h : 0 < fps) :
    benchmarkSample st fps =
      { frameCount := st.frameCount + 1,
        fpsReadings := st.fpsReadings ++ [fps],
        minFps := some (match st.minFps with
          | none => fps
          | some m => min m fps),
        maxFps := max st.maxFps fps } := by
  have h0 : fps ≠ 0 := ne_of_gt h
  simp only [benchmarkSample, h0, if_false]
  rw [if_pos h]

theorem benchmarkSample_nonpos [LinearOrderedField α] (st : BenchmarkState α) (fps : α)
    (h : ¬ 0 < fps) :
    benchmarkSample st fps = { st with frameCount := st.frameCount + 1 } := by
  unfold benchmarkSample
  by_cases h0 : fps = 0
  · simp [h0]
  · simp only [h0, if_false]
    rw [if_neg h]

theorem benchmarkSample_summarises [LinearOrderedField α] (st : BenchmarkState α) (fps : α)
    (hst : st.summarises) : (benchmarkSample st fps).summarises := by
  by_cases h : 0 < fps
  · rw [benchmarkSample_pos st fps h]
    obtain ⟨hpos, hnil, hne⟩ := hst
    refine ⟨?_, ?_, ?_⟩
    · intro x hx
      rcases List.mem_append.mp hx with hx | hx
      · exact hpos x hx
      · rw [List.mem_singleton.mp hx]; exact h
    · intro hcon
      exact absurd hcon (by simp)
    · intro _
      by_cases hr : st.fpsReadings = []
      · obtain ⟨hmin, hmax⟩ := hnil hr
        refine ⟨fps, by simp [hmin], by simp, ?_, ?_, ?_⟩
        · intro x hx; simp [hr] at hx; exact hx.ge
        · simp [hmax, hr, max_eq_right h.le]
        · intro x hx; simp [hr] at hx; simp [hmax, hx, max_eq_right h.le]
      · obtain ⟨m, hmin, hmem, hle, hmaxmem, hmaxle⟩ := hne hr
        refine ⟨min m fps, by simp [hmin], ?_, ?_, ?_, ?_⟩
        · rcases le_total m fps with hc | hc
          · rw [min_eq_left hc]; exact List.mem_append.mpr (Or.inl hmem)
          · rw [min_eq_right hc]; exact List.mem_append.mpr (Or.inr (by simp))
        · intro x hx
          rcases List.mem_append.mp hx with hx | hx
          · exact le_trans (min_le_left _ _) (hle x hx)
          · rw [List.mem_singleton.mp hx]; exact min_le_right _ _
        · show max st.maxFps fps ∈ st.fpsReadings ++ [fps]
          rcases le_total st.maxFps fps with hc | hc
          · rw [max_eq_right hc]; exact List.mem_append.mpr (Or.inr (by simp))
          · rw [max_eq_left hc]; exact List.mem_append.mpr (Or.inl hmaxmem)
        · intro x hx
          show x ≤ max st.maxFps fps
          rcases List.mem_append.mp hx with hx | hx
          · exact le_trans (hmaxle x hx) (le_max_left _ _)
          · rw [List.mem_singleton.mp hx]; exact le_max_right _ _
  · rw [benchmarkSample_nonpos st fps h]
    exact hst

/-- The benchmark variables after the sampled refreshes. -/
theorem benchmarkSamples_state [LinearOrderedField α] (st : BenchmarkState α)
    (samples : List (α × α)) (hst : st.summarises) :
    (samples.foldl (fun st s => benchmarkSample st s.2) st).summarises ∧
      (samples.foldl (fun st s => benchmarkSample st s.2) st).frameCount =
        st.frameCount + samples.length ∧
      (samples.foldl (fun st s => benchmarkSample st s.2) st).fpsReadings =
        st.fpsReadings ++ positiveReadings samples := by
  induction samples generalizing st with
  | nil => simp [positiveReadings, hst]
  | cons smp rest ih =>
    obtain ⟨h1, h2, h3⟩ := ih (benchmarkSample st smp.2) (benchmarkSample_summarises st smp.2 hst)
    refine ⟨h1, ?_, ?_⟩
    · rw [List.foldl_cons, h2]
      by_cases h : 0 < smp.2
      · rw [benchmarkSample_pos st smp.2 h]; simp; omega
      · rw [benchmarkSample_nonpos st smp.2 h]; simp; omega
    · rw [List.foldl_cons, h3]
      by_cases h : 0 < smp.2
      · rw [benchmarkSample_pos st smp.2 h]
        simp [positiveReadings, List.filter_cons, h]
      · rw [benchmarkSample_nonpos st smp.2 h]
        simp [positiveReadings, List.filter_cons, h]

/-- The loop reports at the first refresh whose elapsed time has reached the
duration, on the variables accumulated over the refreshes before it. -/
theorem benchmarkLoop_report [LinearOrderedField α] (duration startTime : α)
    (st : BenchmarkState α) (samples : List (α × α)) (final : α × α) (rest : List (α × α))
    (hs : ∀ smp ∈ samples, (smp.1 - startTime) / 1000 < duration)
    (hf : ¬ (final.1 - startTime) / 1000 < duration) :
    benchmarkLoop duration startTime st (samples ++ final :: rest) =
      some (benchmarkReport duration
        (samples.foldl (fun st s => benchmarkSample st s.2) st)) := by
  induction samples generalizing st with
  | nil =>
    obtain ⟨now, fps⟩ := final
    simp only [List.nil_append, benchmarkLoop, List.foldl_nil]
    rw [if_neg hf]
  | cons smp more ih =>
    obtain ⟨now, fps⟩ := smp
    have h1 : (now - startTime) / 1000 < duration := hs (now, fps) (List.mem_cons_self _ _)
    simp only [List.cons_append, benchmarkLoop, List.foldl_cons]
    rw [if_pos h1]
    exact ih _ (fun x hx => hs x (List.mem_cons_of_mem _ hx))

theorem sum_of_all_eq [LinearOrderedField α] (l : List α) (c : α) (h : ∀ x ∈ l, x = c) :
    l.sum = (l.length : α) * c := by
  induction l with
  | nil => simp
  | cons y l ih =>
    have hy := h y (List.mem_cons_self y l)
    have hl := ih fun x hx => h x (List.mem_cons_of_mem y hx)
    simp only [List.sum_cons, List.length_cons, hy, hl, Nat.cast_succ]
    ring

/-- C21, as stated, fails on the code for a requested duration of 0: `0 || 5` is
5, so the benchmark samples for 5 seconds and reports `duration = 5`, not the
requested 0; the refresh at elapsed time 0 is sampled although it is not below
the requested duration. -/
theorem benchmark_zero_duration_counterexample :
    benchmark (some (0 : ℚ)) 0 [(0, 55), (5000, 55)] =
        some { duration := 5, totalFrames := 1, avgFps := 55, minFps := 55, maxFps := 55,
               recommendation := "high" } ∧
      (5 : ℚ) ≠ 0 ∧ ¬ ((0 : ℚ) - 0) / 1000 < 0 := by
  refine ⟨?_, by norm_num, by norm_num⟩
  have h1 : benchmarkSample (BenchmarkState.init : BenchmarkState ℚ) 55 =
      { frameCount := 1, minFps := some 55, maxFps := 55, fpsReadings := [55] } := by
    rw [benchmarkSample_pos _ _ (by norm_num)]
    simp [BenchmarkState.init]
  have hd : durationOrDefault (some (0 : ℚ)) = 5 := by simp [durationOrDefault]
  have e1 : ((0 : ℚ) - 0) / 1000 < 5 := by norm_num
  have e2 : ¬ ((5000 : ℚ) - 0) / 1000 < 5 := by norm_num
  simp only [benchmark, hd, benchmarkLoop, if_pos e1, if_neg e2, h1]
  norm_num [benchmarkReport]

/-- C21, amended. The effective duration `D` is the requested duration when one
is given and is not 0, and 5 when it is omitted or 0. Let `samples` be the
refreshes delivered while the elapsed time is below `D` and `final` the first
refresh at which it is not. Then the benchmark completes with a result `r` such
that: `duration = D`, `totalFrames` is the number of samples, `avgFps` is the
arithmetic mean of the strictly positive readings (0 if there are none),
`minFps` and `maxFps` are the least and the greatest of them (both 0 if there are
none), and the recommendation is `high` if `avgFps > 50`, `medium` if
`30 < avgFps ≤ 50`, `low` otherwise. A non-empty constant trace of value `c > 0`
reports `avgFps = minFps = maxFps = c`. -/
theorem benchmark_summary [LinearOrderedField α] (duration : Option α) (D : α)
    (hD : (duration = none ∧ D = 5) ∨ (duration = some 0 ∧ D = 5) ∨
      (duration = some D ∧ D ≠ 0))
    (startTime : α) (samples : List (α × α)) (final : α × α) (rest : List (α × α))
    (hs : ∀ smp ∈ samples, (smp.1 - startTime) / 1000 < D)
    (hf : ¬ (final.1 - startTime) / 1000 < D) :
    ∃ r : BenchmarkResults α,
      benchmark duration startTime (samples ++ final :: rest) = some r ∧
      r.duration = D ∧
      r.totalFrames = samples.length ∧
      r.avgFps =
        (if positiveReadings samples = [] then 0
          else (positiveReadings samples).sum / ((positiveReadings samples).length : α)) ∧
      (positiveReadings samples = [] → r.minFps = 0 ∧ r.maxFps = 0) ∧
      (positiveReadings samples ≠ [] →
        (r.minFps ∈ positiveReadings samples ∧ ∀ x ∈ positiveReadings samples, r.minFps ≤ x) ∧
          (r.maxFps ∈ positiveReadings samples ∧
            ∀ x ∈ positiveReadings samples, x ≤ r.maxFps)) ∧
      ((r.avgFps > 50 → r.recommendation = "high") ∧
        (30 < r.avgFps ∧ r.avgFps ≤ 50 → r.recommendation = "medium") ∧
        (r.avgFps ≤ 30 → r.recommendation = "low")) ∧
      (∀ c : α, 0 < c → samples ≠ [] → (∀ smp ∈ samples, smp.2 = c) →
        r.avgFps = c ∧ r.minFps = c ∧ r.maxFps = c) := by
  have hDD : durationOrDefault duration = D := by
    rcases hD with ⟨h1, h2⟩ | ⟨h1, h2⟩ | ⟨h1, h2⟩
    · rw [h1, h2]; rfl
    · rw [h1, h2]; simp [durationOrDefault]
    · rw [h1]; simp [durationOrDefault, h2]
  clear hD
  subst hDD
  have hinit : (BenchmarkState.init : BenchmarkState α).summarises := by
    refine ⟨fun x hx => absurd hx (by simp [BenchmarkState.init]), fun _ => ⟨rfl, rfl⟩,
      fun h => absurd rfl h⟩
  obtain ⟨hsum, hcount, hread⟩ := benchmarkSamples_state BenchmarkState.init samples hinit
  generalize hfin : samples.foldl (fun st s => benchmarkSample st s.2)
    (BenchmarkState.init : BenchmarkState α) = fin at hsum hcount hread
  have hread' : fin.fpsReadings = positiveReadings samples := by
    rw [hread]; simp [BenchmarkState.init]
  have hrun : benchmark duration startTime (samples ++ final :: rest) =
      some (benchmarkReport (durationOrDefault duration) fin) := by
    unfold benchmark
    rw [benchmarkLoop_report _ _ _ samples final rest hs hf, hfin]
  obtain ⟨hpos, hnil, hne⟩ := hsum
  rw [hread'] at hpos hnil hne
  have havg : (benchmarkReport (durationOrDefault duration) fin).avgFps =
      (if positiveReadings samples = [] then 0
        else (positiveReadings samples).sum / ((positiveReadings samples).length : α)) := by
    simp only [benchmarkReport, hread', foldl_add_eq_sum, zero_add]
    by_cases hp : positiveReadings samples = []
    · simp [hp]
    · have hlen : (positiveReadings samples).length > 0 := List.length_pos.mpr hp
      simp [hp, hlen]
  have hmin0 : positiveReadings samples = [] →
      (benchmarkReport (durationOrDefault duration) fin).minFps = 0 ∧
        (benchmarkReport (durationOrDefault duration) fin).maxFps = 0 := by
    intro hp
    obtain ⟨h1, h2⟩ := hnil hp
    simp [benchmarkReport, h1, h2]
  have hminmax : positiveReadings samples ≠ [] →
      ((benchmarkReport (durationOrDefault duration) fin).minFps ∈ positiveReadings samples ∧
          ∀ x ∈ positiveReadings samples,
            (benchmarkReport (durationOrDefault duration) fin).minFps ≤ x) ∧
        ((benchmarkReport (durationOrDefault duration) fin).maxFps ∈ positiveReadings samples ∧
          ∀ x ∈ positiveReadings samples,
            x ≤ (benchmarkReport (durationOrDefault duration) fin).maxFps) := by
    intro hp
    obtain ⟨m, h1, h2, h3, h4, h5⟩ := hne hp
    simp only [benchmarkReport, h1]
    exact ⟨⟨h2, h3⟩, h4, h5⟩
  refine ⟨benchmarkReport (durationOrDefault duration) fin, hrun, rfl, ?_, havg, hmin0,
    hminmax, ⟨?_, ?_, ?_⟩, ?_⟩
  · simp [benchmarkReport, hcount, BenchmarkState.init]
  · intro h
    simp only [benchmarkReport] at h ⊢
    rw [if_pos h]
  · intro h
    simp only [benchmarkReport] at h ⊢
    rw [if_neg (not_lt.mpr h.2), if_pos h.1]
  · intro h
    simp only [benchmarkReport] at h ⊢
    rw [if_neg (not_lt.mpr (le_trans h (by norm_num))), if_neg (not_lt.mpr h)]
  · intro c hc hne' hall
    have hposall : positiveReadings samples = samples.map Prod.snd := by
      unfold positiveReadings
      rw [List.filter_eq_self]
      intro x hx
      obtain ⟨smp, hsmp, rfl⟩ := List.mem_map.mp hx
      simp [hall smp hsmp, hc]
    have hallc : ∀ x ∈ positiveReadings samples, x = c := by
      intro x hx
      rw [hposall] at hx
      obtain ⟨smp, hsmp, rfl⟩ := List.mem_map.mp hx
      exact hall smp hsmp
    have hp : positiveReadings samples ≠ [] := by
      rw [hposall]; simpa using hne'
    obtain ⟨⟨hmn, _⟩, hmx, _⟩ := hminmax hp
    refine ⟨?_, hallc _ hmn, hallc _ hmx⟩
    rw [havg, if_neg hp, sum_of_all_eq _ c hallc]
    have hlen : ((positiveReadings samples).length : α) ≠ 0 := by
      exact_mod_cast (List.length_pos.mpr hp).ne'
    field_simp

/-- Evaluation of the amended C21 over the rationals: traces of three refreshes
at a constant 55, 40 and 20 fps, each followed by a refresh after the default 5
seconds, report `high`, `medium` and `low`; and with a requested duration of 3
seconds, two refreshes at 40 fps followed by one at 3 seconds report duration 3
and two frames. -/
theorem benchmark_summary_witness :
    (∃ r : BenchmarkResults ℚ,
      benchmark none 0 ([(0, 55), (1000, 55), (4000, 55)] ++ (5000, 55) :: []) = some r ∧
        r.duration = 5 ∧ r.totalFrames = 3 ∧ r.avgFps = 55 ∧ r.recommendation = "high") ∧
    (∃ r : BenchmarkResults ℚ,
      benchmark none 0 ([(0, 40), (1000, 40), (4000, 40)] ++ (5000, 40) :: []) = some r ∧
        r.duration = 5 ∧ r.totalFrames = 3 ∧ r.avgFps = 40 ∧ r.recommendation = "medium") ∧
    (∃ r : BenchmarkResults ℚ,
      benchmark none 0 ([(0, 20), (1000, 20), (4000, 20)] ++ (5000, 20) :: []) = some r ∧
        r.duration = 5 ∧ r.totalFrames = 3 ∧ r.avgFps = 20 ∧ r.recommendation = "low") ∧
    (∃ r : BenchmarkResults ℚ,
      benchmark (some 3) 0 ([(0, 40), (1000, 40)] ++ (3000, 40) :: []) = some r ∧
        r.duration = 3 ∧ r.totalFrames = 2) := by
  have key : ∀ c : ℚ, 0 < c →
      ∃ r : BenchmarkResults ℚ,
        benchmark none 0 ([(0, c), (1000, c), (4000, c)] ++ (5000, c) :: []) = some r ∧
          r.duration = 5 ∧ r.totalFrames = 3 ∧ r.avgFps = c ∧
          (c > 50 → r.recommendation = "high") ∧
          (30 < c ∧ c ≤ 50 → r.recommendation = "medium") ∧
          (c ≤ 30 → r.recommendation = "low") := by
    intro c hc
    obtain ⟨r, h1, h2, h3, _, _, _, h7, h8⟩ :=
      benchmark_summary (none : Option ℚ) 5 (Or.inl ⟨rfl, rfl⟩) 0
        [(0, c), (1000, c), (4000, c)] (5000, c) []
        (by
          intro smp hsmp
          simp only [List.mem_cons, List.mem_singleton, List.not_mem_nil, or_false] at hsmp
          rcases hsmp with rfl | rfl | rfl <;> norm_num)
        (by norm_num)
    have havg := (h8 c hc (by simp) (by
      intro smp hsmp
      simp only [List.mem_cons, List.mem_singleton, List.not_mem_nil, or_false] at hsmp
      rcases hsmp with rfl | rfl | rfl <;> rfl)).1
    rw [havg] at h7
    exact ⟨r, h1, h2, h3, havg, h7⟩
  obtain ⟨r1, a1, a2, a3, a4, a5, _, _⟩ := key 55 (by norm_num)
  obtain ⟨r2, b1, b2, b3, b4, _, b6, _⟩ := key 40 (by norm_num)
  obtain ⟨r3, c1, c2, c3, c4, _, _, c7⟩ := key 20 (by norm_num)
  obtain ⟨r4, d1, d2, d3, _⟩ :=
    benchmark_summary (some (3 : ℚ)) 3 (Or.inr (Or.inr ⟨rfl, by norm_num⟩)) 0
      [(0, 40), (1000, 40)] (3000, 40) []
      (by
        intro smp hsmp
        simp only [List.mem_cons, List.mem_singleton, List.not_mem_nil, or_false] at hsmp
        rcases hsmp with rfl | rfl <;> norm_num)
      (by norm_num)
  exact ⟨⟨r1, a1, a2, a3, a4, a5 (by norm_num)⟩, ⟨r2, b1, b2, b3, b4, b6 (by norm_num)⟩,
    ⟨r3, c1, c2, c3, c4, c7 (by norm_num)⟩, ⟨r4, d1, d2, d3⟩⟩

/-! ## Claim C23: clamping setters -/

theorem max_min_eq_min_max {β : Type} [LinearOrder β] (lo hi v : β) (h : lo ≤ hi) :
    max lo (min hi v) = min hi (max lo v) := by
  rcases le_total v lo with h1 | h1
  · rw [min_eq_right (le_trans h1 h), max_eq_left h1, min_eq_right h]
  · rcases le_total v hi with h2 | h2
    · rw [min_eq_right h2, max_eq_right h1, min_eq_right h2]
    · rw [min_eq_left h2, max_eq_right h, max_eq_right h1, min_eq_left h2]

theorem max_min_of_mem {β : Type} [LinearOrder β] (lo hi v : β) (h1 : lo ≤ v) (h2 : v ≤ hi) :
    max lo (min hi v) = v := by
  rw [min_eq_right h2, max_eq_right h1]

theorem setPinchInertia_fields [LinearOrderedField α] (c : Core α) (en : Option Bool)
    (fr : Option α) :
    (setPinchInertia c en fr).pinch_inertia_friction =
        (match fr with
          | some f => max 0 (min 1 f)
          | none => c.pinch_inertia_friction) ∧
      (setPinchInertia c en fr).pinch_inertia_enabled =
        (match en with
          | some b => b
          | none => c.pinch_inertia_enabled) := by
  cases en <;> cases fr <;> exact ⟨rfl, rfl⟩

theorem setPanInertia_fields [LinearOrderedField α] (c : Core α) (en : Option Bool)
    (fr : Option α) :
    (setPanInertia c en fr).pan_inertia_friction =
        (match fr with
          | some f => max 0 (min 1 f)
          | none => c.pan_inertia_friction) ∧
      (setPanInertia c en fr).pan_inertia_enabled =
        (match en with
          | some b => b
          | none => c.pan_inertia_enabled) := by
  cases en <;> cases fr <;> exact ⟨rfl, rfl⟩

theorem setTouchSensitivity_fields [LinearOrderedField α] (c : Core α) (pan zoom : Option α) :
    (setTouchSensitivity c pan zoom).touch_pan_sensitivity =
        (match pan with
          | some v => max 0.1 (min 5 v)
          | none => c.touch_pan_sensitivity) ∧
      (setTouchSensitivity c pan zoom).touch_zoom_sensitivity =
        (match zoom with
          | some v => max 0.1 (min 5 v)
          | none => c.touch_zoom_sensitivity) := by
  cases pan <;> cases zoom <;> exact ⟨rfl, rfl⟩

theorem setRenderQuality_fields [LinearOrderedField α] [FloorRing α] (c : Core α)
    (level labelDensity : Option α) :
    (setRenderQuality c level labelDensity).render_quality_level =
        (match level with
          | some l => max 0 (min 2 (Int.floor l))
          | none => c.render_quality_level) ∧
      (setRenderQuality c level labelDensity).render_label_density =
        (match labelDensity with
          | some d => max 0 (min 1 d)
          | none => c.render_label_density) := by
  cases level <;> cases labelDensity <;> exact ⟨rfl, rfl⟩

theorem setPerformanceSettings_fields [LinearOrderedField α] (c : Core α)
    (st : PerformanceSettings α) :
    (setPerformanceSettings c st).adaptive_fps =
        (match st.adaptiveFps with
          | some v => v
          | none => c.adaptive_fps) ∧
      (setPerformanceSettings c st).target_fps =
        (match st.targetFps with
          | some v => max 1 (min 120 v)
          | none => c.target_fps) ∧
      (setPerformanceSettings c st).min_fps =
        (match st.minFps with
          | some v => max 1 (min 60 v)
          | none => c.min_fps) ∧
      (setPerformanceSettings c st).max_stars_per_frame =
        (match st.maxStarsPerFrame with
          | some v => max 0 v
          | none => c.max_stars_per_frame) ∧
      (setPerformanceSettings c st).max_labels_per_frame =
        (match st.maxLabelsPerFrame with
          | some v => max 0 v
          | none => c.max_labels_per_frame) := by
  rcases st with ⟨a1, a2, a3, a4, a5, a6, a7⟩
  cases a1 <;> cases a2 <;> cases a3 <;> cases a4 <;> cases a5 <;> cases a6 <;> cases a7 <;>
    exact ⟨rfl, rfl, rfl, rfl, rfl⟩

/-- C23. Clamping setters. Each range-limited setter stores `min hi (max lo v)`
for a defined argument `v`, stores `v` itself when it is within the bounds, and
leaves the field unchanged for an undefined argument: `setRenderQuality` stores
`min 2 (max 0 (floor level))`, an integer in `{0, 1, 2}`, and clamps the label
density to `[0, 1]`; `setPinchInertia` and `setPanInertia` clamp the friction to
`[0, 1]`; `setTouchSensitivity` clamps pan and zoom to `[0.1, 5]`;
`setPerformanceSettings` clamps `targetFps` to `[1, 120]`, `minFps` to `[1, 60]`
and the two per-frame maxima to `≥ 0`. -/
theorem clamping_setters [LinearOrderedField α] [FloorRing α] (c : Core α) :
    ((∀ (l : α) (d : Option α),
        (setRenderQuality c (some l) d).render_quality_level = min 2 (max 0 (Int.floor l)) ∧
          0 ≤ (setRenderQuality c (some l) d).render_quality_level ∧
          (setRenderQuality c (some l) d).render_quality_level ≤ 2) ∧
      (∀ (n : Int) (d : Option α), 0 ≤ n → n ≤ 2 →
        (setRenderQuality c (some (n : α)) d).render_quality_level = n) ∧
      (∀ d : Option α,
        (setRenderQuality c none d).render_quality_level = c.render_quality_level) ∧
      (∀ (l : Option α) (d : α),
        (setRenderQuality c l (some d)).render_label_density = min 1 (max 0 d)) ∧
      (∀ (l : Option α) (d : α), 0 ≤ d → d ≤ 1 →
        (setRenderQuality c l (some d)).render_label_density = d) ∧
      (∀ l : Option α,
        (setRenderQuality c l none).render_label_density = c.render_label_density)) ∧
    ((∀ (en : Option Bool) (f : α),
        (setPinchInertia c en (some f)).pinch_inertia_friction = min 1 (max 0 f)) ∧
      (∀ (en : Option Bool) (f : α), 0 ≤ f → f ≤ 1 →
        (setPinchInertia c en (some f)).pinch_inertia_friction = f) ∧
      (∀ en : Option Bool,
        (setPinchInertia c en none).pinch_inertia_friction = c.pinch_inertia_friction) ∧
      (∀ f : Option α,
        (setPinchInertia c none f).pinch_inertia_enabled = c.pinch_inertia_enabled)) ∧
    ((∀ (en : Option Bool) (f : α),
        (setPanInertia c en (some f)).pan_inertia_friction = min 1 (max 0 f)) ∧
      (∀ (en : Option Bool) (f : α), 0 ≤ f → f ≤ 1 →
        (setPanInertia c en (some f)).pan_inertia_friction = f) ∧
      (∀ en : Option Bool,
        (setPanInertia c en none).pan_inertia_friction = c.pan_inertia_friction) ∧
      (∀ f : Option α,
        (setPanInertia c none f).pan_inertia_enabled = c.pan_inertia_enabled)) ∧
    ((∀ (v : α) (z : Option α),
        (setTouchSensitivity c (some v) z).touch_pan_sensitivity = min 5 (max 0.1 v)) ∧
      (∀ (p : Option α) (v : α),
        (setTouchSensitivity c p (some v)).touch_zoom_sensitivity = min 5 (max 0.1 v)) ∧
      (∀ (v : α) (z : Option α), 0.1 ≤ v → v ≤ 5 →
        (setTouchSensitivity c (some v) z).touch_pan_sensitivity = v) ∧
      (∀ (p : Option α) (v : α), 0.1 ≤ v → v ≤ 5 →
        (setTouchSensitivity c p (some v)).touch_zoom_sensitivity = v) ∧
      (∀ z : Option α,
        (setTouchSensitivity c none z).touch_pan_sensitivity = c.touch_pan_sensitivity) ∧
      (∀ p : Option α,
        (setTouchSensitivity c p none).touch_zoom_sensitivity = c.touch_zoom_sensitivity)) ∧
    (∀ st : PerformanceSettings α,
      (∀ v : α, st.targetFps = some v →
        (setPerformanceSettings c st).target_fps = min 120 (max 1 v) ∧
          (1 ≤ v → v ≤ 120 → (setPerformanceSettings c st).target_fps = v)) ∧
      (st.targetFps = none → (setPerformanceSettings c st).target_fps = c.target_fps) ∧
      (∀ v : α, st.minFps = some v →
        (setPerformanceSettings c st).min_fps = min 60 (max 1 v) ∧
          (1 ≤ v → v ≤ 60 → (setPerformanceSettings c st).min_fps = v)) ∧
      (st.minFps = none → (setPerformanceSettings c st).min_fps = c.min_fps) ∧
      (∀ v : α, st.maxStarsPerFrame = some v →
        (setPerformanceSettings c st).max_stars_per_frame = max 0 v ∧
          (0 ≤ v → (setPerformanceSettings c st).max_stars_per_frame = v)) ∧
      (st.maxStarsPerFrame = none →
        (setPerformanceSettings c st).max_stars_per_frame = c.max_stars_per_frame) ∧
      (∀ v : α, st.maxLabelsPerFrame = some v →
        (setPerformanceSettings c st).max_labels_per_frame = max 0 v ∧
          (0 ≤ v → (setPerformanceSettings c st).max_labels_per_frame = v)) ∧
      (st.maxLabelsPerFrame = none →
        (setPerformanceSettings c st).max_labels_per_frame = c.max_labels_per_frame)) := by
  refine ⟨⟨?_, ?_, ?_, ?_, ?_, ?_⟩, ⟨?_, ?_, ?_, ?_⟩, ⟨?_, ?_, ?_, ?_⟩,
    ⟨?_, ?_, ?_, ?_, ?_, ?_⟩, ?_⟩
  · intro l d
    rw [(setRenderQuality_fields c (some l) d).1]
    exact ⟨max_min_eq_min_max 0 2 _ (by norm_num), le_max_left _ _,
      max_le (by norm_num) (min_le_left _ _)⟩
  · intro n d h0 h2
    rw [(setRenderQuality_fields c (some (n : α)) d).1]
    simp only [Int.floor_intCast]
    exact max_min_of_mem 0 2 n h0 h2
  · intro d; rw [(setRenderQuality_fields c none d).1]
  · intro l d
    rw [(setRenderQuality_fields c l (some d)).2]
    exact max_min_eq_min_max 0 1 d (by norm_num)
  · intro l d h0 h1
    rw [(setRenderQuality_fields c l (some d)).2]
    exact max_min_of_mem 0 1 d h0 h1
  · intro l; rw [(setRenderQuality_fields c l none).2]
  · intro en f
    rw [(setPinchInertia_fields c en (some f)).1]
    exact max_min_eq_min_max 0 1 f (by norm_num)
  · intro en f h0 h1
    rw [(setPinchInertia_fields c en (some f)).1]
    exact max_min_of_mem 0 1 f h0 h1
  · intro en; rw [(setPinchInertia_fields c en none).1]
  · intro f; rw [(setPinchInertia_fields c none f).2]
  · intro en f
    rw [(setPanInertia_fields c en (some f)).1]
    exact max_min_eq_min_max 0 1 f (by norm_num)
  · intro en f h0 h1
    rw [(setPanInertia_fields c en (some f)).1]
    exact max_min_of_mem 0 1 f h0 h1
  · intro en; rw [(setPanInertia_fields c en none).1]
  · intro f; rw [(setPanInertia_fields c none f).2]
  · intro v z
    rw [(setTouchSensitivity_fields c (some v) z).1]
    exact max_min_eq_min_max 0.1 5 v (by norm_num)
  · intro p v
    rw [(setTouchSensitivity_fields c p (some v)).2]
    exact max_min_eq_min_max 0.1 5 v (by norm_num)
  · intro v z h0 h1
    rw [(setTouchSensitivity_fields c (some v) z).1]
    exact max_min_of_mem 0.1 5 v h0 h1
  · intro p v h0 h1
    rw [(setTouchSensitivity_fields c p (some v)).2]
    exact max_min_of_mem 0.1 5 v h0 h1
  · intro z; rw [(setTouchSensitivity_fields c none z).1]
  · intro p; rw [(setTouchSensitivity_fields c p none).2]
  · intro st
    obtain ⟨_, ht, hm, hs, hl⟩ := setPerformanceSettings_fields c st
    refine ⟨?_, ?_, ?_, ?_, ?_, ?_, ?_, ?_⟩
    · intro v hv
      rw [ht, hv]
      exact ⟨max_min_eq_min_max 1 120 v (by norm_num), fun h1 h2 => max_min_of_mem 1 120 v h1 h2⟩
    · intro hv; rw [ht, hv]
    · intro v hv
      rw [hm, hv]
      exact ⟨max_min_eq_min_max 1 60 v (by norm_num), fun h1 h2 => max_min_of_mem 1 60 v h1 h2⟩
    · intro hv; rw [hm, hv]
    · intro v hv
      rw [hs, hv]
      exact ⟨rfl, fun h => max_eq_right h⟩
    · intro hv; rw [hs, hv]
    · intro v hv
      rw [hl, hv]
      exact ⟨rfl, fun h => max_eq_right h⟩
    · intro hv; rw [hl, hv]

/-- Evaluation of C23 over the rationals: `setRenderQuality(1, 0.25)` stores both
values unchanged and `setTouchSensitivity(2.5)` stores 2.5. -/
theorem clamping_setters_witness :
    (setRenderQuality (Core.sample 2 1 60 16 : Core ℚ) (some ((1 : Int) : ℚ))
          (some 0.25)).render_quality_level = 1 ∧
      (setRenderQuality (Core.sample 2 1 60 16 : Core ℚ) (some ((1 : Int) : ℚ))
          (some 0.25)).render_label_density = 0.25 ∧
      (setTouchSensitivity (Core.sample 2 1 60 16 : Core ℚ) (some 2.5)
          none).touch_pan_sensitivity = 2.5 :=
  ⟨(clamping_setters (Core.sample 2 1 60 16 : Core ℚ)).1.2.1 1 (some 0.25) (by norm_num)
      (by norm_num),
    (clamping_setters (Core.sample 2 1 60 16 : Core ℚ)).1.2.2.2.2.1 (some ((1 : Int) : ℚ)) 0.25
      (by norm_num) (by norm_num),
    (clamping_setters (Core.sample 2 1 60 16 : Core ℚ)).2.2.2.1.2.2.1 2.5 none (by norm_num)
      (by norm_num)⟩

/-! ## Claim C22: auto-optimize presets -/

theorem setLowPowerMode_true_fields [LinearOrderedField α] [FloorRing α] (c : Core α) :
    (setLowPowerMode c true).render_quality_level = 0 ∧
      (setLowPowerMode c true).render_label_density = 0.5 ∧
      (setLowPowerMode c true).target_fps = 30 ∧
      (setLowPowerMode c true).min_fps = 15 ∧
      (setLowPowerMode c true).adaptive_fps = true := by
  refine ⟨?_, ?_, ?_, ?_, ?_⟩
  · simp [setLowPowerMode, setMobileSettings, setRenderQuality, setPinchInertia, setPanInertia]
  · simp only [setLowPowerMode, setMobileSettings, setRenderQuality, setPinchInertia,
      setPanInertia, if_true]
    exact max_min_of_mem 0 1 0.5 (by norm_num) (by norm_num)
  · simp only [setLowPowerMode, setMobileSettings, setRenderQuality, setPinchInertia,
      setPanInertia, setPerformanceSettings, if_true]
    exact max_min_of_mem 1 120 30 (by norm_num) (by norm_num)
  · simp only [setLowPowerMode, setMobileSettings, setRenderQuality, setPinchInertia,
      setPanInertia, setPerformanceSettings, if_true]
    exact max_min_of_mem 1 60 15 (by norm_num) (by norm_num)
  · simp [setLowPowerMode, setMobileSettings, setRenderQuality, setPinchInertia, setPanInertia,
      setPerformanceSettings]

theorem setHighPerformanceMode_true_fields [LinearOrderedField α] [FloorRing α] (c : Core α) :
    (setHighPerformanceMode c true).render_quality_level = 2 ∧
      (setHighPerformanceMode c true).target_fps = 60 ∧
      (setHighPerformanceMode c true).min_fps = 60 ∧
      (setHighPerformanceMode c true).adaptive_fps = false := by
  refine ⟨?_, ?_, ?_, ?_⟩
  · simp only [setHighPerformanceMode, setStarScale, setRenderQuality, if_true]
    show max 0 (min 2 (Int.floor (2 : α))) = 2
    rw [show (2 : α) = ((2 : Int) : α) by norm_num, Int.floor_intCast]
    rfl
  · simp only [setHighPerformanceMode, setStarScale, setRenderQuality, setPerformanceSettings,
      if_true]
    exact max_min_of_mem 1 120 60 (by norm_num) (by norm_num)
  · simp only [setHighPerformanceMode, setStarScale, setRenderQuality, setPerformanceSettings,
      if_true]
    exact max_min_of_mem 1 60 60 (by norm_num) (by norm_num)
  · simp [setHighPerformanceMode, setStarScale, setRenderQuality, setPerformanceSettings]

/-- C22. Auto-optimize preset selection. The callback passes the recommendation
on unchanged and applies one preset: `low` applies `setLowPowerMode(true)` and
leaves level 0, label density 0.5, `targetFps` 30, `minFps` 15, adaptive fps on;
`medium` leaves level 1, `targetFps` 45, adaptive fps on; `high` applies
`setHighPerformanceMode(true)` and leaves level 2, `targetFps` 60, `minFps` 60,
adaptive fps off. Hence the level for `low` is at most the level for `medium`,
which is at most the level for `high`. When the 3-second benchmark completes with
a result, `autoOptimize` is the callback on that result. -/
theorem auto_optimize_presets [LinearOrderedField α] [FloorRing α] (core : Core α)
    (results : BenchmarkResults α) :
    (autoOptimizeCallback core results).2 = results.recommendation ∧
    (results.recommendation = "low" →
      (autoOptimizeCallback core results).1 = setLowPowerMode core true ∧
        (autoOptimizeCallback core results).1.render_quality_level = 0 ∧
        (autoOptimizeCallback core results).1.render_label_density = 0.5 ∧
        (autoOptimizeCallback core results).1.target_fps = 30 ∧
        (autoOptimizeCallback core results).1.min_fps = 15 ∧
        (autoOptimizeCallback core results).1.adaptive_fps = true) ∧
    (results.recommendation = "medium" →
      (autoOptimizeCallback core results).1.render_quality_level = 1 ∧
        (autoOptimizeCallback core results).1.target_fps = 45 ∧
        (autoOptimizeCallback core results).1.adaptive_fps = true) ∧
    (results.recommendation = "high" →
      (autoOptimizeCallback core results).1 = setHighPerformanceMode core true ∧
        (autoOptimizeCallback core results).1.render_quality_level = 2 ∧
        (autoOptimizeCallback core results).1.target_fps = 60 ∧
        (autoOptimizeCallback core results).1.min_fps = 60 ∧
        (autoOptimizeCallback core results).1.adaptive_fps = false) ∧
    (∀ (c1 c2 c3 : Core α) (r1 r2 r3 : BenchmarkResults α),
      r1.recommendation = "low" → r2.recommendation = "medium" →
      r3.recommendation = "high" →
        (autoOptimizeCallback c1 r1).1.render_quality_level ≤
            (autoOptimizeCallback c2 r2).1.render_quality_level ∧
          (autoOptimizeCallback c2 r2).1.render_quality_level ≤
            (autoOptimizeCallback c3 r3).1.render_quality_level) ∧
    (∀ (startTime : α) (frames : List (α × α)) (r : BenchmarkResults α),
      benchmark (some 3) startTime frames = some r →
        autoOptimize core startTime frames = some (autoOptimizeCallback core r)) := by
  have hlow : ∀ (c : Core α) (r : BenchmarkResults α), r.recommendation = "low" →
      (autoOptimizeCallback c r).1 = setLowPowerMode c true := by
    intro c r h
    simp [autoOptimizeCallback, h]
  have hmed : ∀ (c : Core α) (r : BenchmarkResults α), r.recommendation = "medium" →
      (autoOptimizeCallback c r).1.render_quality_level = 1 ∧
        (autoOptimizeCallback c r).1.target_fps = 45 ∧
        (autoOptimizeCallback c r).1.adaptive_fps = true := by
    intro c r h
    have hne : ¬ ("medium" = "low") := by decide
    simp only [autoOptimizeCallback, h, hne, if_true, if_false]
    refine ⟨?_, ?_, ?_⟩
    · simp only [setRenderQuality]
      show max 0 (min 2 (Int.floor (1 : α))) = 1
      rw [Int.floor_one]; rfl
    · simp only [setRenderQuality, setPerformanceSettings]
      exact max_min_of_mem 1 120 45 (by norm_num) (by norm_num)
    · simp [setRenderQuality, setPerformanceSettings]
  have hhigh : ∀ (c : Core α) (r : BenchmarkResults α), r.recommendation = "high" →
      (autoOptimizeCallback c r).1 = setHighPerformanceMode c true := by
    intro c r h
    have hne1 : ¬ ("high" = "low") := by decide
    have hne2 : ¬ ("high" = "medium") := by decide
    simp only [autoOptimizeCallback, h, hne1, hne2, if_false]
  refine ⟨rfl, ?_, hmed core results, ?_, ?_, ?_⟩
  · intro h
    rw [hlow core results h]
    exact ⟨rfl, setLowPowerMode_true_fields core⟩
  · intro h
    rw [hhigh core results h]
    exact ⟨rfl, setHighPerformanceMode_true_fields core⟩
  · intro c1 c2 c3 r1 r2 r3 h1 h2 h3
    rw [hlow c1 r1 h1, (hmed c2 r2 h2).1, hhigh c3 r3 h3,
      (setLowPowerMode_true_fields c1).1, (setHighPerformanceMode_true_fields c3).1]
    exact ⟨by norm_num, by norm_num⟩
  · intro startTime frames r h
    simp [autoOptimize, h]

/-- Evaluation of C22 over the rationals: a result recommending `medium`, from
the default configuration at level 2. -/
theorem auto_optimize_presets_witness :
    (autoOptimizeCallback (Core.sample 2 1 60 25 : Core ℚ)
        ⟨3, 120, 40, 40, 40, "medium"⟩).1.render_quality_level = 1 ∧
      (autoOptimizeCallback (Core.sample 2 1 60 25 : Core ℚ)
        ⟨3, 120, 40, 40, 40, "medium"⟩).1.target_fps = 45 ∧
      (autoOptimizeCallback (Core.sample 2 1 60 25 : Core ℚ)
        ⟨3, 120, 40, 40, 40, "medium"⟩).1.adaptive_fps = true :=
  (auto_optimize_presets (Core.sample 2 1 60 25 : Core ℚ)
    ⟨3, 120, 40, 40, 40, "medium"⟩).2.2.1 rfl

/-! ## Claim C30: mobile settings round trip -/

/-- C30. Mobile settings round trip. If both inertia frictions are in `[0, 1]`,
both touch sensitivities in `[0.1, 5]`, the level in `{0, 1, 2}` and the label
density in `[0, 1]`, then `setMobileSettings(getMobileSettings())` leaves
`Module.core` unchanged; and for every complete settings object `s` whose values
are within those bounds (with an integral level), `getMobileSettings()` right
after `setMobileSettings(s)` returns `s`. -/
theorem mobile_settings_round_trip [LinearOrderedField α] [FloorRing α] (c : Core α) :
    ((0 ≤ c.pinch_inertia_friction ∧ c.pinch_inertia_friction ≤ 1) →
      (0 ≤ c.pan_inertia_friction ∧ c.pan_inertia_friction ≤ 1) →
      (0.1 ≤ c.touch_pan_sensitivity ∧ c.touch_pan_sensitivity ≤ 5) →
      (0.1 ≤ c.touch_zoom_sensitivity ∧ c.touch_zoom_sensitivity ≤ 5) →
      c.qualityInRange →
      setMobileSettings c (getMobileSettings c) = c) ∧
    (∀ (e1 e2 : Bool) (f1 f2 p z d : α) (n : Int),
      (0 ≤ f1 ∧ f1 ≤ 1) → (0 ≤ f2 ∧ f2 ≤ 1) → (0.1 ≤ p ∧ p ≤ 5) → (0.1 ≤ z ∧ z ≤ 5) →
      (0 ≤ n ∧ n ≤ 2) → (0 ≤ d ∧ d ≤ 1) →
      getMobileSettings (setMobileSettings c
          { pinchInertia := some { enabled := some e1, friction := some f1 },
            panInertia := some { enabled := some e2, friction := some f2 },
            touchSensitivity := some { pan := some p, zoom := some z },
            renderQuality := some { level := some (n : α), labelDensity := some d } }) =
        { pinchInertia := some { enabled := some e1, friction := some f1 },
          panInertia := some { enabled := some e2, friction := some f2 },
          touchSensitivity := some { pan := some p, zoom := some z },
          renderQuality := some { level := some (n : α), labelDensity := some d } }) := by
  constructor
  · intro hf1 hf2 hp hz hq
    obtain ⟨hl, hd⟩ := hq
    have h1 := max_min_of_mem 0 1 c.pinch_inertia_friction hf1.1 hf1.2
    have h2 := max_min_of_mem 0 1 c.pan_inertia_friction hf2.1 hf2.2
    have h3 := max_min_of_mem 0.1 5 c.touch_pan_sensitivity hp.1 hp.2
    have h4 := max_min_of_mem 0.1 5 c.touch_zoom_sensitivity hz.1 hz.2
    have h5 : max 0 (min 2 (Int.floor (c.render_quality_level : α))) =
        c.render_quality_level := by
      rw [Int.floor_intCast]; exact max_min_of_mem 0 2 _ hl.1 hl.2
    have h6 := max_min_of_mem 0 1 c.render_label_density hd.1 hd.2
    simp only [setMobileSettings, getMobileSettings, getPinchInertia, getPanInertia,
      getTouchSensitivity, getRenderQuality, setPinchInertia, setPanInertia,
      setTouchSensitivity, setRenderQuality, h1, h2, h3, h4, h5, h6]
  · intro e1 e2 f1 f2 p z d n hf1 hf2 hp hz hn hd
    have h1 := max_min_of_mem 0 1 f1 hf1.1 hf1.2
    have h2 := max_min_of_mem 0 1 f2 hf2.1 hf2.2
    have h3 := max_min_of_mem 0.1 5 p hp.1 hp.2
    have h4 := max_min_of_mem 0.1 5 z hz.1 hz.2
    have h5 : max 0 (min 2 (Int.floor (n : α))) = n := by
      rw [Int.floor_intCast]; exact max_min_of_mem 0 2 _ hn.1 hn.2
    have h6 := max_min_of_mem 0 1 d hd.1 hd.2
    simp only [setMobileSettings, getMobileSettings, getPinchInertia, getPanInertia,
      getTouchSensitivity, getRenderQuality, setPinchInertia, setPanInertia,
      setTouchSensitivity, setRenderQuality, h1, h2, h3, h4, h5, h6]

/-- Evaluation of C30 over the rationals on the default configuration. -/
theorem mobile_settings_round_trip_witness :
    setMobileSettings (Core.sample 2 1 60 16 : Core ℚ)
        (getMobileSettings (Core.sample 2 1 60 16 : Core ℚ)) =
      (Core.sample 2 1 60 16 : Core ℚ) :=
  (mobile_settings_round_trip (Core.sample 2 1 60 16 : Core ℚ)).1
    (by norm_num [Core.sample]) (by norm_num [Core.sample]) (by norm_num [Core.sample])
    (by norm_num [Core.sample]) (by norm_num [Core.qualityInRange, Core.sample])

/-! ## Claim C25: pinch factors telescope -/

theorem zoomFactors_append (a b : List (Call α)) :
    zoomFactors (a ++ b) = zoomFactors a ++ zoomFactors b := by
  simp [zoomFactors]

theorem zoomFactors_of_zoomCalls_nil (tr : List (Call α)) (h : zoomCalls tr = []) :
    zoomFactors tr = [] := by
  induction tr with
  | nil => rfl
  | cons c tr ih =>
    cases c <;> simp_all [zoomCalls, zoomFactors, List.filter_cons, List.filterMap_cons]

theorem zoomFactors_forwardChangedTouches [LinearOrderedField α] (rect : Rect α) (state : Int)
    (l : List (Touch α)) : zoomFactors (forwardChangedTouches rect state l) = [] :=
  zoomFactors_of_zoomCalls_nil _ (zoomCalls_forwardChangedTouches rect state l)

/-- One `touchmove` either forwards no zoom call and keeps the pinch fields, or
has exactly two touches, a positive baseline, and forwards the single factor
`scale / lastScale` while storing `scale`. -/
theorem touchmove_cases [LinearOrderedField α] (sqrt : α → α) (st : TouchState α)
    (rect : Rect α) (e : TouchEvent α) :
    (zoomCalls (touchmove sqrt st rect e).2 = [] ∧
        zoomFactors (touchmove sqrt st rect e).2 = [] ∧
        (touchmove sqrt st rect e).1.lastScale = st.lastScale) ∨
      (∃ p q : Touch α, e.touches = [p, q] ∧ 0 < st.pinchStartDist ∧
        zoomCalls (touchmove sqrt st rect e).2 ≠ [] ∧
        zoomFactors (touchmove sqrt st rect e).2 =
          [getTouchDistance sqrt p q / st.pinchStartDist / st.lastScale] ∧
        (touchmove sqrt st rect e).1.lastScale =
          getTouchDistance sqrt p q / st.pinchStartDist) := by
  by_cases hz : zoomCalls (touchmove sqrt st rect e).2 = []
  · exact Or.inl ⟨hz, zoomFactors_of_zoomCalls_nil _ hz,
      (touchmove_state_of_no_zoom sqrt st rect e hz).1⟩
  · right
    have hne : zoomCalls (dispatchTouch sqrt st ⟨TouchEventType.touchmove, rect, 0, e⟩).2 ≠ [] :=
      hz
    obtain ⟨_, hlen, hD⟩ := zoomCalls_dispatchTouch_ne_nil sqrt st _ hne
    obtain ⟨p, q, hpq⟩ : ∃ p q, e.touches = [p, q] := by
      match hts : e.touches, hlen with
      | [p, q], _ => exact ⟨p, q, rfl⟩
    have hacc : |getTouchDistance sqrt p q / st.pinchStartDist - st.lastScale| > 0.005 := by
      by_contra hrej
      apply hz
      rw [touchmove_reject sqrt st rect e p q hpq hrej, zoomCalls_preventDefault_cons]
      exact zoomCalls_forwardChangedTouches _ _ _
    refine ⟨p, q, hpq, hD, hz, ?_, ?_⟩
    · rw [touchmove_accept sqrt st rect e p q hpq hD hacc]
      simp [zoomFactors, forwardChangedTouches]
    · rw [touchmove_accept sqrt st rect e p q hpq hD hacc]

theorem runTouch_take_succ [LinearOrderedField α] (sqrt : α → α) (st : TouchState α)
    (m : TouchInput α) (rest : List (TouchInput α)) (k : Nat) :
    (runTouch sqrt st ((m :: rest).take (k + 1))).1 =
      (runTouch sqrt (dispatchTouch sqrt st m).1 (rest.take k)).1 := by
  simp [runTouch]

/-- Over a run of `touchmove` events along which the last accepted scale is
never zero, the product of the forwarded factors times the initial last scale is
the final last scale. -/
theorem runTouch_factors_prod [LinearOrderedField α] (sqrt : α → α) (st : TouchState α)
    (moves : List (TouchInput α)) (hm : ∀ m ∈ moves, m.type = TouchEventType.touchmove)
    (hnz : ∀ k : Nat, (runTouch sqrt st (moves.take k)).1.lastScale ≠ 0) :
    (zoomFactors (runTouch sqrt st moves).2).prod * st.lastScale =
      (runTouch sqrt st moves).1.lastScale := by
  induction moves generalizing st with
  | nil => simp [runTouch, zoomFactors]
  | cons m rest ih =>
    have hmt := hm m (List.mem_cons_self m rest)
    have hs0 : st.lastScale ≠ 0 := by simpa [runTouch] using hnz 0
    have hstep : dispatchTouch sqrt st m = touchmove sqrt st m.rect m.e := by
      simp only [dispatchTouch, hmt]
    have ih' := ih (dispatchTouch sqrt st m).1
      (fun x hx => hm x (List.mem_cons_of_mem m hx))
      (fun k => by rw [← runTouch_take_succ]; exact hnz (k + 1))
    simp only [runTouch, zoomFactors_append, List.prod_append]
    rw [← ih']
    rcases touchmove_cases sqrt st m.rect m.e with ⟨_, hf, hl⟩ | ⟨p, q, _, _, _, hf, hl⟩
    · rw [hstep, hf, hl]; simp
    · rw [hstep, hf, hl]
      simp only [List.prod_cons, List.prod_nil, mul_one]
      rw [mul_right_comm, div_mul_cancel₀ _ hs0, mul_comm]

/-- Over a run of `touchmove` events, either nothing was accepted and the last
scale is the initial one, or the last scale is the distance of the last accepted
sample divided by the baseline. -/
theorem runTouch_lastScale_cases [LinearOrderedField α] (sqrt : α → α) (st : TouchState α)
    (moves : List (TouchInput α)) (hm : ∀ m ∈ moves, m.type = TouchEventType.touchmove) :
    (zoomCalls (runTouch sqrt st moves).2 = [] ∧
        (runTouch sqrt st moves).1.lastScale = st.lastScale) ∨
      (∃ (pre : List (TouchInput α)) (m : TouchInput α) (post : List (TouchInput α))
        (p q : Touch α),
        moves = pre ++ m :: post ∧ m.e.touches = [p, q] ∧
          zoomCalls (dispatchTouch sqrt (runTouch sqrt st pre).1 m).2 ≠ [] ∧
          zoomCalls (runTouch sqrt (dispatchTouch sqrt (runTouch sqrt st pre).1 m).1 post).2
            = [] ∧
          (runTouch sqrt st moves).1.lastScale =
            getTouchDistance sqrt p q / st.pinchStartDist) := by
  induction moves generalizing st with
  | nil => exact Or.inl ⟨rfl, rfl⟩
  | cons m rest ih =>
    have hmt := hm m (List.mem_cons_self m rest)
    have hstep : dispatchTouch sqrt st m = touchmove sqrt st m.rect m.e := by
      simp only [dispatchTouch, hmt]
    have hD : (dispatchTouch sqrt st m).1.pinchStartDist = st.pinchStartDist := by
      rw [hstep]; exact touchmove_pinchStartDist sqrt st m.rect m.e
    rcases ih (dispatchTouch sqrt st m).1 (fun x hx => hm x (List.mem_cons_of_mem m hx)) with
      ⟨hz, hl⟩ | ⟨pre, m', post, p, q, hsplit, hpq, hacc, hpost, hl⟩
    · rcases touchmove_cases sqrt st m.rect m.e with ⟨hz0, _, hl0⟩ | ⟨p, q, hpq, _, hne, _, hl0⟩
      · left
        refine ⟨?_, ?_⟩
        · simp only [runTouch, zoomCalls_append]
          rw [hz, hstep, hz0]
          rfl
        · simp only [runTouch]
          rw [hl, hstep, hl0]
      · right
        refine ⟨[], m, rest, p, q, rfl, hpq, ?_, ?_, ?_⟩
        · simpa only [runTouch, hstep] using hne
        · simpa only [runTouch] using hz
        · simp only [runTouch]
          rw [hl, hstep, hl0]
    · right
      refine ⟨m :: pre, m', post, p, q, by rw [hsplit]; rfl, hpq, ?_, ?_, ?_⟩
      · simpa only [runTouch] using hacc
      · simpa only [runTouch] using hpost
      · simp only [runTouch]
        rw [hl, hD]

/-- C25. Pinch factors telescope. In the session opened by a `touchstart` whose
touch list is `[p0, q0]`, over any run of `touchmove` events along which the last
accepted scale is never zero (it is 1 at first and an accepted sample's scale
afterwards), the product of all zoom factors forwarded so far equals the current
`lastScale`; this is 1 when nothing was accepted, and otherwise the distance of
the last accepted sample divided by the baseline distance of `p0` and `q0`. -/
theorem pinch_factors_telescope [LinearOrderedField α] (sqrt : α → α) (st0 : TouchState α)
    (rect : Rect α) (now : α) (e : TouchEvent α) (p0 q0 : Touch α)
    (moves : List (TouchInput α)) (hpq : e.touches = [p0, q0])
    (hm : ∀ m ∈ moves, m.type = TouchEventType.touchmove)
    (hnz : ∀ k : Nat,
      (runTouch sqrt (touchstart sqrt st0 rect now e).1 (moves.take k)).1.lastScale ≠ 0) :
    (zoomFactors (runTouch sqrt (touchstart sqrt st0 rect now e).1 moves).2).prod =
        (runTouch sqrt (touchstart sqrt st0 rect now e).1 moves).1.lastScale ∧
      (zoomCalls (runTouch sqrt (touchstart sqrt st0 rect now e).1 moves).2 = [] →
        (runTouch sqrt (touchstart sqrt st0 rect now e).1 moves).1.lastScale = 1) ∧
      (zoomCalls (runTouch sqrt (touchstart sqrt st0 rect now e).1 moves).2 ≠ [] →
        ∃ (pre : List (TouchInput α)) (m : TouchInput α) (post : List (TouchInput α))
          (p q : Touch α),
          moves = pre ++ m :: post ∧ m.e.touches = [p, q] ∧
            zoomCalls (dispatchTouch sqrt
              (runTouch sqrt (touchstart sqrt st0 rect now e).1 pre).1 m).2 ≠ [] ∧
            zoomCalls (runTouch sqrt (dispatchTouch sqrt
              (runTouch sqrt (touchstart sqrt st0 rect now e).1 pre).1 m).1 post).2 = [] ∧
            (runTouch sqrt (touchstart sqrt st0 rect now e).1 moves).1.lastScale =
              getTouchDistance sqrt p q / getTouchDistance sqrt p0 q0) := by
  have hstart : (touchstart sqrt st0 rect now e).1.lastScale = 1 ∧
      (touchstart sqrt st0 rect now e).1.pinchStartDist = getTouchDistance sqrt p0 q0 := by
    simp only [touchstart, hpq]
    exact ⟨trivial, trivial⟩
  have hprod := runTouch_factors_prod sqrt (touchstart sqrt st0 rect now e).1 moves hm hnz
  rw [hstart.1, mul_one] at hprod
  refine ⟨hprod, ?_, ?_⟩
  · intro hz
    rw [runTouch_moves_lastScale sqrt _ moves hm hz]
    exact hstart.1
  · intro hne
    rcases runTouch_lastScale_cases sqrt (touchstart sqrt st0 rect now e).1 moves hm with
      ⟨hz, _⟩ | ⟨pre, m, post, p, q, h1, h2, h3, h4, h5⟩
    · exact absurd hz hne
    · exact ⟨pre, m, post, p, q, h1, h2, h3, h4, by rw [h5, hstart.2]⟩

/-- Evaluation of C25 over the real numbers: baseline 1000, one accepted sample at
distance 1200; the single factor and the last scale are both `1200 / 1000`. -/
theorem pinch_factors_telescope_witness :
    (zoomFactors (runTouch Real.sqrt
        (touchstart Real.sqrt (TouchState.init : TouchState ℝ) ⟨0, 0, 2000, 2000⟩ 0
          ⟨[⟨0, 0, 0⟩, ⟨1, 1000, 0⟩], [⟨1, 1000, 0⟩]⟩).1
        [⟨TouchEventType.touchmove, ⟨0, 0, 2000, 2000⟩, 1,
          ⟨[⟨0, 0, 0⟩, ⟨1, 1200, 0⟩], [⟨1, 1200, 0⟩]⟩⟩]).2).prod =
      (runTouch Real.sqrt
        (touchstart Real.sqrt (TouchState.init : TouchState ℝ) ⟨0, 0, 2000, 2000⟩ 0
          ⟨[⟨0, 0, 0⟩, ⟨1, 1000, 0⟩], [⟨1, 1000, 0⟩]⟩).1
        [⟨TouchEventType.touchmove, ⟨0, 0, 2000, 2000⟩, 1,
          ⟨[⟨0, 0, 0⟩, ⟨1, 1200, 0⟩], [⟨1, 1200, 0⟩]⟩⟩]).1.lastScale ∧
    (runTouch Real.sqrt
        (touchstart Real.sqrt (TouchState.init : TouchState ℝ) ⟨0, 0, 2000, 2000⟩ 0
          ⟨[⟨0, 0, 0⟩, ⟨1, 1000, 0⟩], [⟨1, 1000, 0⟩]⟩).1
        [⟨TouchEventType.touchmove, ⟨0, 0, 2000, 2000⟩, 1,
          ⟨[⟨0, 0, 0⟩, ⟨1, 1200, 0⟩], [⟨1, 1200, 0⟩]⟩⟩]).1.lastScale = 1200 / 1000 := by
  have h1000 := getTouchDistance_real_horizontal 0 1 1000 (by norm_num)
  have h1200 := getTouchDistance_real_horizontal 0 1 1200 (by norm_num)
  have hs : (touchstart Real.sqrt (TouchState.init : TouchState ℝ) ⟨0, 0, 2000, 2000⟩ 0
      ⟨[⟨0, 0, 0⟩, ⟨1, 1000, 0⟩], [⟨1, 1000, 0⟩]⟩).1 =
      { lastTouchTime := 0, touchCount := 2, lastScale := 1, pinchStartDist := 1000,
        pinchCenter := getTouchCenter ⟨0, 0, 0⟩ ⟨1, 1000, 0⟩ ⟨0, 0, 2000, 2000⟩ } := by
    simp [touchstart, TouchState.init, h1000]
  have hacc : |(1200 : ℝ) / 1000 - 1| > 0.005 := by
    rw [abs_of_nonneg (by norm_num)]; norm_num
  have hm1 := touchmove_accept Real.sqrt
    ({ lastTouchTime := 0, touchCount := 2, lastScale := 1, pinchStartDist := 1000,
       pinchCenter := getTouchCenter ⟨0, 0, 0⟩ ⟨1, 1000, 0⟩ ⟨0, 0, 2000, 2000⟩ } :
      TouchState ℝ)
    ⟨0, 0, 2000, 2000⟩ ⟨[⟨0, 0, 0⟩, ⟨1, 1200, 0⟩], [⟨1, 1200, 0⟩]⟩ ⟨0, 0, 0⟩ ⟨1, 1200, 0⟩ rfl
    (by norm_num) (by rw [h1200]; exact hacc)
  have hlast : (runTouch Real.sqrt
      (touchstart Real.sqrt (TouchState.init : TouchState ℝ) ⟨0, 0, 2000, 2000⟩ 0
        ⟨[⟨0, 0, 0⟩, ⟨1, 1000, 0⟩], [⟨1, 1000, 0⟩]⟩).1
      [⟨TouchEventType.touchmove, ⟨0, 0, 2000, 2000⟩, 1,
        ⟨[⟨0, 0, 0⟩, ⟨1, 1200, 0⟩], [⟨1, 1200, 0⟩]⟩⟩]).1.lastScale = 1200 / 1000 := by
    simp only [runTouch, dispatchTouch, hs, hm1, h1200]
  refine ⟨(pinch_factors_telescope Real.sqrt (TouchState.init : TouchState ℝ)
    ⟨0, 0, 2000, 2000⟩ 0 ⟨[⟨0, 0, 0⟩, ⟨1, 1000, 0⟩], [⟨1, 1000, 0⟩]⟩ ⟨0, 0, 0⟩ ⟨1, 1000, 0⟩
    [⟨TouchEventType.touchmove, ⟨0, 0, 2000, 2000⟩, 1,
      ⟨[⟨0, 0, 0⟩, ⟨1, 1200, 0⟩], [⟨1, 1200, 0⟩]⟩⟩] rfl ?_ ?_).1, hlast⟩
  · intro m hmem
    rw [List.mem_singleton.mp hmem]
  · intro k
    cases k with
    | zero =>
      simp only [List.take_zero, runTouch, hs]
      norm_num
    | succ k =>
      rw [show List.take (k + 1)
        [(⟨TouchEventType.touchmove, ⟨0, 0, 2000, 2000⟩, 1,
          ⟨[⟨0, 0, 0⟩, ⟨1, 1200, 0⟩], [⟨1, 1200, 0⟩]⟩⟩ : TouchInput ℝ)] =
        [⟨TouchEventType.touchmove, ⟨0, 0, 2000, 2000⟩, 1,
          ⟨[⟨0, 0, 0⟩, ⟨1, 1200, 0⟩], [⟨1, 1200, 0⟩]⟩⟩] by simp, hlast]
      norm_num

/-! ## Claim C26: pinch division safety -/

/-- C26, as stated, fails on the code: after a two-touch `touchstart` at distance
5, a `touchmove` whose two touches are at the same point has distance 0 and scale
0, is accepted (`|0 - 1| > 0.005`), forwards the factor 0 and leaves
`lastScale = 0`, the divisor of the next pinch update. -/
theorem pinch_zero_scale_counterexample :
    (runTouch Real.sqrt (TouchState.init : TouchState ℝ)
        [⟨TouchEventType.touchstart, ⟨0, 0, 100, 100⟩, 0,
            ⟨[⟨0, 0, 0⟩, ⟨1, 5, 0⟩], [⟨1, 5, 0⟩]⟩⟩,
          ⟨TouchEventType.touchmove, ⟨0, 0, 100, 100⟩, 1,
            ⟨[⟨0, 0, 0⟩, ⟨1, 0, 0⟩], [⟨1, 0, 0⟩]⟩⟩]).1.lastScale = 0 ∧
      zoomFactors (runTouch Real.sqrt (TouchState.init : TouchState ℝ)
        [⟨TouchEventType.touchstart, ⟨0, 0, 100, 100⟩, 0,
            ⟨[⟨0, 0, 0⟩, ⟨1, 5, 0⟩], [⟨1, 5, 0⟩]⟩⟩,
          ⟨TouchEventType.touchmove, ⟨0, 0, 100, 100⟩, 1,
            ⟨[⟨0, 0, 0⟩, ⟨1, 0, 0⟩], [⟨1, 0, 0⟩]⟩⟩]).2 = [0] := by
  have h5 := getTouchDistance_real_horizontal 0 1 5 (by norm_num)
  have h0 := getTouchDistance_real_horizontal 0 1 0 (by norm_num)
  have hs : touchstart Real.sqrt (TouchState.init : TouchState ℝ) ⟨0, 0, 100, 100⟩ 0
      ⟨[⟨0, 0, 0⟩, ⟨1, 5, 0⟩], [⟨1, 5, 0⟩]⟩ =
      ({ lastTouchTime := 0, touchCount := 2, lastScale := 1, pinchStartDist := 5,
         pinchCenter := getTouchCenter ⟨0, 0, 0⟩ ⟨1, 5, 0⟩ ⟨0, 0, 100, 100⟩ },
        forwardChangedTouches ⟨0, 0, 100, 100⟩ 1 [⟨1, 5, 0⟩]) := by
    simp [touchstart, TouchState.init, h5]
  have hacc : |(0 : ℝ) / 5 - 1| > 0.005 := by
    rw [abs_of_nonpos (by norm_num)]; norm_num
  have hm1 := touchmove_accept Real.sqrt
    ({ lastTouchTime := 0, touchCount := 2, lastScale := 1, pinchStartDist := 5,
       pinchCenter := getTouchCenter ⟨0, 0, 0⟩ ⟨1, 5, 0⟩ ⟨0, 0, 100, 100⟩ } : TouchState ℝ)
    ⟨0, 0, 100, 100⟩ ⟨[⟨0, 0, 0⟩, ⟨1, 0, 0⟩], [⟨1, 0, 0⟩]⟩ ⟨0, 0, 0⟩ ⟨1, 0, 0⟩ rfl
    (by norm_num) (by rw [h0]; exact hacc)
  constructor
  · simp only [runTouch, dispatchTouch, hs, hm1, h0]
    norm_num
  · simp only [runTouch, dispatchTouch, hs, hm1, h0, zoomFactors_append,
      zoomFactors_forwardChangedTouches]
    simp [zoomFactors, forwardChangedTouches]

theorem getTouchDistance_nonneg [LinearOrderedField α] (sqrt : α → α)
    (hsqrt : ∀ x : α, 0 ≤ sqrt x) (p q : Touch α) : 0 ≤ getTouchDistance sqrt p q :=
  hsqrt _

/-- One touch event keeps the last accepted scale positive and forwards only
positive factors, provided a two-touch `touchmove` sample has a non-zero
distance. -/
theorem dispatchTouch_lastScale_pos [LinearOrderedField α] (sqrt : α → α)
    (hsqrt : ∀ x : α, 0 ≤ sqrt x) (st : TouchState α) (inp : TouchInput α)
    (hpos : 0 < st.lastScale)
    (hnz : inp.type = TouchEventType.touchmove → ∀ p q : Touch α, inp.e.touches = [p, q] →
      getTouchDistance sqrt p q ≠ 0) :
    0 < (dispatchTouch sqrt st inp).1.lastScale ∧
      ∀ f ∈ zoomFactors (dispatchTouch sqrt st inp).2, 0 < f := by
  unfold dispatchTouch
  cases ht : inp.type with
  | touchstart =>
    simp only [touchstart, zoomFactors_forwardChangedTouches]
    refine ⟨?_, fun f hf => absurd hf (by simp)⟩
    split
    · exact one_pos
    · exact hpos
  | touchend =>
    simp only [touchend, zoomFactors_forwardChangedTouches]
    refine ⟨?_, fun f hf => absurd hf (by simp)⟩
    split
    · exact one_pos
    · exact hpos
  | touchcancel =>
    simp only [touchcancel, zoomFactors_forwardChangedTouches]
    exact ⟨one_pos, fun f hf => absurd hf (by simp)⟩
  | touchmove =>
    dsimp only
    rcases touchmove_cases sqrt st inp.rect inp.e with ⟨_, hf, hl⟩ | ⟨p, q, hpq, hD, _, hf, hl⟩
    · rw [hf, hl]
      exact ⟨hpos, fun f hf => absurd hf (by simp)⟩
    · have hdist : 0 < getTouchDistance sqrt p q :=
        lt_of_le_of_ne (getTouchDistance_nonneg sqrt hsqrt p q) (Ne.symm (hnz ht p q hpq))
      rw [hf, hl]
      refine ⟨div_pos hdist hD, ?_⟩
      intro f hfm
      rw [List.mem_singleton.mp hfm]
      exact div_pos (div_pos hdist hD) hpos

theorem runTouch_lastScale_pos [LinearOrderedField α] (sqrt : α → α)
    (hsqrt : ∀ x : α, 0 ≤ sqrt x) (st : TouchState α) (evs : List (TouchInput α))
    (hpos : 0 < st.lastScale)
    (hnz : ∀ inp ∈ evs, inp.type = TouchEventType.touchmove →
      ∀ p q : Touch α, inp.e.touches = [p, q] → getTouchDistance sqrt p q ≠ 0) :
    0 < (runTouch sqrt st evs).1.lastScale ∧
      ∀ f ∈ zoomFactors (runTouch sqrt st evs).2, 0 < f := by
  induction evs generalizing st with
  | nil => exact ⟨hpos, fun f hf => absurd hf (by simp [runTouch, zoomFactors])⟩
  | cons inp rest ih =>
    obtain ⟨h1, h2⟩ := dispatchTouch_lastScale_pos sqrt hsqrt st inp hpos
      (hnz inp (List.mem_cons_self inp rest))
    obtain ⟨h3, h4⟩ := ih (dispatchTouch sqrt st inp).1 h1
      (fun x hx => hnz x (List.mem_cons_of_mem inp hx))
    refine ⟨h3, ?_⟩
    intro f hf
    simp only [runTouch, zoomFactors_append, List.mem_append] at hf
    rcases hf with hf | hf
    · exact h2 f hf
    · exact h4 f hf

/-- C26, amended. With a non-negative square root, in every state reached from
the initial touch state by touch events in which no two-touch `touchmove` list
has its two touches at distance 0, `lastScale` is strictly positive, so the
division `scale / lastScale` is not a division by zero, and every zoom factor
forwarded is strictly positive; and a touch event forwards a zoom call only when
`pinchStartDist > 0`: otherwise the pinch block divides nothing and changes
nothing. -/
theorem pinch_division_safety [LinearOrderedField α] (sqrt : α → α)
    (hsqrt : ∀ x : α, 0 ≤ sqrt x) (evs : List (TouchInput α))
    (hnz : ∀ inp ∈ evs, inp.type = TouchEventType.touchmove →
      ∀ p q : Touch α, inp.e.touches = [p, q] → getTouchDistance sqrt p q ≠ 0) :
    0 < (runTouch sqrt TouchState.init evs).1.lastScale ∧
      (∀ f ∈ zoomFactors (runTouch sqrt TouchState.init evs).2, 0 < f) ∧
      (∀ (st : TouchState α) (inp : TouchInput α),
        zoomCalls (dispatchTouch sqrt st inp).2 ≠ [] → 0 < st.pinchStartDist) ∧
      (∀ (st : TouchState α) (rect : Rect α) (touches : List (Touch α)),
        ¬ 0 < st.pinchStartDist → pinchUpdate sqrt st rect touches = (st, [])) := by
  obtain ⟨h1, h2⟩ := runTouch_lastScale_pos sqrt hsqrt TouchState.init evs
    (by simp [TouchState.init]) hnz
  refine ⟨h1, h2, fun st inp h => (zoomCalls_dispatchTouch_ne_nil sqrt st inp h).2.2, ?_⟩
  intro st rect touches hD
  unfold pinchUpdate
  split
  · rw [if_neg hD]
  · rfl

/-- Evaluation of the amended C26 over the real numbers with `Real.sqrt`: a
two-touch start at distance 1000 and a move at distance 1200. -/
theorem pinch_division_safety_witness :
    0 < (runTouch Real.sqrt (TouchState.init : TouchState ℝ)
      [⟨TouchEventType.touchstart, ⟨0, 0, 2000, 2000⟩, 0,
          ⟨[⟨0, 0, 0⟩, ⟨1, 1000, 0⟩], [⟨1, 1000, 0⟩]⟩⟩,
        ⟨TouchEventType.touchmove, ⟨0, 0, 2000, 2000⟩, 1,
          ⟨[⟨0, 0, 0⟩, ⟨1, 1200, 0⟩], [⟨1, 1200, 0⟩]⟩⟩]).1.lastScale :=
  (pinch_division_safety Real.sqrt Real.sqrt_nonneg
    [⟨TouchEventType.touchstart, ⟨0, 0, 2000, 2000⟩, 0,
        ⟨[⟨0, 0, 0⟩, ⟨1, 1000, 0⟩], [⟨1, 1000, 0⟩]⟩⟩,
      ⟨TouchEventType.touchmove, ⟨0, 0, 2000, 2000⟩, 1,
        ⟨[⟨0, 0, 0⟩, ⟨1, 1200, 0⟩], [⟨1, 1200, 0⟩]⟩⟩]
    (by
      intro inp hinp htype p q hpq
      simp only [List.mem_cons, List.mem_singleton, List.not_mem_nil, or_false] at hinp
      rcases hinp with rfl | rfl
      · exact absurd htype (by decide)
      · simp only [List.cons.injEq, and_true] at hpq
        obtain ⟨rfl, rfl⟩ := hpq
        rw [getTouchDistance_real_horizontal 0 1 1200 (by norm_num)]
        norm_num)).1

/-! ## Claim C27: mouse press and release at the engine boundary -/

/-- C27, as stated, fails on the code: a press on the canvas and a release with
no tick between them forward a single pointer event for identity 0, of phase 0,
with no phase-1 event before it. -/
theorem unmatched_release_counterexample :
    pointerPhases 0 (run Real.sqrt (fun x y : ℝ => x ^ y) (PageState.init ⟨300, 150⟩)
      [PageEvent.mousedown ⟨0, 0, 300, 150⟩ ⟨10, 10, 1⟩,
        PageEvent.documentMouseup ⟨0, 0, 300, 150⟩ ⟨10, 10, 0⟩]).2 = [0] := by
  simp [run, step, mousedown, onmouseup, getMousePos, pointerPhases]

theorem render_held_phases [LinearOrderedField α] (ms : MouseState α) (canvas : Canvas α)
    (dpr : Option α) (rect : Rect α) (p : Pos α) (hdown : ms.mouseDown = true)
    (hp : ms.mousePos = some p) :
    ∃ r : Canvas α × List (Call α),
      render ms canvas dpr rect = some r ∧ pointerPhases 0 r.2 = [1] := by
  unfold render
  by_cases hch : sizeChanged canvas rect = true
  · exact ⟨(⟨rect.width * dprOrOne dpr, rect.height * dprOrOne dpr⟩,
      [Call.core_on_mouse 0 1 p.x p.y ms.mouseButtons,
        Call.canvas_set_width (rect.width * dprOrOne dpr),
        Call.canvas_set_height (rect.height * dprOrOne dpr), Call.core_update,
        Call.core_render rect.width rect.height (dprOrOne dpr), Call.requestAnimationFrame]),
      by simp [hdown, hp, hch], by simp [pointerPhases]⟩
  · exact ⟨(canvas,
      [Call.core_on_mouse 0 1 p.x p.y ms.mouseButtons, Call.core_update,
        Call.core_render rect.width rect.height (dprOrOne dpr), Call.requestAnimationFrame]),
      by simp [hdown, hp, hch], by simp [pointerPhases]⟩

/-- While a button is held after a press, document-level moves forward nothing
and every frame forwards one phase-1 event for identity 0. -/
theorem run_held_phases [LinearOrderedField α] (sqrt : α → α) (pow : α → α → α)
    (t : PageState α) (mid : List (PageEvent α))
    (hh : t.documentHandlers = true) (hdown : t.mouse.mouseDown = true)
    (hp : ∃ p, t.mouse.mousePos = some p)
    (hmid : ∀ ev ∈ mid, ev.isMoveOrFrame = true) :
    pointerPhases 0 (run sqrt pow t mid).2 = List.replicate (mid.countP PageEvent.isFrame) 1 ∧
      (run sqrt pow t mid).1.documentHandlers = true ∧
      (run sqrt pow t mid).1.mouse.mouseDown = true ∧
      (run sqrt pow t mid).1.mouse.mouseButtons = t.mouse.mouseButtons := by
  induction mid generalizing t with
  | nil => exact ⟨rfl, hh, hdown, rfl⟩
  | cons ev rest ih =>
    have hev := hmid ev (List.mem_cons_self ev rest)
    have hrest : ∀ x ∈ rest, x.isMoveOrFrame = true :=
      fun x hx => hmid x (List.mem_cons_of_mem ev hx)
    cases ev with
    | mousedown r e => simp [PageEvent.isMoveOrFrame] at hev
    | documentMouseup r e => simp [PageEvent.isMoveOrFrame] at hev
    | documentMouseleave => simp [PageEvent.isMoveOrFrame] at hev
    | touch inp => simp [PageEvent.isMoveOrFrame] at hev
    | wheel r e => simp [PageEvent.isMoveOrFrame] at hev
    | documentMousemove r e =>
      have hs : step sqrt pow t (PageEvent.documentMousemove r e) =
          ({ t with mouse := onmousemove t.mouse r e }, []) := by
        simp [step, hh]
      obtain ⟨h1, h2, h3, h4⟩ := ih { t with mouse := onmousemove t.mouse r e } hh
        (by simp [onmousemove, hdown]) ⟨_, rfl⟩ hrest
      simp only [run, hs, List.nil_append, pointerPhases_append]
      refine ⟨?_, h2, h3, h4⟩
      rw [h1]
      simp [PageEvent.isFrame, List.countP_cons]
    | frame d r =>
      obtain ⟨p, hpp⟩ := hp
      obtain ⟨res, hres, hph⟩ := render_held_phases t.mouse t.canvas d r p hdown hpp
      have hs : step sqrt pow t (PageEvent.frame d r) = ({ t with canvas := res.1 }, res.2) := by
        simp [step, hres]
      obtain ⟨h1, h2, h3, h4⟩ := ih { t with canvas := res.1 } hh hdown ⟨p, hpp⟩ hrest
      simp only [run, hs, pointerPhases_append]
      refine ⟨?_, h2, h3, h4⟩
      rw [h1, hph]
      simp [PageEvent.isFrame, List.countP_cons, List.replicate_succ]

/-- C27, amended. For a press on the canvas followed by any interleaving of
document-level moves and render ticks and then a release, the pointer events
forwarded for identity 0 are one phase-1 event per tick followed by exactly one
phase-0 event; so the phase-0 event is preceded by a phase-1 event exactly when
at least one tick ran while the button was held. -/
theorem press_ticks_release [LinearOrderedField α] (sqrt : α → α) (pow : α → α → α)
    (s : PageState α) (rect0 : Rect α) (e0 : MouseEvent α) (mid : List (PageEvent α))
    (rect : Rect α) (e : MouseEvent α) (hmid : ∀ ev ∈ mid, ev.isMoveOrFrame = true) :
    pointerPhases 0 (run sqrt pow s
        (PageEvent.mousedown rect0 e0 :: (mid ++ [PageEvent.documentMouseup rect e]))).2 =
      List.replicate (mid.countP PageEvent.isFrame) 1 ++ [0] := by
  obtain ⟨h1, h2, _, _⟩ := run_held_phases sqrt pow
    (step sqrt pow s (PageEvent.mousedown rect0 e0)).1 mid rfl rfl ⟨_, rfl⟩ hmid
  have hrun : (run sqrt pow s
      (PageEvent.mousedown rect0 e0 :: (mid ++ [PageEvent.documentMouseup rect e]))).2 =
      (run sqrt pow (step sqrt pow s (PageEvent.mousedown rect0 e0)).1
        (mid ++ [PageEvent.documentMouseup rect e])).2 := rfl
  have hup : ∀ t : PageState α, t.documentHandlers = true →
      pointerPhases 0 (run sqrt pow t [PageEvent.documentMouseup rect e]).2 = [0] := by
    intro t ht
    simp [run, step, ht, onmouseup, pointerPhases]
  rw [hrun]
  generalize (step sqrt pow s (PageEvent.mousedown rect0 e0)).1 = s1 at h1 h2 ⊢
  rw [run_append]
  dsimp only
  rw [pointerPhases_append, h1, hup _ h2]

/-- Evaluation of the amended C27 over the real numbers: press, one tick, a
move, release. -/
theorem press_ticks_release_witness :
    pointerPhases 0 (run Real.sqrt (fun x y : ℝ => x ^ y) (PageState.init ⟨300, 150⟩)
      (PageEvent.mousedown ⟨0, 0, 300, 150⟩ ⟨10, 10, 1⟩ ::
        ([PageEvent.frame none ⟨0, 0, 300, 150⟩,
            PageEvent.documentMousemove ⟨0, 0, 300, 150⟩ ⟨20, 10, 1⟩] ++
          [PageEvent.documentMouseup ⟨0, 0, 300, 150⟩ ⟨20, 10, 0⟩]))).2 =
      List.replicate
        (([PageEvent.frame none ⟨0, 0, 300, 150⟩,
            PageEvent.documentMousemove ⟨0, 0, 300, 150⟩ ⟨20, 10, 1⟩] :
          List (PageEvent ℝ)).countP PageEvent.isFrame) 1 ++ [0] :=
  press_ticks_release Real.sqrt (fun x y : ℝ => x ^ y) (PageState.init ⟨300, 150⟩)
    ⟨0, 0, 300, 150⟩ ⟨10, 10, 1⟩ _ ⟨0, 0, 300, 150⟩ ⟨20, 10, 0⟩
    (by
      intro ev hev
      simp only [List.mem_cons, List.mem_singleton, List.not_mem_nil, or_false] at hev
      rcases hev with rfl | rfl <;> rfl)

/-! ## Claim C28: controller fixed points -/

theorem adaptiveQualityEvaluate_target_fps [LinearOrderedField α] (c : Core α) :
    (adaptiveQualityEvaluate c).target_fps = c.target_fps := by
  unfold adaptiveQualityEvaluate
  dsimp only
  split_ifs <;> rfl

theorem evaluateReadings_cons [LinearOrderedField α] (c : Core α) (t : α) (rest : List α) :
    evaluateReadings c (t :: rest) =
      evaluateReadings (adaptiveQualityEvaluate { c with avg_frame_time := t }) rest := rfl

/-- At level 0 a run of slow readings changes neither the level nor the label
density. -/
theorem evaluateReadings_slow_fixed [LinearOrderedField α] (c : Core α) (readings : List α)
    (hl : c.render_quality_level = 0)
    (hslow : ∀ t ∈ readings, t > 1.5 * (1000 / c.target_fps)) :
    (evaluateReadings c readings).render_quality_level = 0 ∧
      (evaluateReadings c readings).render_label_density = c.render_label_density := by
  induction readings generalizing c with
  | nil => exact ⟨hl, rfl⟩
  | cons t rest ih =>
    have hstep : adaptiveQualityEvaluate { c with avg_frame_time := t } =
        { c with avg_frame_time := t } := by
      rw [adaptiveQualityEvaluate_slow { c with avg_frame_time := t }
        (hslow t (List.mem_cons_self t rest))]
      simp [hl]
    rw [evaluateReadings_cons, hstep]
    exact ih { c with avg_frame_time := t } hl
      (fun x hx => hslow x (List.mem_cons_of_mem t hx))

/-- At level 2 a run of fast readings changes neither the level nor the label
density. -/
theorem evaluateReadings_fast_fixed [LinearOrderedField α] (c : Core α) (readings : List α)
    (htarget : 0 < c.target_fps) (hl : c.render_quality_level = 2)
    (hfast : ∀ t ∈ readings, t < 0.7 * (1000 / c.target_fps)) :
    (evaluateReadings c readings).render_quality_level = 2 ∧
      (evaluateReadings c readings).render_label_density = c.render_label_density := by
  induction readings generalizing c with
  | nil => exact ⟨hl, rfl⟩
  | cons t rest ih =>
    have hstep : adaptiveQualityEvaluate { c with avg_frame_time := t } =
        { c with avg_frame_time := t } := by
      rw [adaptiveQualityEvaluate_fast { c with avg_frame_time := t } htarget
        (hfast t (List.mem_cons_self t rest))]
      simp [hl]
    rw [evaluateReadings_cons, hstep]
    exact ih { c with avg_frame_time := t } htarget hl
      (fun x hx => hfast x (List.mem_cons_of_mem t hx))

theorem slow_step_level [LinearOrderedField α] (c : Core α) (t : α)
    (hslow : t > 1.5 * (1000 / c.target_fps)) :
    (adaptiveQualityEvaluate { c with avg_frame_time := t }).render_quality_level =
      (if c.render_quality_level > 0 then c.render_quality_level - 1
        else c.render_quality_level) := by
  rw [adaptiveQualityEvaluate_slow { c with avg_frame_time := t } hslow]
  dsimp only
  split_ifs <;> rfl

theorem fast_step_level [LinearOrderedField α] (c : Core α) (t : α)
    (htarget : 0 < c.target_fps) (hfast : t < 0.7 * (1000 / c.target_fps)) :
    (adaptiveQualityEvaluate { c with avg_frame_time := t }).render_quality_level =
      (if c.render_quality_level < 2 then c.render_quality_level + 1
        else c.render_quality_level) := by
  rw [adaptiveQualityEvaluate_fast { c with avg_frame_time := t } htarget hfast]
  dsimp only
  split_ifs <;> rfl

/-- C28. Controller fixed points. A slow evaluation (frame time above 1.5 times
the budget) at level 0, and a fast evaluation (frame time below 0.7 times the
budget, `targetFps > 0`) at level 2, return `Module.core` unchanged. Hence from a
level in `{0, 1, 2}`, under readings that all stay in the slow branch
(respectively the fast branch), the level and the label density after any number
of evaluations beyond the first two are those after the first two. -/
theorem controller_fixed_points [LinearOrderedField α] (c : Core α) :
    (c.avg_frame_time > 1.5 * (1000 / c.target_fps) → c.render_quality_level = 0 →
      adaptiveQualityEvaluate c = c) ∧
    (0 < c.target_fps → c.avg_frame_time < 0.7 * (1000 / c.target_fps) →
      c.render_quality_level = 2 → adaptiveQualityEvaluate c = c) ∧
    (∀ (t1 t2 : α) (rest : List α),
      (0 ≤ c.render_quality_level ∧ c.render_quality_level ≤ 2) →
      (∀ t ∈ t1 :: t2 :: rest, t > 1.5 * (1000 / c.target_fps)) →
      (evaluateReadings c (t1 :: t2 :: rest)).render_quality_level =
          (evaluateReadings c [t1, t2]).render_quality_level ∧
        (evaluateReadings c (t1 :: t2 :: rest)).render_label_density =
          (evaluateReadings c [t1, t2]).render_label_density) ∧
    (∀ (t1 t2 : α) (rest : List α), 0 < c.target_fps →
      (0 ≤ c.render_quality_level ∧ c.render_quality_level ≤ 2) →
      (∀ t ∈ t1 :: t2 :: rest, t < 0.7 * (1000 / c.target_fps)) →
      (evaluateReadings c (t1 :: t2 :: rest)).render_quality_level =
          (evaluateReadings c [t1, t2]).render_quality_level ∧
        (evaluateReadings c (t1 :: t2 :: rest)).render_label_density =
          (evaluateReadings c [t1, t2]).render_label_density) := by
  refine ⟨?_, ?_, ?_, ?_⟩
  · intro hslow hl
    rw [adaptiveQualityEvaluate_slow c hslow]
    simp [hl]
  · intro htarget hfast hl
    rw [adaptiveQualityEvaluate_fast c htarget hfast]
    simp [hl]
  · intro t1 t2 rest hl hslow
    have h1 := hslow t1 (by simp)
    have h2 := hslow t2 (by simp)
    have hrest : ∀ t ∈ rest, t > 1.5 * (1000 / c.target_fps) :=
      fun t ht => hslow t (by simp [ht])
    have htg1 : (adaptiveQualityEvaluate { c with avg_frame_time := t1 }).target_fps =
        c.target_fps := adaptiveQualityEvaluate_target_fps _
    have hl1 := slow_step_level c t1 h1
    have hl2 := slow_step_level (adaptiveQualityEvaluate { c with avg_frame_time := t1 }) t2
      (by rw [htg1]; exact h2)
    have htg2 : (evaluateReadings c [t1, t2]).target_fps = c.target_fps := by
      show (adaptiveQualityEvaluate _).target_fps = _
      rw [adaptiveQualityEvaluate_target_fps]
      exact htg1
    have hzero : (evaluateReadings c [t1, t2]).render_quality_level = 0 := by
      show (adaptiveQualityEvaluate _).render_quality_level = 0
      rw [hl2, hl1]
      split_ifs <;> omega
    have hsplit : evaluateReadings c (t1 :: t2 :: rest) =
        evaluateReadings (evaluateReadings c [t1, t2]) rest := rfl
    obtain ⟨ha, hb⟩ := evaluateReadings_slow_fixed (evaluateReadings c [t1, t2]) rest hzero
      (by rw [htg2]; exact hrest)
    rw [hsplit, ha, hb, hzero]
    exact ⟨rfl, rfl⟩
  · intro t1 t2 rest htarget hl hfast
    have h1 := hfast t1 (by simp)
    have h2 := hfast t2 (by simp)
    have hrest : ∀ t ∈ rest, t < 0.7 * (1000 / c.target_fps) :=
      fun t ht => hfast t (by simp [ht])
    have htg1 : (adaptiveQualityEvaluate { c with avg_frame_time := t1 }).target_fps =
        c.target_fps := adaptiveQualityEvaluate_target_fps _
    have hl1 := fast_step_level c t1 htarget h1
    have hl2 := fast_step_level (adaptiveQualityEvaluate { c with avg_frame_time := t1 }) t2
      (by rw [htg1]; exact htarget) (by rw [htg1]; exact h2)
    have htg2 : (evaluateReadings c [t1, t2]).target_fps = c.target_fps := by
      show (adaptiveQualityEvaluate _).target_fps = _
      rw [adaptiveQualityEvaluate_target_fps]
      exact htg1
    have htwo : (evaluateReadings c [t1, t2]).render_quality_level = 2 := by
      show (adaptiveQualityEvaluate _).render_quality_level = 2
      rw [hl2, hl1]
      split_ifs <;> omega
    have hsplit : evaluateReadings c (t1 :: t2 :: rest) =
        evaluateReadings (evaluateReadings c [t1, t2]) rest := rfl
    obtain ⟨ha, hb⟩ := evaluateReadings_fast_fixed (evaluateReadings c [t1, t2]) rest
      (by rw [htg2]; exact htarget) htwo (by rw [htg2]; exact hrest)
    rw [hsplit, ha, hb, htwo]
    exact ⟨rfl, rfl⟩

/-- Evaluation of C28 over the rationals: from level 2 at 60 fps, four slow
readings leave the level and density of the first two. -/
theorem controller_fixed_points_witness :
    (evaluateReadings (Core.sample 2 1 60 100 : Core ℚ)
        (100 :: 90 :: [80, 120])).render_quality_level =
        (evaluateReadings (Core.sample 2 1 60 100 : Core ℚ) [100, 90]).render_quality_level ∧
      (evaluateReadings (Core.sample 2 1 60 100 : Core ℚ)
        (100 :: 90 :: [80, 120])).render_label_density =
        (evaluateReadings (Core.sample 2 1 60 100 : Core ℚ) [100, 90]).render_label_density :=
  (controller_fixed_points (Core.sample 2 1 60 100 : Core ℚ)).2.2.1 100 90 [80, 120]
    (by norm_num [Core.sample])
    (by
      intro t ht
      simp only [List.mem_cons, List.mem_singleton, List.not_mem_nil, or_false] at ht
      rcases ht with rfl | rfl | rfl | rfl <;> norm_num [Core.sample])

/-! ## Claim C29: wheel factor homomorphism -/

theorem onWheelEvent_of_delta [LinearOrderedField α] (pow : α → α → α) (rect : Rect α)
    (e : WheelEvent α) (d : α) (h : getMouseWheelDelta e = Except.ok d) :
    zoomFactors (onWheelEvent pow rect e).1 = [pow 1.05 (d * 2)] := by
  simp only [onWheelEvent, h]
  simp [zoomFactors]

/-- C29. Wheel factor homomorphism over the real numbers, with `Math.pow` the
real power. For wheel events with normalised deltas `d1`, `d2` and `d1 + d2` the
forwarded factors satisfy `f12 = f1 * f2`; a normalised delta 0 forwards the
factor 1; and two events with opposite normalised deltas forward factors whose
product is 1. -/
theorem wheel_factor_homomorphism (rect : Rect ℝ) :
    (∀ (e1 e2 e12 : WheelEvent ℝ) (d1 d2 : ℝ),
      getMouseWheelDelta e1 = Except.ok d1 → getMouseWheelDelta e2 = Except.ok d2 →
      getMouseWheelDelta e12 = Except.ok (d1 + d2) →
      ∃ f1 f2 f12 : ℝ,
        zoomFactors (onWheelEvent (fun x y : ℝ => x ^ y) rect e1).1 = [f1] ∧
          zoomFactors (onWheelEvent (fun x y : ℝ => x ^ y) rect e2).1 = [f2] ∧
          zoomFactors (onWheelEvent (fun x y : ℝ => x ^ y) rect e12).1 = [f12] ∧
          f12 = f1 * f2) ∧
    (∀ e : WheelEvent ℝ, getMouseWheelDelta e = Except.ok 0 →
      zoomFactors (onWheelEvent (fun x y : ℝ => x ^ y) rect e).1 = [1]) ∧
    (∀ (e e' : WheelEvent ℝ) (d : ℝ),
      getMouseWheelDelta e = Except.ok d → getMouseWheelDelta e' = Except.ok (-d) →
      ∃ f f' : ℝ,
        zoomFactors (onWheelEvent (fun x y : ℝ => x ^ y) rect e).1 = [f] ∧
          zoomFactors (onWheelEvent (fun x y : ℝ => x ^ y) rect e').1 = [f'] ∧
          f * f' = 1) := by
  have hbase : (0 : ℝ) < 1.05 := by norm_num
  refine ⟨?_, ?_, ?_⟩
  · intro e1 e2 e12 d1 d2 h1 h2 h12
    refine ⟨_, _, _, onWheelEvent_of_delta _ rect e1 d1 h1,
      onWheelEvent_of_delta _ rect e2 d2 h2, onWheelEvent_of_delta _ rect e12 _ h12, ?_⟩
    show (1.05 : ℝ) ^ ((d1 + d2) * 2) = (1.05 : ℝ) ^ (d1 * 2) * (1.05 : ℝ) ^ (d2 * 2)
    rw [add_mul, Real.rpow_add hbase]
  · intro e h
    rw [onWheelEvent_of_delta _ rect e 0 h]
    show [(1.05 : ℝ) ^ ((0 : ℝ) * 2)] = [1]
    rw [zero_mul, Real.rpow_zero]
  · intro e e' d h h'
    refine ⟨_, _, onWheelEvent_of_delta _ rect e d h, onWheelEvent_of_delta _ rect e' _ h', ?_⟩
    show (1.05 : ℝ) ^ (d * 2) * (1.05 : ℝ) ^ (-d * 2) = 1
    rw [← Real.rpow_add hbase]
    rw [show d * 2 + -d * 2 = 0 by ring, Real.rpow_zero]

/-- Evaluation of C29: `mousewheel` events with `wheelDelta` 120 and -120. -/
theorem wheel_factor_homomorphism_witness :
    ∃ f f' : ℝ,
      zoomFactors (onWheelEvent (fun x y : ℝ => x ^ y) ⟨0, 0, 100, 100⟩
          ⟨⟨10, 10, 0⟩, "mousewheel", 120, 0⟩).1 = [f] ∧
        zoomFactors (onWheelEvent (fun x y : ℝ => x ^ y) ⟨0, 0, 100, 100⟩
          ⟨⟨10, 10, 0⟩, "mousewheel", -120, 0⟩).1 = [f'] ∧
        f * f' = 1 :=
  (wheel_factor_homomorphism ⟨0, 0, 100, 100⟩).2.2
    ⟨⟨10, 10, 0⟩, "mousewheel", 120, 0⟩ ⟨⟨10, 10, 0⟩, "mousewheel", -120, 0⟩ (120 / 120)
    (by simp [getMouseWheelDelta])
    (by
      have hne : ¬ ("mousewheel" = "DOMMouseScroll") := by decide
      simp only [getMouseWheelDelta, hne, if_false, if_true]
      congr 1
      norm_num)

/-! ## Claim C24: angle normalisation -/

theorem mathSign_of_pos [LinearOrderedField α] (a : α) (h : 0 < a) : mathSign a = 1 := by
  simp [mathSign, h]

theorem mathSign_of_neg [LinearOrderedField α] (a : α) (h : a < 0) : mathSign a = -1 := by
  simp [mathSign, h, not_lt.mpr h.le]

/-- The remainder of a non-negative dividend by a positive divisor lies in
`[0, b)` and differs from the dividend by an integer multiple of the divisor. -/
theorem jsRem_of_nonneg [LinearOrderedField α] [FloorRing α] (a b : α) (hb : 0 < b)
    (ha : 0 ≤ a) :
    0 ≤ jsRem a b ∧ jsRem a b < b ∧ jsRem a b = a - b * ((Int.floor (a / b) : Int) : α) ∧
      0 ≤ Int.floor (a / b) := by
  have hq : 0 ≤ a / b := div_nonneg ha hb.le
  have hrem : jsRem a b = a - b * ((Int.floor (a / b) : Int) : α) := by
    unfold jsRem; rw [if_pos hq]
  have h1 : ((Int.floor (a / b) : Int) : α) ≤ a / b := Int.floor_le _
  have h2 : a / b < ((Int.floor (a / b) : Int) : α) + 1 := Int.lt_floor_add_one _
  have h1' : b * ((Int.floor (a / b) : Int) : α) ≤ a := by
    have := mul_le_mul_of_nonneg_left h1 hb.le
    rwa [mul_div_cancel₀ a hb.ne'] at this
  have h2' : a < b * (((Int.floor (a / b) : Int) : α) + 1) := by
    have := mul_lt_mul_of_pos_left h2 hb
    rwa [mul_div_cancel₀ a hb.ne'] at this
  refine ⟨by rw [hrem]; linarith, by rw [hrem]; linarith, hrem, Int.floor_nonneg.mpr hq⟩

/-- The remainder of a negative dividend by a positive divisor lies in `(-b, 0]`
and differs from the dividend by an integer multiple of the divisor. -/
theorem jsRem_of_neg [LinearOrderedField α] [FloorRing α] (a b : α) (hb : 0 < b)
    (ha : a < 0) :
    -b < jsRem a b ∧ jsRem a b ≤ 0 ∧ jsRem a b = a - b * ((Int.ceil (a / b) : Int) : α) := by
  have hq : ¬ 0 ≤ a / b := not_le.mpr (div_neg_of_neg_of_pos ha hb)
  have hrem : jsRem a b = a - b * ((Int.ceil (a / b) : Int) : α) := by
    unfold jsRem; rw [if_neg hq]
  have h1 : a / b ≤ ((Int.ceil (a / b) : Int) : α) := Int.le_ceil _
  have h2 : ((Int.ceil (a / b) : Int) : α) < a / b + 1 := Int.ceil_lt_add_one _
  have h1' : a ≤ b * ((Int.ceil (a / b) : Int) : α) := by
    have := mul_le_mul_of_nonneg_left h1 hb.le
    rwa [mul_div_cancel₀ a hb.ne'] at this
  have h2' : b * ((Int.ceil (a / b) : Int) : α) < a + b := by
    have := mul_lt_mul_of_pos_left h2 hb
    rwa [mul_add, mul_div_cancel₀ a hb.ne', mul_one] at this
  refine ⟨by rw [hrem]; linarith, by rw [hrem]; linarith, hrem⟩

/-- What `anpm` does guarantee: for `pi > 0` the result is in the closed range
`[-pi, pi]`, differs from the argument by an integer multiple of `2 * pi`, and is
below `pi` for every non-negative argument. -/
theorem anpm_closed_range [LinearOrderedField α] [FloorRing α] (pi a : α) (hpi : 0 < pi) :
    -pi ≤ anpm pi a ∧ anpm pi a ≤ pi ∧ (∃ k : Int, anpm pi a - a = (k : α) * (2 * pi)) ∧
      (0 ≤ a → anpm pi a < pi) := by
  have hb : (0 : α) < 2 * pi := by linarith
  unfold anpm
  dsimp only
  rcases le_or_lt 0 a with ha | ha
  · obtain ⟨h0, h1, hrem, hfl⟩ := jsRem_of_nonneg a (2 * pi) hb ha
    by_cases hbig : |jsRem a (2 * pi)| ≥ pi
    · rw [if_pos hbig]
      rw [abs_of_nonneg h0] at hbig
      have hapos : 0 < a := by
        have hfl' : (0 : α) ≤ ((Int.floor (a / (2 * pi)) : Int) : α) := by exact_mod_cast hfl
        have : 0 ≤ 2 * pi * ((Int.floor (a / (2 * pi)) : Int) : α) :=
          mul_nonneg hb.le hfl'
        have hge : pi ≤ a - 2 * pi * ((Int.floor (a / (2 * pi)) : Int) : α) := by
          rw [← hrem]; exact hbig
        linarith
      rw [mathSign_of_pos a hapos]
      refine ⟨by linarith, by linarith, ⟨-(Int.floor (a / (2 * pi))) - 1, ?_⟩,
        fun _ => by linarith⟩
      rw [hrem]; push_cast; ring
    · rw [if_neg hbig]
      rw [abs_of_nonneg h0] at hbig
      have hlt : jsRem a (2 * pi) < pi := not_le.mp hbig
      refine ⟨by linarith, by linarith, ⟨-(Int.floor (a / (2 * pi))), ?_⟩, fun _ => hlt⟩
      rw [hrem]; push_cast; ring
  · obtain ⟨h0, h1, hrem⟩ := jsRem_of_neg a (2 * pi) hb ha
    by_cases hbig : |jsRem a (2 * pi)| ≥ pi
    · rw [if_pos hbig]
      rw [abs_of_nonpos h1] at hbig
      rw [mathSign_of_neg a ha]
      refine ⟨by linarith, by linarith, ⟨-(Int.ceil (a / (2 * pi))) + 1, ?_⟩,
        fun h => absurd h (not_le.mpr ha)⟩
      rw [hrem]; push_cast; ring
    · rw [if_neg hbig]
      rw [abs_of_nonpos h1] at hbig
      have hgt : -jsRem a (2 * pi) < pi := not_le.mp hbig
      refine ⟨by linarith, by linarith, ⟨-(Int.ceil (a / (2 * pi))), ?_⟩,
        fun h => absurd h (not_le.mpr ha)⟩
      rw [hrem]; push_cast; ring

/-- At the argument `-pi` the remainder is `-pi` itself and `anpm` returns `pi`. -/
theorem anpm_neg_pi [LinearOrderedField α] [FloorRing α] (pi : α) (hpi : 0 < pi) :
    anpm pi (-pi) = pi := by
  have hb : (0 : α) < 2 * pi := by linarith
  obtain ⟨_, _, hrem⟩ := jsRem_of_neg (-pi) (2 * pi) hb (by linarith)
  have hq : -pi / (2 * pi) = -(1 / 2) := by
    field_simp
    ring
  have hceil : Int.ceil (-pi / (2 * pi)) = 0 := by
    rw [hq, Int.ceil_eq_iff]
    constructor <;> norm_num
  have hrem' : jsRem (-pi) (2 * pi) = -pi := by
    rw [hrem, hceil]; simp
  unfold anpm
  dsimp only
  rw [hrem', if_pos (by rw [abs_neg, abs_of_pos hpi]), mathSign_of_neg (-pi) (by linarith)]
  ring

/-- C24. The range claim fails on the code at the angle `-pi`: over the real
numbers `anpm(-pi)` is `+pi`, which is not below `+pi` (the comment above the
function states the range `-pi <= a < +pi`). -/
theorem anpm_at_neg_pi :
    anpm Real.pi (-Real.pi) = Real.pi ∧ ¬ anpm Real.pi (-Real.pi) < Real.pi := by
  have h := anpm_neg_pi Real.pi Real.pi_pos
  exact ⟨h, by rw [h]; exact lt_irrefl _⟩

end Theorems

end Stellarium
